import Mathlib

/-! Digital wallet clients: retry wrapper, offline queue and session handling

A shallow embedding of the two client applications of the repository:

* `WalletFrontend`: the user-id based client (`src/wallet-frontend/src/App.js`),
  whose remote calls all pass through `apiCallWithRetry`;
* `Frontend`: the token based client (`src/frontend/src/App.js`), which keeps the
  offline queue `offlineTxs` in component state and in `localStorage`.

Remote calls are modelled by their answers: a handler takes the answer of each
request it may issue as an argument and returns the state after the handler has
settled, together with the list of requests it issued.
-/

namespace WalletFrontend

/-! ## The retry wrapper -/

/-- What `apiCallWithRetry` does that can be observed from outside, in order. -/
inductive Event where
  /-- The call `fn()`; `call` counts the calls made before this one. -/
  | invoke (call : Nat)
  /-- The notification `toast.warn(...)` with its text. -/
  | toastWarn (text : String)
  /-- The wait `setTimeout(resolve, ms)`. -/
  | sleep (ms : Nat)
  deriving DecidableEq, Repr

/-- How the promise returned by an `async` function settles. `resolved none` is a
promise resolved with `undefined` because the body ended without `return`. -/
inductive Settled (ε α : Type) where
  | resolved (value : Option α)
  | rejected (err : ε)
  deriving DecidableEq, Repr

/-- The result of one run of `apiCallWithRetry`. -/
structure RetryRun (ε α : Type) where
  outcome : Settled ε α
  trace : List Event
  deriving DecidableEq, Repr

/-- The text of the template literal "Retrying... (i+1/retries)". -/
def retryText (i : Nat) (retries : Int) : String :=
  "Retrying... (" ++ toString (i + 1) ++ "/" ++ toString retries ++ ")"

/-- The `for (let i = 0; i < retries; i++)` loop of `apiCallWithRetry`, entered with
loop variable `i` after `calls` calls of `fn`. The operation `fn` is given by its
answers: `fn c` is what the call made after `c` earlier calls does (`.ok v`: the
promise resolves with `v`; `.error e`: it rejects with `e`). The first argument
bounds the number of iterations; `apiCallWithRetry` passes `retries.toNat`, which
the loop never exceeds, so the first equation is the loop test failing. -/
def retryLoop {ε α : Type} (fn : Nat → Except ε α) (retries : Int) (delay : Nat) :
    Nat → Nat → Nat → RetryRun ε α
  | 0, _, _ => ⟨.resolved none, []⟩
  | n + 1, i, calls =>
    if (i : Int) < retries then
      match fn calls with
      | .ok v => ⟨.resolved (some v), [.invoke calls]⟩
      | .error err =>
        if (i : Int) = retries - 1 then ⟨.rejected err, [.invoke calls]⟩
        else
          let rest := retryLoop fn retries delay n (i + 1) (calls + 1)
          ⟨rest.outcome,
            .invoke calls :: .toastWarn (retryText i retries) :: .sleep delay :: rest.trace⟩
    else ⟨.resolved none, []⟩

/-- The default of the parameter `retries`. -/
def defaultRetries : Int := 3

/-- The default of the parameter `delay`, in milliseconds. -/
def defaultDelay : Nat := 1000

/-- The function `apiCallWithRetry(fn, retries, delay)`. `retries` is an integer count
and `delay` a number of milliseconds. -/
def apiCallWithRetry {ε α : Type} (fn : Nat → Except ε α) (retries : Int) (delay : Nat) :
    RetryRun ε α :=
  retryLoop fn retries delay retries.toNat 0 0

/-- Number of calls of the operation in a trace. -/
def invocations (tr : List Event) : Nat :=
  tr.countP fun ev => match ev with
    | .invoke _ => true
    | _ => false

/-- Number of retry notifications in a trace. -/
def notifications (tr : List Event) : Nat :=
  tr.countP fun ev => match ev with
    | .toastWarn _ => true
    | _ => false

/-- The waits of a trace, in order, in milliseconds. -/
def waits : List Event → List Nat
  | [] => []
  | .sleep ms :: tr => ms :: waits tr
  | _ :: tr => waits tr

/-- An error thrown by a remote call: `err.response?.status` and
`err.response?.data?.error`. -/
structure ApiError where
  status : Option Nat
  error : Option String
  deriving DecidableEq, Repr

/-- An operation whose first two calls fail and whose third call yields 7. -/
def failsTwice : Nat → Except ApiError Nat :=
  fun c => if c < 2 then .error ⟨some 500, none⟩ else .ok 7

/-- An operation every call of which fails; the error carries the number of the call
as its status. -/
def alwaysFails : Nat → Except ApiError Nat :=
  fun c => .error ⟨some (500 + c), none⟩

/-- An operation every call of which is answered with HTTP 401. -/
def unauthorized : Nat → Except ApiError Nat :=
  fun _ => .error ⟨some 401, some "Token has expired"⟩

/-- The events of `k` failed and retried attempts, the first with loop variable `i`
after `calls` calls. -/
def failTrace (retries : Int) (delay : Nat) : Nat → Nat → Nat → List Event
  | 0, _, _ => []
  | k + 1, i, calls =>
    .invoke calls :: .toastWarn (retryText i retries) :: .sleep delay ::
      failTrace retries delay k (i + 1) (calls + 1)

/-! ## The payment request of the user-id client -/

/-- The body `{ amount, is_offline: !isOnline }` that `handlePay` posts. -/
structure PayBody where
  amount : String
  is_offline : Bool
  deriving DecidableEq, Repr

/-- The request `axios.post(url, body)` built by the operation of `handlePay`. -/
structure PayRequest where
  url : String
  body : PayBody
  deriving DecidableEq, Repr

/-- The text of `userId` inside a template literal; `null` prints as "null". -/
def userIdText : Option Nat → String
  | some id => toString id
  | none => "null"

/-- The request built by the arrow function that `handlePay` hands to
`apiCallWithRetry`, from the state variables `userId`, `amount` and `isOnline` that
the function closes over. -/
def payRequest (userId : Option Nat) (amount : String) (isOnline : Bool) : PayRequest :=
  { url := "http://localhost:8000/pay/" ++ userIdText userId ++ "/",
    body := { amount := amount, is_offline := !isOnline } }

/-- The requests that reach the network during the `apiCallWithRetry` run of
`handlePay`, in order: every call of the operation builds and posts its request
anew; `server c` is the answer to the call made after `c` earlier calls. -/
def payRequests {α : Type} (userId : Option Nat) (amount : String) (isOnline : Bool)
    (server : Nat → PayRequest → Except ApiError α) (retries : Int) (delay : Nat) :
    List PayRequest :=
  (apiCallWithRetry (fun c => server c (payRequest userId amount isOnline)) retries
      delay).trace.filterMap fun ev =>
    match ev with
    | .invoke _ => some (payRequest userId amount isOnline)
    | _ => none

end WalletFrontend

namespace Frontend

/-! ## Data of the token client -/

/-- An error thrown by an axios call: `error.response?.status` and
`error.response?.data?.error`. -/
structure ApiError where
  status : Option Nat
  error : Option String
  deriving DecidableEq, Repr

/-- The expression `error.response?.data?.error || fallback`. -/
def errorText (e : ApiError) (fallback : String) : String :=
  match e.error with
  | some msg => if msg = "" then fallback else msg
  | none => fallback

/-- The `user` object of a login or registration answer. -/
structure User where
  id : Nat
  name : String
  email : String
  deriving DecidableEq, Repr

/-- The answer of `GET /wallet`. -/
structure Wallet where
  balance : Int
  deriving DecidableEq, Repr

/-- One entry of the answer of `GET /transactions`, with the fields the dashboard
shows. -/
structure Transaction where
  id : Nat
  type : String
  amount : Int
  description : String
  timestamp : String
  status : String
  deriving DecidableEq, Repr

/-- The state variable `transferForm`. -/
structure TransferForm where
  receiver_email : String
  amount : String
  description : String
  deriving DecidableEq, Repr

/-- The state variable `qrForm`. -/
structure QrForm where
  amount : String
  description : String
  deriving DecidableEq, Repr

/-- The state variable `loginForm`. -/
structure LoginForm where
  email : String
  password : String
  deriving DecidableEq, Repr

/-- The state variable `registerForm`. -/
structure RegisterForm where
  name : String
  email : String
  password : String
  deriving DecidableEq, Repr

/-- An entry of the offline queue: the object
`{ ...transferForm, qr_data, timestamp }` built by `handleTransfer`. -/
structure OfflineTx where
  receiver_email : String
  amount : String
  description : String
  qr_data : String
  timestamp : String
  deriving DecidableEq, Repr

/-- The two keys of `localStorage` the client uses; `none` is an absent key. -/
structure Storage where
  token : Option String
  offlineTxs : Option String
  deriving DecidableEq, Repr

/-- The state variables of `App` together with `localStorage`. -/
structure AppState where
  currentView : String
  user : Option User
  token : Option String
  wallet : Option Wallet
  transactions : List Transaction
  loading : Bool
  error : String
  success : String
  qrCode : String
  offlineTxs : List OfflineTx
  isOnline : Bool
  showScanner : Bool
  loginForm : LoginForm
  registerForm : RegisterForm
  qrForm : QrForm
  transferForm : TransferForm
  localStorage : Storage
  deriving DecidableEq, Repr

/-- The answer of `POST /sync_offline_transactions`: the entries the ledger reports
as synced and as failed. -/
structure SyncResponse where
  synced : List OfflineTx
  failed : List OfflineTx
  deriving DecidableEq, Repr

/-- The answer of `POST /login` and of `POST /register`. -/
structure AuthResponse where
  token : String
  user : User
  deriving DecidableEq, Repr

/-- A request sent to the remote ledger. `authorization` is the header value
"Bearer <token>". -/
inductive Request where
  | getWallet (authorization : String)
  | getTransactions (authorization : String)
  | postSyncOfflineTransactions (authorization : String)
  | postLogin (body : LoginForm)
  | postRegister (body : RegisterForm)
  | postGenerateQr (body : QrForm) (authorization : String)
  | postTransact (body : TransferForm) (authorization : String)
  | postProcessQr (qr_data : String) (authorization : String)
  deriving DecidableEq, Repr

/-- What a handler has done when it has settled: the state, the requests it sent, in
order, and whether it ended by throwing an error that nothing caught. -/
structure Run where
  state : AppState
  requests : List Request
  threw : Bool
  deriving DecidableEq, Repr

/-! ## JSON text -/

/-- The double quote character. -/
def dq : String := String.singleton (Char.ofNat 34)

/-- A hexadecimal digit, lower case. -/
def hexDigit (n : Nat) : Char :=
  if n < 10 then Char.ofNat (48 + n) else Char.ofNat (87 + n)

/-- The escape of one character inside a JSON string, as `JSON.stringify` writes it. -/
def jsonEscape (c : Char) : List Char :=
  if c.toNat = 34 then [Char.ofNat 92, Char.ofNat 34]
  else if c.toNat = 92 then [Char.ofNat 92, Char.ofNat 92]
  else if c.toNat = 8 then [Char.ofNat 92, 'b']
  else if c.toNat = 9 then [Char.ofNat 92, 't']
  else if c.toNat = 10 then [Char.ofNat 92, 'n']
  else if c.toNat = 12 then [Char.ofNat 92, 'f']
  else if c.toNat = 13 then [Char.ofNat 92, 'r']
  else if c.toNat < 32 then
    [Char.ofNat 92, 'u', '0', '0', hexDigit (c.toNat / 16), hexDigit (c.toNat % 16)]
  else [c]

/-- The text `JSON.stringify(s)` of a string `s`. -/
def jsonString (s : String) : String :=
  dq ++ String.mk (s.toList.flatMap jsonEscape) ++ dq

/-- A property name followed by a colon. -/
def jsonKey (name : String) : String :=
  dq ++ name ++ dq ++ ":"

/-- The text `JSON.stringify({ user_id, amount, description })`. -/
def stringifyQrData (user_id : Nat) (amount description : String) : String :=
  "\x7b" ++ jsonKey "user_id" ++ toString user_id ++ "," ++
    jsonKey "amount" ++ jsonString amount ++ "," ++
    jsonKey "description" ++ jsonString description ++ "\x7d"

/-- The text `JSON.stringify(tx)` of a queue entry. -/
def stringifyOfflineTx (tx : OfflineTx) : String :=
  "\x7b" ++ jsonKey "receiver_email" ++ jsonString tx.receiver_email ++ "," ++
    jsonKey "amount" ++ jsonString tx.amount ++ "," ++
    jsonKey "description" ++ jsonString tx.description ++ "," ++
    jsonKey "qr_data" ++ jsonString tx.qr_data ++ "," ++
    jsonKey "timestamp" ++ jsonString tx.timestamp ++ "\x7d"

/-- The text `JSON.stringify(txs)` of the queue. -/
def stringifyOfflineTxs (txs : List OfflineTx) : String :=
  "[" ++ ",".intercalate (txs.map stringifyOfflineTx) ++ "]"

/-! ## Handlers of the token client -/

/-- Truthiness of `token`: neither `null` nor the empty string. -/
def tokenPresent : Option String → Bool
  | some t => t ≠ ""
  | none => false

/-- The header value of the template literal "Bearer token"; `null` prints as
"null". -/
def bearer (token : Option String) : String :=
  "Bearer " ++ token.getD "null"

/-- The empty transfer form. -/
def emptyTransferForm : TransferForm := ⟨"", "", ""⟩

/-- The function `logout`. -/
def logout (s : AppState) : AppState :=
  { s with
    token := none, user := none, wallet := none, transactions := [],
    localStorage := { s.localStorage with token := none },
    currentView := "landing" }

/-- The function `fetchUserData`; `walletAnswer` and `transactionsAnswer` are the
answers of the ledger to the two requests. -/
def fetchUserData (s : AppState) (walletAnswer : Except ApiError Wallet)
    (transactionsAnswer : Except ApiError (List Transaction)) : Run :=
  if !tokenPresent s.token then ⟨s, [], false⟩
  else
    let s1 := { s with loading := true }
    let onError (e : ApiError) (s2 : AppState) : AppState :=
      let s3 := { s2 with error := errorText e "Failed to fetch user data" }
      let s4 := if e.status = some 401 then logout s3 else s3
      { s4 with loading := false }
    match walletAnswer with
    | .error e => ⟨onError e s1, [.getWallet (bearer s.token)], false⟩
    | .ok w =>
      let s2 := { s1 with wallet := some w }
      match transactionsAnswer with
      | .error e =>
        ⟨onError e s2, [.getWallet (bearer s.token), .getTransactions (bearer s.token)],
          false⟩
      | .ok txs =>
        ⟨{ s2 with transactions := txs, currentView := "dashboard", loading := false },
          [.getWallet (bearer s.token), .getTransactions (bearer s.token)], false⟩

/-- Runs `fetchUserData()`, started without `await` by a handler that has reached
state `s` with the requests `sent`: its effects follow those of the handler. The
closure of `fetchUserData` holds the token of the render the handler started in. -/
def thenFetchUserData (s : AppState) (sent : List Request)
    (walletAnswer : Except ApiError Wallet)
    (transactionsAnswer : Except ApiError (List Transaction)) : Run :=
  let r := fetchUserData s walletAnswer transactionsAnswer
  ⟨r.state, sent ++ r.requests, false⟩

/-- The function `syncOfflineTransactions`; `answer` is the answer of the ledger to
the sync request. -/
def syncOfflineTransactions (s : AppState) (answer : Except ApiError SyncResponse)
    (walletAnswer : Except ApiError Wallet)
    (transactionsAnswer : Except ApiError (List Transaction)) : Run :=
  if !tokenPresent s.token || s.offlineTxs.length == 0 then ⟨s, [], false⟩
  else
    let s1 := { s with loading := true, error := "" }
    let sent := [Request.postSyncOfflineTransactions (bearer s.token)]
    match answer with
    | .error e =>
      ⟨{ s1 with error := errorText e "Failed to sync offline transactions",
                 loading := false }, sent, false⟩
    | .ok data =>
      let s2 := { s1 with
        success := "Synced " ++ toString data.synced.length ++ " transactions successfully!" }
      let s3 := if data.failed.length > 0 then
          { s2 with error := "Failed to sync " ++ toString data.failed.length ++ " transactions" }
        else s2
      let s4 := { s3 with
        offlineTxs := [],
        localStorage := { s3.localStorage with offlineTxs := some "[]" },
        loading := false }
      thenFetchUserData s4 sent walletAnswer transactionsAnswer

/-- The function `generateQR`. -/
def generateQR (s : AppState) (answer : Except ApiError String) : Run :=
  let s1 := { s with loading := true, error := "" }
  let sent := [Request.postGenerateQr s.qrForm (bearer s.token)]
  match answer with
  | .ok qr_code =>
    ⟨{ s1 with qrCode := qr_code, success := "QR Code generated successfully!",
               loading := false }, sent, false⟩
  | .error e =>
    ⟨{ s1 with error := errorText e "Failed to generate QR code", loading := false },
      sent, false⟩

/-- The queue entry that `handleTransfer` builds for user `u` at clock reading `now`
(the text of `new Date().toISOString()`). -/
def offlineTxOf (u : User) (form : TransferForm) (now : String) : OfflineTx :=
  { receiver_email := form.receiver_email,
    amount := form.amount,
    description := form.description,
    qr_data := stringifyQrData u.id form.amount form.description,
    timestamp := now }

/-- The function `handleTransfer`; `now` is the clock reading and `answer` the answer
of the ledger to the transact request. When `user` is `null` the offline branch
throws a `TypeError` at `user.id`, after `setLoading(true)` and `setError('')`. -/
def handleTransfer (s : AppState) (now : String) (answer : Except ApiError Unit)
    (walletAnswer : Except ApiError Wallet)
    (transactionsAnswer : Except ApiError (List Transaction)) : Run :=
  let s1 := { s with loading := true, error := "" }
  if !s.isOnline then
    match s.user with
    | none => ⟨s1, [], true⟩
    | some u =>
      let offlineTx := offlineTxOf u s.transferForm now
      let updatedOfflineTxs := s.offlineTxs ++ [offlineTx]
      ⟨{ s1 with
          offlineTxs := updatedOfflineTxs,
          localStorage :=
            { s1.localStorage with offlineTxs := some (stringifyOfflineTxs updatedOfflineTxs) },
          success := "Transaction queued for offline sync!",
          transferForm := emptyTransferForm,
          loading := false }, [], false⟩
  else
    let sent := [Request.postTransact s.transferForm (bearer s.token)]
    match answer with
    | .error e =>
      ⟨{ s1 with error := errorText e "Transfer failed", loading := false }, sent, false⟩
    | .ok _ =>
      let s2 := { s1 with
        success := "Transfer completed successfully!",
        transferForm := emptyTransferForm,
        loading := false }
      thenFetchUserData s2 sent walletAnswer transactionsAnswer

/-- The function `handleQrScan`. -/
def handleQrScan (s : AppState) (data : String) (answer : Except ApiError Unit)
    (walletAnswer : Except ApiError Wallet)
    (transactionsAnswer : Except ApiError (List Transaction)) : Run :=
  if data = "" then ⟨s, [], false⟩
  else
    let s1 := { s with showScanner := false, loading := true, error := "" }
    let sent := [Request.postProcessQr data (bearer s.token)]
    match answer with
    | .error e =>
      ⟨{ s1 with error := errorText e "QR payment failed", loading := false }, sent, false⟩
    | .ok _ =>
      let s2 := { s1 with success := "QR payment completed successfully!", loading := false }
      thenFetchUserData s2 sent walletAnswer transactionsAnswer

/-- The state after the user has typed `form` into the transfer form. -/
def fillTransferForm (s : AppState) (form : TransferForm) : AppState :=
  { s with transferForm := form }

/-- A sequence of offline submissions: each element is the form typed and the
clock reading at submission; the answers of the ledger play no part offline. -/
def submitAll (s : AppState) : List (TransferForm × String) → AppState
  | [] => s
  | (form, now) :: rest =>
    submitAll (handleTransfer (fillTransferForm s form) now (.ok ()) (.ok ⟨0⟩)
      (.ok [])).state rest

/-- A session restored from a stored token: the token is read from `localStorage`,
`user` has its initial value `null`, and the device is offline. -/
def restoredOffline : AppState :=
  { currentView := "dashboard", user := none, token := some "t", wallet := none,
    transactions := [], loading := false, error := "", success := "", qrCode := "",
    offlineTxs := [], isOnline := false, showScanner := false,
    loginForm := ⟨"", ""⟩, registerForm := ⟨"", "", ""⟩, qrForm := ⟨"", ""⟩,
    transferForm := ⟨"bob@x.com", "1000", "rent"⟩,
    localStorage := ⟨some "t", none⟩ }

/-- A session after login: user 7 is loaded; the device is online. -/
def loggedIn : AppState :=
  { restoredOffline with user := some ⟨7, "Ada", "ada@x.com"⟩, isOnline := true }

/-- The session `loggedIn` with the device offline. -/
def loggedInOffline : AppState :=
  { loggedIn with isOnline := false }

/-- The answer of the ledger to a request made with an expired token. -/
def expired : ApiError := ⟨some 401, some "Token has expired"⟩

end Frontend

namespace Frontend

/-! ## The token client as a machine driven by events

Handlers run up to their first `await` when they are called and go on when the
answer arrives; in between, other events are handled on the state of the latest
render. -/

/-- The function `fetchUserData` of a render whose token was `token`, run on the
present state `s`: the function reads `token` from its closure and writes the state
through the setters. -/
def fetchUserDataClosure (token : Option String) (s : AppState)
    (walletAnswer : Except ApiError Wallet)
    (transactionsAnswer : Except ApiError (List Transaction)) : Run :=
  if !tokenPresent token then ⟨s, [], false⟩
  else
    let s1 := { s with loading := true }
    let onError (e : ApiError) (s2 : AppState) : AppState :=
      let s3 := { s2 with error := errorText e "Failed to fetch user data" }
      let s4 := if e.status = some 401 then logout s3 else s3
      { s4 with loading := false }
    match walletAnswer with
    | .error e => ⟨onError e s1, [.getWallet (bearer token)], false⟩
    | .ok w =>
      let s2 := { s1 with wallet := some w }
      match transactionsAnswer with
      | .error e =>
        ⟨onError e s2, [.getWallet (bearer token), .getTransactions (bearer token)], false⟩
      | .ok txs =>
        ⟨{ s2 with transactions := txs, currentView := "dashboard", loading := false },
          [.getWallet (bearer token), .getTransactions (bearer token)], false⟩

/-- The part of `syncOfflineTransactions` before `await axios.post(...)`: `none` when
the guard returns, otherwise the state after `setLoading(true)` and `setError('')`,
with the request sent. -/
def syncStart (s : AppState) : Option (AppState × Request) :=
  if !tokenPresent s.token || s.offlineTxs.length == 0 then none
  else some ({ s with loading := true, error := "" },
    .postSyncOfflineTransactions (bearer s.token))

/-- The part of `syncOfflineTransactions` after `await axios.post(...)`, for a call
made in a render whose token was `token`, run on the present state `s`. -/
def syncFinish (token : Option String) (s : AppState)
    (answer : Except ApiError SyncResponse) (walletAnswer : Except ApiError Wallet)
    (transactionsAnswer : Except ApiError (List Transaction)) : Run :=
  match answer with
  | .error e =>
    ⟨{ s with error := errorText e "Failed to sync offline transactions",
              loading := false }, [], false⟩
  | .ok data =>
    let s2 := { s with
      success := "Synced " ++ toString data.synced.length ++ " transactions successfully!" }
    let s3 := if data.failed.length > 0 then
        { s2 with error := "Failed to sync " ++ toString data.failed.length ++ " transactions" }
      else s2
    let s4 := { s3 with
      offlineTxs := [],
      localStorage := { s3.localStorage with offlineTxs := some "[]" },
      loading := false }
    fetchUserDataClosure token s4 walletAnswer transactionsAnswer

/-- The client between events, as far as the drain goes: the state of the latest
render, the sync requests in flight (each with the token its call closed over, oldest
first), and the requests sent so far by `syncOfflineTransactions` and by the
`fetchUserData` it starts. -/
structure Session where
  state : AppState
  inFlight : List (Option String)
  sent : List Request
  deriving DecidableEq, Repr

/-- An event. -/
inductive Input where
  /-- The window event `online` (`true`) or `offline` (`false`). -/
  | signal (online : Bool)
  /-- A click on the button "Sync Now". -/
  | syncNow
  /-- The answer to the oldest sync request in flight arrives, and with it the
  answers to the requests of the `fetchUserData` that follows. -/
  | syncAnswer (answer : Except ApiError SyncResponse)
      (walletAnswer : Except ApiError Wallet)
      (transactionsAnswer : Except ApiError (List Transaction))

/-- A call of `syncOfflineTransactions`, as far as its `await`. -/
def startSync (σ : Session) : Session :=
  match syncStart σ.state with
  | none => σ
  | some (s, request) =>
    { state := s, inFlight := σ.inFlight ++ [σ.state.token], sent := σ.sent ++ [request] }

/-- The effect with the dependencies `[isOnline, token, offlineTxs.length,
syncOfflineTransactions]`, after a render that moved the state from `before` to the
state of `σ`: it runs when a dependency has changed (the function
`syncOfflineTransactions` changes with `token` and `offlineTxs.length`), and then
calls `syncOfflineTransactions` if online with a token and a non-empty queue. -/
def reconnectEffect (before : AppState) (σ : Session) : Session :=
  if before.isOnline = σ.state.isOnline ∧ before.token = σ.state.token ∧
      before.offlineTxs.length = σ.state.offlineTxs.length then σ
  else if σ.state.isOnline && tokenPresent σ.state.token && σ.state.offlineTxs.length > 0
  then startSync σ
  else σ

/-- One event. A signal runs `setIsOnline`; setting the value the state already has
causes no render. -/
def step (σ : Session) : Input → Session
  | .signal online =>
    reconnectEffect σ.state { σ with state := { σ.state with isOnline := online } }
  | .syncNow => startSync σ
  | .syncAnswer answer walletAnswer transactionsAnswer =>
    match σ.inFlight with
    | [] => σ
    | token :: rest =>
      let r := syncFinish token σ.state answer walletAnswer transactionsAnswer
      reconnectEffect σ.state
        { state := r.state, inFlight := rest, sent := σ.sent ++ r.requests }

/-- A sequence of events. -/
def run (σ : Session) (inputs : List Input) : Session :=
  inputs.foldl step σ

/-- The first render with state `s`: every effect runs once, so the sync starts at
once if the client is online with a token and a non-empty queue. -/
def mount (s : AppState) : Session :=
  if s.isOnline && tokenPresent s.token && s.offlineTxs.length > 0
  then startSync ⟨s, [], []⟩
  else ⟨s, [], []⟩

/-- The state of `loggedIn` with one transfer queued while offline, online again. -/
def oneQueued : AppState :=
  { (handleTransfer loggedInOffline "n" (.ok ()) (.ok ⟨0⟩) (.ok [])).state with
    isOnline := true }

end Frontend

namespace WalletFrontend

/-! ## State and effects of the user-id client -/

/-- The state variable `balance`. -/
structure Balance where
  ngn : Int
  usd : Int
  deriving DecidableEq, Repr

/-- An entry of the state variable `transactions`, with the fields the client
reads. -/
structure Tx where
  type : String
  amount : String
  timestamp : String
  status : String
  deriving DecidableEq, Repr

/-- The state variable `profile`. -/
structure Profile where
  username : String
  email : String
  date_joined : String
  deriving DecidableEq, Repr

/-- The state variables of `App`. -/
structure AppState where
  userId : Option Nat
  username : String
  password : String
  balance : Balance
  transactions : List Tx
  filteredTransactions : List Tx
  amount : String
  qrUrl : String
  loading : Bool
  isOnline : Bool
  showProfile : Bool
  profile : Option Profile
  filterType : String
  filterDate : String
  deriving DecidableEq, Repr

/-- A request sent to the remote ledger. -/
inductive Request where
  | postPay (request : PayRequest)
  | getDashboard (url : String)
  | postSyncTransactions (url : String)
  | postGenerateQr (url : String) (amount : String)
  deriving DecidableEq, Repr

/-- What a handler does besides writing the state, in order. -/
inductive Effect where
  | request (r : Request)
  | toastSuccess (text : String)
  | toastWarn (text : String)
  | toastError (text : String)
  | toastInfo (text : String)
  | wait (ms : Nat)
  deriving DecidableEq, Repr

/-- What a handler has done when it has settled. -/
structure Run where
  state : AppState
  effects : List Effect
  deriving DecidableEq, Repr

/-- The requests among the effects, in order. -/
def requestsOf : List Effect → List Request
  | [] => []
  | .request r :: rest => r :: requestsOf rest
  | _ :: rest => requestsOf rest

/-- The effects of an `apiCallWithRetry` run whose operation sends `r`. -/
def retryEffects (r : Request) : List Event → List Effect
  | [] => []
  | .invoke _ :: rest => .request r :: retryEffects r rest
  | .toastWarn text :: rest => .toastWarn text :: retryEffects r rest
  | .sleep ms :: rest => .wait ms :: retryEffects r rest

/-- The expression `err.response?.data?.error || fallback`. -/
def errorText (e : ApiError) (fallback : String) : String :=
  match e.error with
  | some msg => if msg = "" then fallback else msg
  | none => fallback

/-- Truthiness of `userId`: neither `null` nor 0. -/
def userIdPresent : Option Nat → Bool
  | some id => id ≠ 0
  | none => false

/-! ## `parseFloat` and `validateInput` -/

/-- White space and line terminators of ECMAScript, which `trim` and `parseFloat`
skip. -/
def isWhiteSpace (c : Char) : Bool :=
  c.toNat ∈ [9, 10, 11, 12, 13, 32, 160, 0x1680, 0x2028, 0x2029, 0x202F, 0x205F, 0x3000,
    0xFEFF] || (0x2000 ≤ c.toNat && c.toNat ≤ 0x200A)

/-- A decimal digit, the class `\d` of a regular expression. -/
def isDigit (c : Char) : Bool :=
  48 ≤ c.toNat && c.toNat ≤ 57

/-- The number a string of decimal digits denotes. -/
def digitValue (ds : List Char) : Nat :=
  ds.foldl (fun n c => 10 * n + (c.toNat - 48)) 0

/-- The mathematical value that `parseFloat` reads, before it is rounded to a
double: `finite negative digits exponent` is `± digits * 10 ^ exponent`. -/
inductive JsNumber where
  | nan
  | infinity (negative : Bool)
  | finite (negative : Bool) (digits : Nat) (exponent : Int)
  deriving DecidableEq, Repr

/-- The value of the exponent part at the head of `cs`: `e` or `E`, an optional
sign and at least one digit; 0 when there is no complete exponent part. -/
def parseExponent : List Char → Int
  | [] => 0
  | e :: rest =>
    if e = 'e' ∨ e = 'E' then
      match rest with
      | [] => 0
      | sign :: ds =>
        if sign = '+' then
          if ds.takeWhile isDigit = [] then 0 else digitValue (ds.takeWhile isDigit)
        else if sign = '-' then
          if ds.takeWhile isDigit = [] then 0 else - (digitValue (ds.takeWhile isDigit) : Int)
        else if (sign :: ds).takeWhile isDigit = [] then 0
        else digitValue ((sign :: ds).takeWhile isDigit)
    else 0

/-- The longest unsigned decimal literal at the head of `cs`: digits with an
optional fraction, or a fraction alone, and an optional exponent part. The result is
`(digits, exponent)`, `none` when no literal starts there. -/
def parseUnsigned (cs : List Char) : Option (Nat × Int) :=
  let ip := cs.takeWhile isDigit
  match cs.dropWhile isDigit with
  | [] => if ip = [] then none else some (digitValue ip, 0)
  | c :: rest =>
    if c = '.' then
      let fp := rest.takeWhile isDigit
      if ip = [] ∧ fp = [] then none
      else some (digitValue (ip ++ fp), parseExponent (rest.dropWhile isDigit) - fp.length)
    else if ip = [] then none
    else some (digitValue ip, parseExponent (c :: rest))

/-- The text "Infinity". -/
def infinityText : List Char := "Infinity".toList

/-- The literal after the sign. -/
def parseAfterSign (negative : Bool) (cs : List Char) : JsNumber :=
  if infinityText.isPrefixOf cs then .infinity negative
  else
    match parseUnsigned cs with
    | some (digits, exponent) => .finite negative digits exponent
    | none => .nan

/-- The function `parseFloat`: leading white space is skipped, then the longest
prefix that is a decimal literal is read; what follows it is ignored. -/
def parseFloat (text : String) : JsNumber :=
  match text.toList.dropWhile isWhiteSpace with
  | [] => .nan
  | c :: rest =>
    if c = '-' then parseAfterSign true rest
    else if c = '+' then parseAfterSign false rest
    else parseAfterSign false (c :: rest)

/-- Whether `digits * 10 ^ exponent` rounds to a double above zero: it does unless it
is at most `2 ^ (-1075)`, half the least positive double. -/
def roundsAboveZero (digits : Nat) (exponent : Int) : Bool :=
  if 0 ≤ exponent then 0 < digits
  else 10 ^ (-exponent).toNat < digits * 2 ^ 1075

/-- The test `!(isNaN(x) || x <= 0)` on the double that `x` rounds to. -/
def JsNumber.isPositive : JsNumber → Bool
  | .nan => false
  | .infinity negative => !negative
  | .finite negative digits exponent => !negative && roundsAboveZero digits exponent

/-- The test `!text.trim()`. -/
def isBlank (text : String) : Bool :=
  text.toList.all isWhiteSpace

/-- The function `validateInput(action)`: its result and the notification it shows. -/
def validateInput (s : AppState) (action : String) : Bool × List Effect :=
  if action = "auth" ∧ isBlank s.username then (false, [.toastError "Username is required"])
  else if action = "auth" ∧ isBlank s.password then
    (false, [.toastError "Password is required"])
  else if action = "amount" ∧
      (s.amount = "" ∨ (parseFloat s.amount).isPositive = false) then
    (false, [.toastError "Please enter a valid positive amount"])
  else (true, [])

/-! ## Handlers of the user-id client -/

/-- The answer of `GET /dashboard/<id>/`. -/
structure Dashboard where
  balance_ngn : Int
  balance_usd : Int
  transactions : Option (List Tx)
  deriving DecidableEq, Repr

/-- The answer of `POST /pay/<id>/` and of `POST /sync-transactions/<id>/`. -/
structure Message where
  message : String
  deriving DecidableEq, Repr

/-- The function `fetchDashboard(id)`, run on the present state `s`; `server c` is
the answer to the call made after `c` earlier calls. It catches its own errors. -/
def fetchDashboard (s : AppState) (id : Option Nat)
    (server : Nat → Except ApiError Dashboard) : Run :=
  let run := apiCallWithRetry server defaultRetries defaultDelay
  let effects := retryEffects
    (.getDashboard ("http://localhost:8000/dashboard/" ++ userIdText id ++ "/")) run.trace
  match run.outcome with
  | .resolved (some res) =>
    ⟨{ s with
        balance := ⟨res.balance_ngn, res.balance_usd⟩,
        transactions := res.transactions.getD [],
        filteredTransactions := res.transactions.getD [],
        loading := false }, effects⟩
  | .resolved none =>
    ⟨{ s with loading := false }, effects ++ [.toastError "Failed to fetch dashboard data"]⟩
  | .rejected e =>
    ⟨{ s with loading := false },
      effects ++ [.toastError (errorText e "Failed to fetch dashboard data")]⟩

/-- The function `handlePay` of the render with state `c`, run on the present state
`s`: it reads `amount`, `userId` and `isOnline` from its closure. -/
def handlePayFrom (c s : AppState) (payServer : Nat → Except ApiError Message)
    (dashboardServer : Nat → Except ApiError Dashboard) : Run :=
  if (validateInput c "amount").1 = false then ⟨s, (validateInput c "amount").2⟩
  else
    let s1 := { s with loading := true }
    let run := apiCallWithRetry payServer defaultRetries defaultDelay
    let effects := retryEffects (.postPay (payRequest c.userId c.amount c.isOnline)) run.trace
    match run.outcome with
    | .resolved (some res) =>
      let d := fetchDashboard s1 c.userId dashboardServer
      ⟨{ d.state with amount := "", loading := false },
        effects ++ d.effects ++ [.toastSuccess res.message]⟩
    | .resolved none =>
      let d := fetchDashboard s1 c.userId dashboardServer
      ⟨{ d.state with loading := false }, effects ++ d.effects ++ [.toastError "Payment failed"]⟩
    | .rejected e =>
      ⟨{ s1 with loading := false }, effects ++ [.toastError (errorText e "Payment failed")]⟩

/-- The function `handlePay`, called in the render whose state is `s`. -/
def handlePay (s : AppState) (payServer : Nat → Except ApiError Message)
    (dashboardServer : Nat → Except ApiError Dashboard) : Run :=
  handlePayFrom s s payServer dashboardServer

/-- A match of `/pay:\/\/(\d+)\/(\d+)/` that starts at the head of `cs`: the two
groups. Each `\d+` takes all the digits there are; giving some back cannot help,
since the next character would then be a digit and not the `/` the pattern wants. -/
def matchHere (cs : List Char) : Option (List Char × List Char) :=
  match cs with
  | 'p' :: 'a' :: 'y' :: ':' :: '/' :: '/' :: rest =>
    if rest.takeWhile isDigit = [] then none
    else
      match rest.dropWhile isDigit with
      | '/' :: rest2 =>
        if rest2.takeWhile isDigit = [] then none
        else some (rest.takeWhile isDigit, rest2.takeWhile isDigit)
      | _ => none
  | _ => none

/-- The leftmost match of the pattern in `cs`. -/
def scanMatch : List Char → Option (List Char × List Char)
  | [] => none
  | c :: cs =>
    match matchHere (c :: cs) with
    | some groups => some groups
    | none => scanMatch cs

/-- The text holds the shape "pay://<digits>/<digits>" somewhere: the reading of a
valid payload that the pattern of `handleSimulateScan` stands for. -/
def ContainsPayPattern (text : List Char) : Prop :=
  ∃ pre u a post : List Char,
    text = pre ++ ("pay://".toList ++ (u ++ ('/' :: (a ++ post)))) ∧
      u ≠ [] ∧ a ≠ [] ∧ (∀ c ∈ u, isDigit c = true) ∧ (∀ c ∈ a, isDigit c = true)

/-- The function `handleSimulateScan`. The call `handlePay()` is the function of the
present render: it does not see the amount just set. -/
def handleSimulateScan (s : AppState) (payServer : Nat → Except ApiError Message)
    (dashboardServer : Nat → Except ApiError Dashboard) : Run :=
  match scanMatch s.qrUrl.toList with
  | some (scannedUserId, scannedAmount) =>
    let s1 := { s with amount := String.mk scannedAmount }
    let r := handlePayFrom s s1 payServer dashboardServer
    ⟨r.state,
      .toastInfo ("Simulated QR scan: Paying " ++ String.mk scannedAmount ++ " to user " ++
        String.mk scannedUserId) :: r.effects⟩
  | none => ⟨s, [.toastError "Invalid QR code"]⟩

/-- The function `syncTransactions` of the render with state `c`, run on the present
state `s`. -/
def syncTransactionsFrom (c s : AppState) (syncServer : Nat → Except ApiError Message)
    (dashboardServer : Nat → Except ApiError Dashboard) : Run :=
  if !c.isOnline then ⟨s, []⟩
  else
    let s1 := { s with loading := true }
    let run := apiCallWithRetry syncServer defaultRetries defaultDelay
    let effects := retryEffects
      (.postSyncTransactions
        ("http://localhost:8000/sync-transactions/" ++ userIdText c.userId ++ "/")) run.trace
    match run.outcome with
    | .resolved (some res) =>
      let d := fetchDashboard s1 c.userId dashboardServer
      ⟨{ d.state with loading := false }, effects ++ d.effects ++ [.toastSuccess res.message]⟩
    | .resolved none =>
      let d := fetchDashboard s1 c.userId dashboardServer
      ⟨{ d.state with loading := false },
        effects ++ d.effects ++ [.toastError "Failed to sync transactions"]⟩
    | .rejected e =>
      ⟨{ s1 with loading := false },
        effects ++ [.toastError (errorText e "Failed to sync transactions")]⟩

/-- The listener `handleOnline` registered in the render with state `c`, run on the
present state `s`. -/
def handleOnline (c s : AppState) (syncServer : Nat → Except ApiError Message)
    (dashboardServer : Nat → Except ApiError Dashboard) : Run :=
  let s1 := { s with isOnline := true }
  if userIdPresent c.userId then
    let r := syncTransactionsFrom c s1 syncServer dashboardServer
    ⟨r.state, .toastSuccess "Back online! Syncing transactions..." :: r.effects⟩
  else ⟨s1, [.toastSuccess "Back online! Syncing transactions..."]⟩

/-- The listener `handleOffline`. -/
def handleOffline (s : AppState) : Run :=
  ⟨{ s with isOnline := false }, [.toastWarn "You are offline. Payments will be queued."]⟩

/-- The window events `online` (`true`) and `offline` (`false`), handled one after
the other by the listeners registered in the render with state `c`; the effect
registers them anew only when `userId` changes, which no signal does. Every sync
request is answered with `syncServer`, every dashboard request with
`dashboardServer`. -/
def signals (c : AppState) (syncServer : Nat → Except ApiError Message)
    (dashboardServer : Nat → Except ApiError Dashboard) : Run → List Bool → Run
  | r, [] => r
  | r, true :: rest =>
    let h := handleOnline c r.state syncServer dashboardServer
    signals c syncServer dashboardServer ⟨h.state, r.effects ++ h.effects⟩ rest
  | r, false :: rest =>
    let h := handleOffline r.state
    signals c syncServer dashboardServer ⟨h.state, r.effects ++ h.effects⟩ rest

/-- A session of user 1 with balance 5000, online, with 100 typed as amount. -/
def session : AppState :=
  { userId := some 1, username := "", password := "", balance := ⟨5000, 3⟩,
    transactions := [⟨"credit", "5000", "2025-01-01T10:00:00Z", "completed"⟩],
    filteredTransactions := [⟨"credit", "5000", "2025-01-01T10:00:00Z", "completed"⟩],
    amount := "100", qrUrl := "http://localhost:8000/media/qr_codes/qr_1.png",
    loading := false, isOnline := true, showProfile := false, profile := none,
    filterType := "all", filterDate := "" }

/-- A ledger that accepts every payment and every sync. -/
def accepting : Nat → Except ApiError Message :=
  fun _ => .ok ⟨"Payment successful"⟩

/-- A ledger that answers every dashboard request with balance 4900. -/
def dashboard4900 : Nat → Except ApiError Dashboard :=
  fun _ => .ok ⟨4900, 3, some []⟩

end WalletFrontend

namespace Frontend

/-! ## `JSON.parse` and the initial queue -/

/-- A value that `JSON.parse` returns. A number is kept as its literal, not rounded
to a double; the members of an object are kept in the order of the text. -/
inductive Json where
  | null
  | bool (b : Bool)
  | number (literal : String)
  | string (s : String)
  | array (items : List Json)
  | object (members : List (String × Json))

/-- White space of the JSON grammar. -/
def isJsonSpace (c : Char) : Bool :=
  c.toNat = 32 || c.toNat = 9 || c.toNat = 10 || c.toNat = 13

/-- The text after leading white space. -/
def skipSpace (cs : List Char) : List Char :=
  cs.dropWhile isJsonSpace

/-- The value of a hexadecimal digit. -/
def hexValue (c : Char) : Option Nat :=
  if 48 ≤ c.toNat ∧ c.toNat ≤ 57 then some (c.toNat - 48)
  else if 97 ≤ c.toNat ∧ c.toNat ≤ 102 then some (c.toNat - 87)
  else if 65 ≤ c.toNat ∧ c.toNat ≤ 70 then some (c.toNat - 55)
  else none

/-- The code unit that the four hexadecimal digits of a `\u` escape denote. -/
def hex4 (a b c d : Char) : Option Nat :=
  match hexValue a, hexValue b, hexValue c, hexValue d with
  | some x, some y, some z, some w => some (((x * 16 + y) * 16 + z) * 16 + w)
  | _, _, _, _ => none

/-- The character that a one-letter escape denotes. -/
def unescape (e : Char) : Option Nat :=
  if e.toNat = 34 then some 34
  else if e.toNat = 92 then some 92
  else if e.toNat = 47 then some 47
  else if e = 'b' then some 8
  else if e = 'f' then some 12
  else if e = 'n' then some 10
  else if e = 'r' then some 13
  else if e = 't' then some 9
  else none

/-- The inside of a string literal, after the opening quote: the code points it
denotes (a `\u` escape may denote half of a surrogate pair) and the text after the
closing quote. A control character or a bad escape is a syntax error. -/
def parseStringBody : List Char → Option (List Nat × List Char)
  | [] => none
  | c :: rest =>
    if c.toNat = 34 then some ([], rest)
    else if c.toNat = 92 then
      match rest with
      | [] => none
      | e :: rest2 =>
        if e = 'u' then
          match rest2 with
          | h1 :: h2 :: h3 :: h4 :: rest3 =>
            match hex4 h1 h2 h3 h4 with
            | none => none
            | some n =>
              match parseStringBody rest3 with
              | none => none
              | some (units, after) => some (n :: units, after)
          | _ => none
        else
          match unescape e with
          | none => none
          | some n =>
            match parseStringBody rest2 with
            | none => none
            | some (units, after) => some (n :: units, after)
    else if c.toNat < 32 then none
    else
      match parseStringBody rest with
      | none => none
      | some (units, after) => some (c.toNat :: units, after)

/-- The characters of a string given by its code points: an escaped high surrogate
followed by an escaped low surrogate is one character; a surrogate on its own, which
a string of this model cannot hold, becomes U+FFFD. -/
def decodeUnits : List Nat → List Char
  | [] => []
  | [n] => [if 0xD800 ≤ n ∧ n ≤ 0xDFFF then Char.ofNat 0xFFFD else Char.ofNat n]
  | hi :: lo :: rest =>
    if 0xD800 ≤ hi ∧ hi ≤ 0xDBFF ∧ 0xDC00 ≤ lo ∧ lo ≤ 0xDFFF then
      Char.ofNat (0x10000 + (hi - 0xD800) * 0x400 + (lo - 0xDC00)) :: decodeUnits rest
    else
      (if 0xD800 ≤ hi ∧ hi ≤ 0xDFFF then Char.ofNat 0xFFFD else Char.ofNat hi) ::
        decodeUnits (lo :: rest)

/-- A decimal digit. -/
def isDigit (c : Char) : Bool :=
  48 ≤ c.toNat && c.toNat ≤ 57

/-- The digits at the head of `cs`, at least one, and the text after them. -/
def parseDigits (cs : List Char) : Option (List Char × List Char) :=
  if cs.takeWhile isDigit = [] then none
  else some (cs.takeWhile isDigit, cs.dropWhile isDigit)

/-- The integer part of a number: a single 0, or digits that do not start with 0. -/
def parseInt (cs : List Char) : Option (List Char × List Char) :=
  match cs with
  | [] => none
  | c :: rest => if c = '0' then some (['0'], rest) else parseDigits (c :: rest)

/-- The optional fraction of a number: a point and at least one digit. -/
def parseFraction (cs : List Char) : Option (List Char × List Char) :=
  match cs with
  | [] => some ([], [])
  | c :: rest =>
    if c = '.' then
      match parseDigits rest with
      | none => none
      | some (ds, after) => some ('.' :: ds, after)
    else some ([], c :: rest)

/-- The optional exponent of a number: `e` or `E`, an optional sign and at least one
digit. -/
def parseExponentPart (cs : List Char) : Option (List Char × List Char) :=
  match cs with
  | [] => some ([], [])
  | c :: rest =>
    if c = 'e' ∨ c = 'E' then
      match rest with
      | [] => none
      | sign :: rest2 =>
        if sign = '+' ∨ sign = '-' then
          match parseDigits rest2 with
          | none => none
          | some (ds, after) => some (c :: sign :: ds, after)
        else
          match parseDigits (sign :: rest2) with
          | none => none
          | some (ds, after) => some (c :: ds, after)
    else some ([], c :: rest)

/-- A number literal at the head of `cs`. -/
def parseNumber (cs : List Char) : Option (List Char × List Char) :=
  let signed : List Char × List Char :=
    match cs with
    | [] => ([], [])
    | c :: rest => if c = '-' then (['-'], rest) else ([], c :: rest)
  match parseInt signed.2 with
  | none => none
  | some (ip, rest1) =>
    match parseFraction rest1 with
    | none => none
    | some (fp, rest2) =>
      match parseExponentPart rest2 with
      | none => none
      | some (ep, rest3) => some (signed.1 ++ ip ++ fp ++ ep, rest3)

/-- The elements of an array after the first `[`, when the array is not empty;
`value` parses one value. The first argument bounds the number of elements. -/
def parseElements (value : List Char → Option (Json × List Char)) :
    Nat → List Char → Option (List Json × List Char)
  | 0, _ => none
  | n + 1, cs =>
    match value cs with
    | none => none
    | some (v, rest) =>
      match skipSpace rest with
      | [] => none
      | c :: rest2 =>
        if c = ',' then
          match parseElements value n rest2 with
          | none => none
          | some (vs, after) => some (v :: vs, after)
        else if c = ']' then some ([v], rest2)
        else none

/-- The members of an object after the first `{`, when the object is not empty. -/
def parseMembers (value : List Char → Option (Json × List Char)) :
    Nat → List Char → Option (List (String × Json) × List Char)
  | 0, _ => none
  | n + 1, cs =>
    match skipSpace cs with
    | [] => none
    | q :: rest =>
      if q.toNat = 34 then
        match parseStringBody rest with
        | none => none
        | some (name, rest1) =>
          match skipSpace rest1 with
          | [] => none
          | colon :: rest2 =>
            if colon = ':' then
              match value rest2 with
              | none => none
              | some (v, rest3) =>
                match skipSpace rest3 with
                | [] => none
                | c :: rest4 =>
                  if c = ',' then
                    match parseMembers value n rest4 with
                    | none => none
                    | some (ms, after) => some ((String.mk (decodeUnits name), v) :: ms, after)
                  else if c = '}' then some ([(String.mk (decodeUnits name), v)], rest4)
                  else none
            else none
      else none

/-- A value at the head of `cs`, after optional white space. The first argument
bounds the depth of nesting. -/
def parseValue : Nat → List Char → Option (Json × List Char)
  | 0, _ => none
  | fuel + 1, cs =>
    match skipSpace cs with
    | [] => none
    | c :: rest =>
      if c.toNat = 34 then
        match parseStringBody rest with
        | none => none
        | some (units, after) => some (.string (String.mk (decodeUnits units)), after)
      else if c = '[' then
        match skipSpace rest with
        | [] => none
        | d :: rest2 =>
          if d = ']' then some (.array [], rest2)
          else
            match parseElements (parseValue fuel) (d :: rest2).length (d :: rest2) with
            | none => none
            | some (vs, after) => some (.array vs, after)
      else if c = '{' then
        match skipSpace rest with
        | [] => none
        | d :: rest2 =>
          if d = '}' then some (.object [], rest2)
          else
            match parseMembers (parseValue fuel) (d :: rest2).length (d :: rest2) with
            | none => none
            | some (ms, after) => some (.object ms, after)
      else if "true".toList.isPrefixOf (c :: rest) then some (.bool true, (c :: rest).drop 4)
      else if "false".toList.isPrefixOf (c :: rest) then
        some (.bool false, (c :: rest).drop 5)
      else if "null".toList.isPrefixOf (c :: rest) then some (.null, (c :: rest).drop 4)
      else
        match parseNumber (c :: rest) with
        | none => none
        | some (literal, after) => some (.number (String.mk literal), after)

/-- The function `JSON.parse`: one value and nothing but white space after it;
`none` stands for the `SyntaxError` it throws. Nesting is never deeper than the text
is long. -/
def jsonParse (text : String) : Option Json :=
  match parseValue (text.length + 1) text.toList with
  | none => none
  | some (v, rest) => if skipSpace rest = [] then some v else none

/-- The member `name` of an object; of several members with one name the last
counts. -/
def getMember (name : String) : List (String × Json) → Option Json
  | [] => none
  | (k, v) :: rest =>
    match getMember name rest with
    | some w => some w
    | none => if k = name then some v else none

/-- The string a value is, if it is one. -/
def Json.asString : Json → Option String
  | .string s => some s
  | _ => none

/-- The queue entry that an object with the five string members of an entry is. -/
def entryOfJson : Json → Option OfflineTx
  | .object ms =>
    match (getMember "receiver_email" ms).bind Json.asString,
      (getMember "amount" ms).bind Json.asString,
      (getMember "description" ms).bind Json.asString,
      (getMember "qr_data" ms).bind Json.asString,
      (getMember "timestamp" ms).bind Json.asString with
    | some r, some a, some d, some q, some t => some ⟨r, a, d, q, t⟩
    | _, _, _, _, _ => none
  | _ => none

/-- The value that a queue entry is. -/
def entryJson (tx : OfflineTx) : Json :=
  .object [("receiver_email", .string tx.receiver_email), ("amount", .string tx.amount),
    ("description", .string tx.description), ("qr_data", .string tx.qr_data),
    ("timestamp", .string tx.timestamp)]

/-- The entries of a list of values, if each is an entry. -/
def entriesOfJson : List Json → Option (List OfflineTx)
  | [] => some []
  | v :: vs =>
    match entryOfJson v, entriesOfJson vs with
    | some tx, some txs => some (tx :: txs)
    | _, _ => none

/-- The initial value of the state variable `offlineTxs`. -/
inductive Initial where
  /-- The call of `JSON.parse` throws a `SyntaxError`: the component does not render. -/
  | syntaxError
  /-- The queue starts with these entries. -/
  | queue (txs : List OfflineTx)
  /-- The stored text is JSON for something else than a list of entries. -/
  | otherValue
  deriving DecidableEq, Repr

/-- The expression `JSON.parse(localStorage.getItem('offlineTxs') || '[]')` that
initialises `offlineTxs`; `stored` is the stored text, `none` when the key is
absent. -/
def initialOfflineTxs (stored : Option String) : Initial :=
  let text := match stored with
    | some t => if t = "" then "[]" else t
    | none => "[]"
  match jsonParse text with
  | none => .syntaxError
  | some (.array items) =>
    match entriesOfJson items with
    | some txs => .queue txs
    | none => .otherValue
  | some _ => .otherValue

end Frontend

namespace Frontend

/-- The characters of a written entry after its opening brace, followed by `rest`. -/
def memberChars (tx : OfflineTx) (rest : List Char) : List Char :=
  (jsonKey "receiver_email").toList ++ ((jsonString tx.receiver_email).toList ++
    ',' :: ((jsonKey "amount").toList ++ ((jsonString tx.amount).toList ++
    ',' :: ((jsonKey "description").toList ++ ((jsonString tx.description).toList ++
    ',' :: ((jsonKey "qr_data").toList ++ ((jsonString tx.qr_data).toList ++
    ',' :: ((jsonKey "timestamp").toList ++ ((jsonString tx.timestamp).toList ++
    '}' :: rest)))))))))

/-- The characters between the brackets of the written queue: the written entries
with a comma between them. -/
def joinEntries : List OfflineTx → List Char
  | [] => []
  | [tx] => (stringifyOfflineTx tx).toList
  | tx :: next :: rest => (stringifyOfflineTx tx).toList ++ ',' :: joinEntries (next :: rest)

end Frontend

namespace Frontend

/-- The characters of a written QR payload after its opening brace, followed by
`rest`. -/
def qrMemberChars (id : Nat) (a d : String) (rest : List Char) : List Char :=
  (jsonKey "user_id").toList ++ ((toString id).toList ++
    ',' :: ((jsonKey "amount").toList ++ ((jsonString a).toList ++
    ',' :: ((jsonKey "description").toList ++ ((jsonString d).toList ++
    '}' :: rest)))))

end Frontend

namespace WalletFrontend

/-! ## QR generation and the transaction filter -/

/-- The answer of `POST /generate-qr/<id>/`. -/
structure QrAnswer where
  qr_url : String
  deriving DecidableEq, Repr

/-- The function `handleGenerateQR`. -/
def handleGenerateQR (s : AppState) (server : Nat → Except ApiError QrAnswer) : Run :=
  if (validateInput s "amount").1 = false then ⟨s, (validateInput s "amount").2⟩
  else
    let s1 := { s with loading := true }
    let run := apiCallWithRetry server defaultRetries defaultDelay
    let effects := retryEffects
      (.postGenerateQr ("http://localhost:8000/generate-qr/" ++ userIdText s.userId ++ "/")
        s.amount) run.trace
    match run.outcome with
    | .resolved (some res) =>
      ⟨{ s1 with qrUrl := "http://localhost:8000" ++ res.qr_url, loading := false },
        effects ++ [.toastSuccess "QR code generated!"]⟩
    | .resolved none =>
      ⟨{ s1 with loading := false }, effects ++ [.toastError "Failed to generate QR code"]⟩
    | .rejected e =>
      ⟨{ s1 with loading := false },
        effects ++ [.toastError (errorText e "Failed to generate QR code")]⟩

/-- The function `handleFilter`. `localDay text` is the local calendar day, counted
from 1970-01-01, of `new Date(text)`, and `none` when that is an invalid date: the
texts of `toDateString()` of two dates are equal exactly when both dates are invalid
or both fall on the same local day. -/
def handleFilter (localDay : String → Option Int) (s : AppState) : AppState :=
  let byType :=
    if s.filterType ≠ "all" then s.transactions.filter (fun tx => tx.type = s.filterType)
    else s.transactions
  let byDate :=
    if s.filterDate ≠ "" then
      byType.filter (fun tx => localDay tx.timestamp = localDay s.filterDate)
    else byType
  { s with filteredTransactions := byDate }

/-- Whether `y` is a leap year. -/
def isLeapYear (y : Nat) : Bool :=
  (y % 4 = 0 && y % 100 ≠ 0) || y % 400 = 0

/-- The number of days of month `m` of year `y`. -/
def daysInMonth (y m : Nat) : Nat :=
  if m = 2 then (if isLeapYear y then 29 else 28)
  else if m = 4 ∨ m = 6 ∨ m = 9 ∨ m = 11 then 30
  else 31

/-- The number of days from 1970-01-01 to the day `d` of month `m` of year `y`. -/
def daysFromCivil (y m d : Nat) : Int :=
  let y' : Int := if m ≤ 2 then (y : Int) - 1 else y
  let era : Int := y' / 400
  let yoe : Int := y' - era * 400
  let mp : Int := if m ≤ 2 then (m : Int) + 9 else (m : Int) - 3
  let doy : Int := (153 * mp + 2) / 5 + d - 1
  let doe : Int := yoe * 365 + yoe / 4 - yoe / 100 + doy
  era * 146097 + doe - 719468

/-- The number that the digits `ds` denote, `none` if one of them is no digit. -/
def readDigits (ds : List Char) : Option Nat :=
  if ds.all isDigit then some (digitValue ds) else none

/-- Midnight UTC of a calendar date in milliseconds since 1970-01-01, `none` if the
date does not exist (engines differ on a day such as the 30th of February; it counts
as invalid here, and no result below rests on it). -/
def utcMidnight (y m d : Nat) : Option Int :=
  if 1 ≤ m ∧ m ≤ 12 ∧ 1 ≤ d ∧ d ≤ daysInMonth y m then some (daysFromCivil y m d * 86400000)
  else none

/-- The time value of `new Date(text)` in milliseconds since 1970-01-01 UTC, for the
two forms of date text the client meets: the date-only form "YYYY-MM-DD" of a date
input, which ECMAScript reads as midnight UTC, and the form "YYYY-MM-DDTHH:mm:ssZ" of
a timestamp in UTC. Every other text counts as an invalid date here, also the texts
that `new Date` does read (a fraction of a second, an offset from UTC, a time without
`Z`): this is a model of `new Date` on those two forms only, and `handleFilter` does
not depend on it, since it takes the reading of dates as a parameter. -/
def parseIsoDate (text : String) : Option Int :=
  match text.toList with
  | [y1, y2, y3, y4, '-', m1, m2, '-', d1, d2] =>
    match readDigits [y1, y2, y3, y4], readDigits [m1, m2], readDigits [d1, d2] with
    | some y, some m, some d => utcMidnight y m d
    | _, _, _ => none
  | [y1, y2, y3, y4, '-', m1, m2, '-', d1, d2, 'T', h1, h2, ':', n1, n2, ':', s1, s2, 'Z'] =>
    match readDigits [y1, y2, y3, y4], readDigits [m1, m2], readDigits [d1, d2],
      readDigits [h1, h2], readDigits [n1, n2], readDigits [s1, s2] with
    | some y, some m, some d, some h, some n, some sec =>
      if h < 24 ∧ n < 60 ∧ sec < 60 then
        match utcMidnight y m d with
        | some ms => some (ms + ((h * 3600 + n * 60 + sec : Nat) : Int) * 1000)
        | none => none
      else none
    | _, _, _, _, _, _ => none
  | _ => none

/-- The local calendar day of `new Date(text)` where local time is `offsetMinutes`
ahead of UTC (negative to the west of Greenwich). -/
def localDayIso (offsetMinutes : Int) (text : String) : Option Int :=
  match parseIsoDate text with
  | some ms => some ((ms + offsetMinutes * 60000) / 86400000)
  | none => none

/-- A transaction on the first of January 2025, 15:00 UTC. -/
def newYearTx : Tx := ⟨"credit", "5000", "2025-01-01T15:00:00Z", "completed"⟩

/-- A transaction on the 31st of December 2024, 20:00 UTC. -/
def oldYearTx : Tx := ⟨"debit", "70", "2024-12-31T20:00:00Z", "completed"⟩

/-- The session with the two transactions and the date 2025-01-01 selected. -/
def filtering : AppState :=
  { session with
    transactions := [oldYearTx, newYearTx], filteredTransactions := [oldYearTx, newYearTx],
    filterType := "all", filterDate := "2025-01-01" }

end WalletFrontend

namespace Frontend

/-! ## The first render of the token client -/

/-- The initial values of the state variables, with `storage` in `localStorage` and
`navigator.onLine` equal to `onLine`; `none` when `JSON.parse` throws or the stored
queue is no list of entries. -/
def initialState (storage : Storage) (onLine : Bool) : Option AppState :=
  match initialOfflineTxs storage.offlineTxs with
  | .queue txs =>
    some
      { currentView := "landing", user := none, token := storage.token, wallet := none,
        transactions := [], loading := false, error := "", success := "", qrCode := "",
        offlineTxs := txs, isOnline := onLine, showScanner := false,
        loginForm := ⟨"", ""⟩, registerForm := ⟨"", "", ""⟩, qrForm := ⟨"", ""⟩,
        transferForm := ⟨"", "", ""⟩, localStorage := storage }
  | _ => none

/-- Whether `renderCurrentView` shows the dashboard, with its transfer form. -/
def showsDashboard (s : AppState) : Bool :=
  (tokenPresent s.token && s.currentView ≠ "landing") || s.currentView = "dashboard"

/-- A click on "Login" or "Sign In" on the landing page. -/
def openLogin (s : AppState) : AppState :=
  { s with currentView := "login" }

end Frontend

namespace WalletFrontend

/-! ## The amounts that pass `validateInput`, said without the parser -/

/-- An exponent part of a decimal literal and its value: nothing, with value 0; or
`e` or `E`, an optional sign, and at least one digit. -/
def IsExponentPart (ex : List Char) (value : Int) : Prop :=
  (ex = [] ∧ value = 0) ∨
    ∃ (mark : Char) (ds : List Char),
      (mark = 'e' ∨ mark = 'E') ∧ ds ≠ [] ∧ (∀ c ∈ ds, isDigit c = true) ∧
        ((ex = mark :: ds ∧ value = digitValue ds) ∨
          (ex = mark :: '+' :: ds ∧ value = digitValue ds) ∨
          (ex = mark :: '-' :: ds ∧ value = -(digitValue ds : Int)))

/-- An unsigned decimal literal of ECMAScript and the number `digits * 10 ^ exponent`
it denotes: digits and an exponent part; or digits, a point, digits and an exponent
part, with at least one digit before or behind the point. -/
def IsDecimalLiteral (lit : List Char) (digits : Nat) (exponent : Int) : Prop :=
  ∃ (ip fr ex : List Char) (x : Int),
    (∀ c ∈ ip, isDigit c = true) ∧ (∀ c ∈ fr, isDigit c = true) ∧ IsExponentPart ex x ∧
      ((lit = ip ++ ex ∧ ip ≠ [] ∧ fr = []) ∨
        (lit = ip ++ '.' :: (fr ++ ex) ∧ (ip ≠ [] ∨ fr ≠ []))) ∧
      digits = digitValue (ip ++ fr) ∧ exponent = x - fr.length

/-- The literal `lit`, denoting `digits * 10 ^ exponent`, is the longest prefix of
`text` that is a decimal literal. -/
def IsLongestLiteral (text lit : List Char) (digits : Nat) (exponent : Int) : Prop :=
  IsDecimalLiteral lit digits exponent ∧ lit <+: text ∧
    ∀ (other : List Char) (d : Nat) (e : Int),
      IsDecimalLiteral other d e → other <+: text → other.length ≤ lit.length

/-- The amount texts that `validateInput('amount')` lets pass, in the words of the
definition of `parseFloat`: white space, an optional `+`, and then a text that begins
with "Infinity" or whose longest prefix that is a decimal literal denotes a number
above `2 ^ (-1075)`, the numbers that round to a double above zero. -/
def AcceptedAmount (text : List Char) : Prop :=
  ∃ ws sign body : List Char,
    text = ws ++ (sign ++ body) ∧ (∀ c ∈ ws, isWhiteSpace c = true) ∧
      (sign = [] ∨ sign = ['+']) ∧
      (infinityText <+: body ∨
        ∃ (lit : List Char) (digits : Nat) (exponent : Int),
          IsLongestLiteral body lit digits exponent ∧
            (2 : ℚ) ^ (-1075 : Int) < (digits : ℚ) * (10 : ℚ) ^ exponent)

/-- The exponent part that `parseExponent` reads at the head of `cs`, empty when
there is none. -/
def exponentAt : List Char → List Char
  | [] => []
  | e :: rest =>
    if e = 'e' ∨ e = 'E' then
      match rest with
      | [] => []
      | sign :: ds =>
        if sign = '+' then
          if ds.takeWhile isDigit = [] then [] else e :: '+' :: ds.takeWhile isDigit
        else if sign = '-' then
          if ds.takeWhile isDigit = [] then [] else e :: '-' :: ds.takeWhile isDigit
        else if (sign :: ds).takeWhile isDigit = [] then []
        else e :: (sign :: ds).takeWhile isDigit
    else []

/-- The literal that `parseUnsigned` reads at the head of `cs`, empty when there is
none. -/
def literalAt (cs : List Char) : List Char :=
  let ip := cs.takeWhile isDigit
  match cs.dropWhile isDigit with
  | [] => ip
  | c :: rest =>
    if c = '.' then
      let fp := rest.takeWhile isDigit
      if ip = [] ∧ fp = [] then []
      else ip ++ '.' :: (fp ++ exponentAt (rest.dropWhile isDigit))
    else if ip = [] then []
    else ip ++ exponentAt (c :: rest)

end WalletFrontend

namespace WalletFrontend

/-! ## Lemmas on the retry loop -/

theorem invocations_append (xs ys : List Event) :
    invocations (xs ++ ys) = invocations xs + invocations ys := by
  simp [invocations, List.countP_append]

theorem notifications_append (xs ys : List Event) :
    notifications (xs ++ ys) = notifications xs + notifications ys := by
  simp [notifications, List.countP_append]

theorem waits_append (xs ys : List Event) : waits (xs ++ ys) = waits xs ++ waits ys := by
  induction xs with
  | nil => rfl
  | cons x xs ih => cases x <;> simp [waits, ih]

theorem invocations_failTrace (retries : Int) (delay k i calls : Nat) :
    invocations (failTrace retries delay k i calls) = k := by
  induction k generalizing i calls with
  | zero => rfl
  | succ k ih =>
    have h := ih (i + 1) (calls + 1)
    simp only [invocations] at h
    simp [failTrace, invocations, List.countP_cons, h]

theorem notifications_failTrace (retries : Int) (delay k i calls : Nat) :
    notifications (failTrace retries delay k i calls) = k := by
  induction k generalizing i calls with
  | zero => rfl
  | succ k ih =>
    have h := ih (i + 1) (calls + 1)
    simp only [notifications] at h
    simp [failTrace, notifications, List.countP_cons, h]

theorem waits_failTrace (retries : Int) (delay k i calls : Nat) :
    waits (failTrace retries delay k i calls) = List.replicate k delay := by
  induction k generalizing i calls with
  | zero => rfl
  | succ k ih => simp [failTrace, waits, ih, List.replicate_succ]

/-- A run whose first `k` calls fail and whose next call succeeds, with room for it. -/
theorem retryLoop_fail_then_ok {ε α : Type} (fn : Nat → Except ε α) (retries : Int)
    (delay : Nat) (v : α) (k : Nat) :
    ∀ n i calls : Nat, ((i : Int) + k < retries) → k < n →
      (∀ j, j < k → ∃ e, fn (calls + j) = .error e) → fn (calls + k) = .ok v →
      retryLoop fn retries delay n i calls =
        ⟨.resolved (some v), failTrace retries delay k i calls ++ [.invoke (calls + k)]⟩ := by
  induction k with
  | zero =>
    intro n i calls hi hn _ hok
    obtain ⟨m, rfl⟩ : ∃ m, n = m + 1 := ⟨n - 1, by omega⟩
    have hi' : (i : Int) < retries := by simpa using hi
    have hok' : fn calls = .ok v := by simpa using hok
    simp [retryLoop, hi', hok', failTrace]
  | succ k ih =>
    intro n i calls hi hn hfail hok
    obtain ⟨m, rfl⟩ : ∃ m, n = m + 1 := ⟨n - 1, by omega⟩
    have hi' : (i : Int) < retries := by push_cast at hi; omega
    have hne : ¬ ((i : Int) = retries - 1) := by push_cast at hi; omega
    obtain ⟨e, he⟩ := hfail 0 (by omega)
    have he' : fn calls = .error e := by simpa using he
    have hrec := ih m (i + 1) (calls + 1) (by push_cast at hi ⊢; omega) (by omega)
      (fun j hj => by
        obtain ⟨e', h'⟩ := hfail (j + 1) (by omega)
        exact ⟨e', by rw [← h']; congr 1; omega⟩)
      (by rw [← hok]; congr 1; omega)
    simp only [retryLoop, hi', if_true, he', hne, if_false, hrec, failTrace]
    simp
    omega

/-- A run all of whose calls fail: the error of the call made when the loop variable
is `retries - 1` is thrown. -/
theorem retryLoop_all_fail {ε α : Type} (fn : Nat → Except ε α) (err : Nat → ε)
    (retries : Int) (delay : Nat) (k : Nat) :
    ∀ n i calls : Nat, ((i : Int) + k = retries - 1) → k < n →
      (∀ j, j ≤ k → fn (calls + j) = .error (err (calls + j))) →
      retryLoop fn retries delay n i calls =
        ⟨.rejected (err (calls + k)),
          failTrace retries delay k i calls ++ [.invoke (calls + k)]⟩ := by
  induction k with
  | zero =>
    intro n i calls hi hn hfail
    obtain ⟨m, rfl⟩ : ∃ m, n = m + 1 := ⟨n - 1, by omega⟩
    have hi' : (i : Int) < retries := by push_cast at hi; omega
    have hlast : (i : Int) = retries - 1 := by simpa using hi
    have he : fn calls = .error (err calls) := by simpa using hfail 0 (le_refl 0)
    simp [retryLoop, hi', he, hlast, failTrace]
  | succ k ih =>
    intro n i calls hi hn hfail
    obtain ⟨m, rfl⟩ : ∃ m, n = m + 1 := ⟨n - 1, by omega⟩
    have hi' : (i : Int) < retries := by push_cast at hi; omega
    have hne : ¬ ((i : Int) = retries - 1) := by push_cast at hi; omega
    have he : fn calls = .error (err calls) := by simpa using hfail 0 (by omega)
    have hrec := ih m (i + 1) (calls + 1) (by push_cast at hi ⊢; omega) (by omega)
      (fun j hj => by
        have h' := hfail (j + 1) (by omega)
        rw [show calls + 1 + j = calls + (j + 1) by omega]
        exact h')
    simp only [retryLoop, hi', if_true, he, hne, if_false, hrec, failTrace]
    have hc : calls + 1 + k = calls + (k + 1) := by omega
    simp [hc]

/-- Every wait of a run lasts `delay`, and there is one wait per notification. -/
theorem waits_retryLoop {ε α : Type} (fn : Nat → Except ε α) (retries : Int) (delay : Nat) :
    ∀ n i calls : Nat,
      waits (retryLoop fn retries delay n i calls).trace =
        List.replicate (notifications (retryLoop fn retries delay n i calls).trace) delay := by
  intro n
  induction n with
  | zero => intro i calls; rfl
  | succ n ih =>
    intro i calls
    have h := ih (i + 1) (calls + 1)
    simp only [notifications] at h
    unfold retryLoop
    split
    · split
      · rfl
      · split
        · rfl
        · simp [waits, notifications, List.countP_cons, h, List.replicate_succ]
    · rfl

end WalletFrontend

/-! ## The retry wrapper: results -/

namespace WalletFrontend

/-- C1: for every operation and every `maxAttempts ≥ 1`, if the first `k` calls of the
operation fail and call `k + 1` succeeds with value `v`, where `k < maxAttempts`, then
`apiCallWithRetry` resolves with `v`, calls the operation exactly `k + 1` times and
emits exactly `k` retry notifications. -/
theorem apiCallWithRetry_succeeds_after_failures {ε α : Type} (fn : Nat → Except ε α)
    (maxAttempts : Int) (delay k : Nat) (v : α)
    (hmax : 1 ≤ maxAttempts) (hk : (k : Int) < maxAttempts)
    (hfail : ∀ j, j < k → ∃ e, fn j = .error e) (hok : fn k = .ok v) :
    (apiCallWithRetry fn maxAttempts delay).outcome = .resolved (some v) ∧
      invocations (apiCallWithRetry fn maxAttempts delay).trace = k + 1 ∧
      notifications (apiCallWithRetry fn maxAttempts delay).trace = k := by
  have hrun := retryLoop_fail_then_ok fn maxAttempts delay v k maxAttempts.toNat 0 0
    (by simpa using hk) (by omega) (by simpa using hfail) (by simpa using hok)
  unfold apiCallWithRetry
  rw [hrun]
  refine ⟨rfl, ?_, ?_⟩
  · rw [invocations_append, invocations_failTrace]; rfl
  · rw [notifications_append, notifications_failTrace]; rfl

/-- C1, at the spec's example: an operation that fails twice and then succeeds with 7,
run with `maxAttempts = 3`, resolves with 7 after 3 calls and 2 retry notifications. -/
theorem apiCallWithRetry_succeeds_after_failures_witness :
    (apiCallWithRetry failsTwice 3 1000).outcome = Settled.resolved (some 7) ∧
      invocations (apiCallWithRetry failsTwice 3 1000).trace = 2 + 1 ∧
      notifications (apiCallWithRetry failsTwice 3 1000).trace = 2 :=
  apiCallWithRetry_succeeds_after_failures failsTwice 3 1000 2 7
    (by decide) (by decide) (fun j hj => ⟨⟨some 500, none⟩, by simp [failsTwice, hj]⟩) rfl

/-- C2: for every `maxAttempts ≥ 1`, if every call of the operation fails, then
`apiCallWithRetry` calls it exactly `maxAttempts` times and rejects with the error of
the last call; it emits `maxAttempts - 1` retry notifications and performs
`maxAttempts - 1` waits, and the last thing it does is the final call: neither a wait
nor a notification follows the final failure. -/
theorem apiCallWithRetry_exhausted {ε α : Type} (fn : Nat → Except ε α) (err : Nat → ε)
    (maxAttempts : Int) (delay : Nat) (hmax : 1 ≤ maxAttempts)
    (hfail : ∀ c, fn c = .error (err c)) :
    (apiCallWithRetry fn maxAttempts delay).outcome =
        .rejected (err (maxAttempts.toNat - 1)) ∧
      (invocations (apiCallWithRetry fn maxAttempts delay).trace : Int) = maxAttempts ∧
      (notifications (apiCallWithRetry fn maxAttempts delay).trace : Int) =
        maxAttempts - 1 ∧
      ((waits (apiCallWithRetry fn maxAttempts delay).trace).length : Int) =
        maxAttempts - 1 ∧
      (apiCallWithRetry fn maxAttempts delay).trace.getLast? =
        some (.invoke (maxAttempts.toNat - 1)) := by
  have hrun := retryLoop_all_fail fn err maxAttempts delay (maxAttempts.toNat - 1)
    maxAttempts.toNat 0 0 (by omega) (by omega) (fun j _ => hfail _)
  unfold apiCallWithRetry
  rw [hrun]
  refine ⟨by simp, ?_, ?_, ?_, ?_⟩
  · rw [invocations_append, invocations_failTrace]
    simp [invocations]; omega
  · rw [notifications_append, notifications_failTrace]
    simp [notifications]; omega
  · rw [waits_append, waits_failTrace]
    simp [waits]; omega
  · simp

/-- C2, at `maxAttempts = 3`: three calls, the error of the third call, two
notifications, two waits, and the third call comes last. -/
theorem apiCallWithRetry_exhausted_witness :
    (apiCallWithRetry alwaysFails 3 1000).outcome = .rejected ⟨some 502, none⟩ ∧
      (invocations (apiCallWithRetry alwaysFails 3 1000).trace : Int) = 3 ∧
      (notifications (apiCallWithRetry alwaysFails 3 1000).trace : Int) = 3 - 1 ∧
      ((waits (apiCallWithRetry alwaysFails 3 1000).trace).length : Int) = 3 - 1 ∧
      (apiCallWithRetry alwaysFails 3 1000).trace.getLast? = some (.invoke 2) :=
  apiCallWithRetry_exhausted alwaysFails (fun c => ⟨some (500 + c), none⟩) 3 1000
    (by decide) (fun _ => rfl)

/-- C3, as stated, fails: with `delay = 1000` and three failing calls the two waits
last 1000 and 1000 milliseconds, not `1000 * 1` and `1000 * 2`, and they add up to 2000,
not to `1000 * (2 * 3 / 2)`. -/
theorem apiCallWithRetry_backoff_counterexample :
    waits (apiCallWithRetry alwaysFails 3 1000).trace = [1000, 1000] ∧
      waits (apiCallWithRetry alwaysFails 3 1000).trace ≠ [1000 * 1, 1000 * 2] ∧
      (waits (apiCallWithRetry alwaysFails 3 1000).trace).sum ≠ 1000 * (2 * (2 + 1) / 2) := by
  decide

/-- The events of `k` failed and retried attempts, one after the other: each failed
call is followed by its notification and by a wait of `delay`. -/
theorem failTrace_eq_flatMap (retries : Int) (delay k i calls : Nat) :
    failTrace retries delay k i calls =
      (List.range k).flatMap (fun j =>
        [.invoke (calls + j), .toastWarn (retryText (i + j) retries), .sleep delay]) := by
  induction k generalizing i calls with
  | zero => rfl
  | succ k ih =>
    rw [List.range_succ_eq_map, List.flatMap_cons, List.flatMap_map, failTrace, ih]
    simp only [Nat.add_zero, List.cons_append, List.nil_append, List.cons.injEq, true_and]
    congr 1
    funext j
    simp [Nat.succ_eq_add_one, Nat.add_assoc, Nat.add_comm 1 j]

/-- A run whose first `n` calls fail and are retried, and whose next call either
succeeds or is the last attempt. -/
theorem apiCallWithRetry_trace {ε α : Type} (fn : Nat → Except ε α)
    (maxAttempts : Int) (delay n : Nat)
    (hn : (n : Int) < maxAttempts)
    (hfail : ∀ j, j < n → ∃ e, fn j = .error e)
    (hstop : (∃ v, fn n = .ok v) ∨ (n : Int) = maxAttempts - 1) :
    (apiCallWithRetry fn maxAttempts delay).trace =
      failTrace maxAttempts delay n 0 0 ++ [.invoke n] := by
  unfold apiCallWithRetry
  rcases hlast : fn n with e | v
  · have hlastAttempt : (n : Int) = maxAttempts - 1 := by
      rcases hstop with ⟨v, hv⟩ | h
      · rw [hv] at hlast; cases hlast
      · exact h
    have hrun := retryLoop_all_fail fn
      (fun c => match fn c with
        | .error e' => e'
        | .ok _ => e) maxAttempts delay n maxAttempts.toNat 0 0
      (by simpa using hlastAttempt) (by omega)
      (fun j hj => by
        rcases Nat.lt_or_eq_of_le hj with hlt | heq
        · obtain ⟨e', he'⟩ := hfail j hlt
          simp [he']
        · subst heq
          simp [hlast])
    rw [hrun]
    simp
  · have hrun := retryLoop_fail_then_ok fn maxAttempts delay v n maxAttempts.toNat 0 0
      (by simpa using hn) (by omega) (by simpa using hfail) (by simpa using hlast)
    rw [hrun]
    simp

/-- C3, amended: every wait of `apiCallWithRetry` lasts `delay`, whatever the number of
the attempt. In a run whose first `n` calls fail and are retried (`n < maxAttempts`,
and call `n + 1` succeeds or is the last attempt), each of those `n` failed calls is
followed by its retry notification and by one wait of `delay`, and nothing else
happens but the call that ends the run: the waits are `n` times `delay`, and they add
up to `delay * n`. -/
theorem apiCallWithRetry_fixed_delay {ε α : Type} (fn : Nat → Except ε α)
    (maxAttempts : Int) (delay n : Nat)
    (hn : (n : Int) < maxAttempts)
    (hfail : ∀ j, j < n → ∃ e, fn j = .error e)
    (hstop : (∃ v, fn n = .ok v) ∨ (n : Int) = maxAttempts - 1) :
    (apiCallWithRetry fn maxAttempts delay).trace =
        (List.range n).flatMap (fun j =>
          [.invoke j, .toastWarn (retryText j maxAttempts), .sleep delay]) ++ [.invoke n] ∧
      waits (apiCallWithRetry fn maxAttempts delay).trace = List.replicate n delay ∧
      (waits (apiCallWithRetry fn maxAttempts delay).trace).sum = delay * n := by
  have htrace := apiCallWithRetry_trace fn maxAttempts delay n hn hfail hstop
  have hwaits : waits (apiCallWithRetry fn maxAttempts delay).trace = List.replicate n delay := by
    rw [htrace, waits_append, waits_failTrace]
    simp [waits]
  refine ⟨?_, hwaits, ?_⟩
  · rw [htrace, failTrace_eq_flatMap]
    simp
  · rw [hwaits, List.sum_replicate, smul_eq_mul, Nat.mul_comm]

/-- C3 amended, at three failing calls under `maxAttempts = 3` and `delay = 1000`:
two failed calls are retried, each followed by a wait of 1000. -/
theorem apiCallWithRetry_fixed_delay_witness :
    (apiCallWithRetry alwaysFails 3 1000).trace =
        (List.range 2).flatMap (fun j =>
          [.invoke j, .toastWarn (retryText j 3), .sleep 1000]) ++ [.invoke 2] ∧
      waits (apiCallWithRetry alwaysFails 3 1000).trace = List.replicate 2 1000 ∧
      (waits (apiCallWithRetry alwaysFails 3 1000).trace).sum = 1000 * 2 :=
  apiCallWithRetry_fixed_delay alwaysFails 3 1000 2 (by decide)
    (fun j _ => ⟨⟨some (500 + j), none⟩, rfl⟩) (Or.inr (by decide))

/-- C4, as stated, fails: an operation answered with HTTP 401 on every call is called
three times under `maxAttempts = 3`, with two retry notifications and two waits. -/
theorem apiCallWithRetry_unauthorized_counterexample :
    invocations (apiCallWithRetry unauthorized 3 1000).trace = 3 ∧
      notifications (apiCallWithRetry unauthorized 3 1000).trace = 2 ∧
      waits (apiCallWithRetry unauthorized 3 1000).trace = [1000, 1000] := by
  decide

/-- C4, amended: `apiCallWithRetry` does not look at the kind of error. An operation
that fails with HTTP 401 on every call is called exactly `maxAttempts` times, with
`maxAttempts - 1` retry notifications and as many waits of `delay`, and the 401 error
of the last call is then thrown; it is called exactly once if and only if
`maxAttempts = 1`. -/
theorem apiCallWithRetry_unauthorized_retried {α : Type} (fn : Nat → Except ApiError α)
    (err : Nat → ApiError) (maxAttempts : Int) (delay : Nat) (hmax : 1 ≤ maxAttempts)
    (hfail : ∀ c, fn c = .error (err c)) (h401 : ∀ c, (err c).status = some 401) :
    (∃ e : ApiError, e.status = some 401 ∧
        (apiCallWithRetry fn maxAttempts delay).outcome = .rejected e) ∧
      (invocations (apiCallWithRetry fn maxAttempts delay).trace : Int) = maxAttempts ∧
      (notifications (apiCallWithRetry fn maxAttempts delay).trace : Int) =
        maxAttempts - 1 ∧
      waits (apiCallWithRetry fn maxAttempts delay).trace =
        List.replicate (maxAttempts.toNat - 1) delay ∧
      (invocations (apiCallWithRetry fn maxAttempts delay).trace = 1 ↔ maxAttempts = 1) := by
  have hrun := retryLoop_all_fail fn err maxAttempts delay (maxAttempts.toNat - 1)
    maxAttempts.toNat 0 0 (by omega) (by omega) (fun j _ => hfail _)
  have hinv : (invocations (apiCallWithRetry fn maxAttempts delay).trace : Int) =
      maxAttempts := by
    unfold apiCallWithRetry
    rw [hrun, invocations_append, invocations_failTrace]
    simp [invocations]; omega
  unfold apiCallWithRetry at hinv ⊢
  refine ⟨⟨err (0 + (maxAttempts.toNat - 1)), h401 _, by rw [hrun]⟩, hinv, ?_, ?_, ?_⟩
  · rw [hrun, notifications_append, notifications_failTrace]
    simp [notifications]; omega
  · rw [hrun, waits_append, waits_failTrace]
    simp [waits]
  · omega

/-- C4 amended, at `maxAttempts = 3`. -/
theorem apiCallWithRetry_unauthorized_retried_witness :
    (∃ e : ApiError, e.status = some 401 ∧
        (apiCallWithRetry unauthorized 3 1000).outcome = .rejected e) ∧
      (invocations (apiCallWithRetry unauthorized 3 1000).trace : Int) = 3 ∧
      (notifications (apiCallWithRetry unauthorized 3 1000).trace : Int) = 3 - 1 ∧
      waits (apiCallWithRetry unauthorized 3 1000).trace =
        List.replicate ((3 : Int).toNat - 1) 1000 ∧
      (invocations (apiCallWithRetry unauthorized 3 1000).trace = 1 ↔ (3 : Int) = 1) :=
  apiCallWithRetry_unauthorized_retried unauthorized
    (fun _ => ⟨some 401, some "Token has expired"⟩) 3 1000 (by decide) (fun _ => rfl)
    (fun _ => rfl)

end WalletFrontend

/-! ## The token client: lemmas -/

namespace Frontend

/-- The function `fetchUserData` touches neither the offline queue nor its stored
copy. -/
theorem fetchUserData_queue (s : AppState) (w : Except ApiError Wallet)
    (t : Except ApiError (List Transaction)) :
    (fetchUserData s w t).state.offlineTxs = s.offlineTxs ∧
      (fetchUserData s w t).state.localStorage.offlineTxs = s.localStorage.offlineTxs := by
  unfold fetchUserData
  by_cases hs : tokenPresent s.token = true
  · rcases w with e | w
    · by_cases h : e.status = some 401 <;> simp [hs, h, logout]
    · rcases t with e | t
      · by_cases h : e.status = some 401 <;> simp [hs, h, logout]
      · simp [hs]
  · simp [hs]

/-- A `fetchUserData()` started by a handler touches neither the offline queue nor
its stored copy. -/
theorem thenFetchUserData_queue (s : AppState) (sent : List Request)
    (w : Except ApiError Wallet) (t : Except ApiError (List Transaction)) :
    (thenFetchUserData s sent w t).state.offlineTxs = s.offlineTxs ∧
      (thenFetchUserData s sent w t).state.localStorage.offlineTxs =
        s.localStorage.offlineTxs :=
  fetchUserData_queue s w t

/-- A 401 answer to the first request of `fetchUserData` ends the session. -/
theorem fetchUserData_unauthorized (s : AppState) (e : ApiError)
    (t : Except ApiError (List Transaction)) (hs : tokenPresent s.token = true)
    (h : e.status = some 401) :
    (fetchUserData s (.error e) t).state.token = none ∧
      (fetchUserData s (.error e) t).state.localStorage.token = none := by
  simp [fetchUserData, hs, h, logout]

/-- With the user record loaded, an offline `handleTransfer` sends nothing, appends
the new entry to the queue and to its stored copy, clears the form and the loading
flag, and announces the queuing. -/
theorem handleTransfer_offline (s : AppState) (u : User) (now : String)
    (a : Except ApiError Unit) (w : Except ApiError Wallet)
    (t : Except ApiError (List Transaction)) (hoff : s.isOnline = false)
    (hu : s.user = some u) :
    handleTransfer s now a w t =
      ⟨{ s with
          error := "",
          offlineTxs := s.offlineTxs ++ [offlineTxOf u s.transferForm now],
          localStorage := { s.localStorage with
            offlineTxs :=
              some (stringifyOfflineTxs (s.offlineTxs ++ [offlineTxOf u s.transferForm now])) },
          success := "Transaction queued for offline sync!",
          transferForm := emptyTransferForm,
          loading := false }, [], false⟩ := by
  simp [handleTransfer, hoff, hu]

/-- Offline submissions with the user record loaded queue their entries in the order
of submission, behind the entries already queued. -/
theorem submitAll_offline (u : User) (subs : List (TransferForm × String)) :
    ∀ s : AppState, s.isOnline = false → s.user = some u →
      (submitAll s subs).offlineTxs =
        s.offlineTxs ++ subs.map (fun p => offlineTxOf u p.1 p.2) := by
  induction subs with
  | nil => intro s _ _; simp [submitAll]
  | cons p rest ih =>
    intro s hoff hu
    obtain ⟨form, now⟩ := p
    have h := handleTransfer_offline (fillTransferForm s form) u now (.ok ()) (.ok ⟨0⟩)
      (.ok []) hoff hu
    rw [submitAll, h]
    rw [ih _ (by simpa [fillTransferForm] using hoff) (by simpa [fillTransferForm] using hu)]
    simp [fillTransferForm]

end Frontend

/-! ## The token client: results -/

namespace Frontend

/-- C5, at the failing input: the session `loggedIn` (token "t", online) submits a
transfer, generates a QR code, scans one, and, with one entry queued, syncs; the
ledger answers each request with HTTP 401. After each of these handlers the token is
still "t" in state and in storage. Only `fetchUserData` ends the session on 401. -/
theorem unauthorized_answer_keeps_session :
    (handleTransfer loggedIn "n" (.error expired) (.ok ⟨0⟩) (.ok [])).state.token = some "t" ∧
      (handleTransfer loggedIn "n" (.error expired) (.ok ⟨0⟩)
        (.ok [])).state.localStorage.token = some "t" ∧
      (generateQR loggedIn (.error expired)).state.token = some "t" ∧
      (generateQR loggedIn (.error expired)).state.localStorage.token = some "t" ∧
      (handleQrScan loggedIn "qr" (.error expired) (.ok ⟨0⟩) (.ok [])).state.token =
        some "t" ∧
      (handleQrScan loggedIn "qr" (.error expired) (.ok ⟨0⟩)
        (.ok [])).state.localStorage.token = some "t" ∧
      (syncOfflineTransactions
        { loggedIn with offlineTxs := [offlineTxOf ⟨7, "Ada", "ada@x.com"⟩ ⟨"b", "1", ""⟩ "n"] }
        (.error expired) (.ok ⟨0⟩) (.ok [])).state.token = some "t" ∧
      (syncOfflineTransactions
        { loggedIn with offlineTxs := [offlineTxOf ⟨7, "Ada", "ada@x.com"⟩ ⟨"b", "1", ""⟩ "n"] }
        (.error expired) (.ok ⟨0⟩) (.ok [])).state.localStorage.token = some "t" ∧
      (fetchUserData loggedIn (.error expired) (.ok [])).state.token = none ∧
      (fetchUserData loggedIn (.error expired) (.ok [])).state.localStorage.token = none := by
  decide

end Frontend

/-! ## Payment intents, the offline queue and the drain -/

namespace Frontend

/-- The requests of a retried payment are as many copies of one request as there are
calls of the operation. -/
theorem filterMap_invoke (r : WalletFrontend.PayRequest) (tr : List WalletFrontend.Event) :
    tr.filterMap (fun ev =>
        match ev with
        | .invoke _ => some r
        | _ => none) = List.replicate (WalletFrontend.invocations tr) r := by
  induction tr with
  | nil => rfl
  | cons ev tr ih =>
    have h := ih
    simp only [WalletFrontend.invocations] at h
    cases ev <;>
      simp [WalletFrontend.invocations, List.filterMap_cons, List.countP_cons, h,
        List.replicate_succ]

/-- C6, as stated, fails: user 7, offline, submits the same transfer twice at the
same clock reading. The two queued intents are one and the same entry, with the
fields `receiver_email`, `amount`, `description`, `qr_data` and `timestamp` and no
field by which to tell them apart. The request of `handlePay` is a URL and a body of
`amount` and `is_offline`, nothing else. -/
theorem idempotency_key_counterexample :
    (submitAll loggedInOffline
        [(⟨"bob@x.com", "1000", "rent"⟩, "2025-01-01T00:00:00.000Z"),
         (⟨"bob@x.com", "1000", "rent"⟩, "2025-01-01T00:00:00.000Z")]).offlineTxs =
      [⟨"bob@x.com", "1000", "rent", stringifyQrData 7 "1000" "rent",
          "2025-01-01T00:00:00.000Z"⟩,
       ⟨"bob@x.com", "1000", "rent", stringifyQrData 7 "1000" "rent",
          "2025-01-01T00:00:00.000Z"⟩] ∧
      ¬ (submitAll loggedInOffline
        [(⟨"bob@x.com", "1000", "rent"⟩, "2025-01-01T00:00:00.000Z"),
         (⟨"bob@x.com", "1000", "rent"⟩, "2025-01-01T00:00:00.000Z")]).offlineTxs.Nodup ∧
      WalletFrontend.payRequest (some 1) "100" true =
        ⟨"http://localhost:8000/pay/1/", ⟨"100", false⟩⟩ := by
  refine ⟨rfl, ?_, by decide⟩
  rw [show (submitAll loggedInOffline
        [(⟨"bob@x.com", "1000", "rent"⟩, "2025-01-01T00:00:00.000Z"),
         (⟨"bob@x.com", "1000", "rent"⟩, "2025-01-01T00:00:00.000Z")]).offlineTxs =
      [⟨"bob@x.com", "1000", "rent", stringifyQrData 7 "1000" "rent",
          "2025-01-01T00:00:00.000Z"⟩,
       ⟨"bob@x.com", "1000", "rent", stringifyQrData 7 "1000" "rent",
          "2025-01-01T00:00:00.000Z"⟩] from rfl]
  simp

/-- C6, amended: no intent carries an idempotency key. The entry queued by an offline
`handleTransfer` depends only on the form, the id of the user and the clock reading:
two submissions that agree on these queue the same entry, whatever else the two
states hold. The request of `handlePay` depends only on `userId`, `amount` and
`isOnline`, and every call of the operation during one `apiCallWithRetry` run sends
that same request. -/
theorem intents_carry_no_key (s1 s2 : AppState) (u1 u2 : User) (now : String)
    (a : Except ApiError Unit) (w : Except ApiError Wallet)
    (t : Except ApiError (List Transaction))
    (userId : Option Nat) (amount : String) (online : Bool)
    (server : Nat → WalletFrontend.PayRequest → Except WalletFrontend.ApiError Unit)
    (retries : Int) (delay : Nat)
    (h1 : s1.isOnline = false) (h2 : s2.isOnline = false)
    (hu1 : s1.user = some u1) (hu2 : s2.user = some u2) (hid : u1.id = u2.id)
    (hform : s1.transferForm = s2.transferForm) :
    (handleTransfer s1 now a w t).state.offlineTxs.getLast? =
        (handleTransfer s2 now a w t).state.offlineTxs.getLast? ∧
      WalletFrontend.payRequests userId amount online server retries delay =
        List.replicate
          (WalletFrontend.invocations
            (WalletFrontend.apiCallWithRetry
              (fun c => server c (WalletFrontend.payRequest userId amount online))
              retries delay).trace)
          (WalletFrontend.payRequest userId amount online) := by
  refine ⟨?_, filterMap_invoke _ _⟩
  rw [handleTransfer_offline s1 u1 now a w t h1 hu1,
    handleTransfer_offline s2 u2 now a w t h2 hu2]
  simp [offlineTxOf, hid, hform]

/-- C6 amended, at two sessions of user 7 that differ in their queues, and at a
payment of 100 retried after one failure. -/
theorem intents_carry_no_key_witness :
    (handleTransfer loggedInOffline "n" (.ok ()) (.ok ⟨0⟩) (.ok [])).state.offlineTxs.getLast? =
        (handleTransfer
          (fillTransferForm
            (handleTransfer loggedInOffline "m" (.ok ()) (.ok ⟨0⟩) (.ok [])).state
            ⟨"bob@x.com", "1000", "rent"⟩)
          "n" (.ok ()) (.ok ⟨0⟩) (.ok [])).state.offlineTxs.getLast? ∧
      WalletFrontend.payRequests (some 1) "100" true
          (fun c _ => if c = 0 then .error ⟨some 500, none⟩ else .ok ()) 3 1000 =
        [WalletFrontend.payRequest (some 1) "100" true,
         WalletFrontend.payRequest (some 1) "100" true] := by
  have h := intents_carry_no_key loggedInOffline
    (fillTransferForm (handleTransfer loggedInOffline "m" (.ok ()) (.ok ⟨0⟩) (.ok [])).state
      ⟨"bob@x.com", "1000", "rent"⟩)
    ⟨7, "Ada", "ada@x.com"⟩ ⟨7, "Ada", "ada@x.com"⟩ "n" (.ok ()) (.ok ⟨0⟩) (.ok [])
    (some 1) "100" true (fun c _ => if c = 0 then .error ⟨some 500, none⟩ else .ok ()) 3 1000
    rfl rfl rfl rfl rfl rfl
  exact ⟨h.1, h.2.trans (by decide)⟩

end Frontend

namespace Frontend

/-- C7, at the failing input: in the session restored from a stored token (`user` is
`null`) and offline, `handleTransfer` throws at `user.id`: no entry is appended to
the queue or to its stored copy, and after two such submissions the queue is still
empty. -/
theorem handleTransfer_offline_without_user_appends_nothing :
    restoredOffline.isOnline = false ∧ restoredOffline.user = none ∧
      (handleTransfer restoredOffline "n" (.ok ()) (.ok ⟨0⟩) (.ok [])).threw = true ∧
      (handleTransfer restoredOffline "n" (.ok ()) (.ok ⟨0⟩) (.ok [])).state.offlineTxs = [] ∧
      (handleTransfer restoredOffline "n" (.ok ()) (.ok ⟨0⟩)
        (.ok [])).state.localStorage.offlineTxs = none ∧
      (submitAll restoredOffline
        [(⟨"bob@x.com", "1000", "rent"⟩, "a"), (⟨"eve@x.com", "5", ""⟩, "b")]).offlineTxs =
        [] := by
  decide

/-- C8, at the failing input: in the session restored from a stored token and
offline, `handleTransfer` sends no request but does not get as far as queuing: the
queue does not grow, the loading flag stays set, and no message reports the outcome. -/
theorem handleTransfer_offline_without_user_stays_loading :
    (handleTransfer restoredOffline "n" (.ok ()) (.ok ⟨0⟩) (.ok [])).requests = [] ∧
      (handleTransfer restoredOffline "n" (.ok ()) (.ok ⟨0⟩)
        (.ok [])).state.offlineTxs.length = restoredOffline.offlineTxs.length ∧
      (handleTransfer restoredOffline "n" (.ok ()) (.ok ⟨0⟩) (.ok [])).state.loading = true ∧
      (handleTransfer restoredOffline "n" (.ok ()) (.ok ⟨0⟩) (.ok [])).state.success = "" ∧
      (handleTransfer restoredOffline "n" (.ok ()) (.ok ⟨0⟩) (.ok [])).state.transferForm =
        ⟨"bob@x.com", "1000", "rent"⟩ := by
  decide

/-- C9: when the sync request fails, `syncOfflineTransactions` leaves the offline
queue and everything in storage, the stored copy of the queue included, as they
were before the call. -/
theorem syncOfflineTransactions_failure_keeps_queue (s : AppState) (e : ApiError)
    (w : Except ApiError Wallet) (t : Except ApiError (List Transaction)) :
    (syncOfflineTransactions s (.error e) w t).state.offlineTxs = s.offlineTxs ∧
      (syncOfflineTransactions s (.error e) w t).state.localStorage = s.localStorage := by
  unfold syncOfflineTransactions
  split <;> simp

/-- C9, at a session with one queued entry whose sync request times out: the
request is sent, and the entry stays queued in memory and in storage. -/
theorem syncOfflineTransactions_failure_keeps_queue_witness :
    (syncOfflineTransactions
        (handleTransfer loggedInOffline "n" (.ok ()) (.ok ⟨0⟩) (.ok [])).state
        (.error ⟨none, none⟩) (.ok ⟨0⟩) (.ok [])).requests =
        [.postSyncOfflineTransactions "Bearer t"] ∧
      (handleTransfer loggedInOffline "n" (.ok ()) (.ok ⟨0⟩) (.ok [])).state.offlineTxs.length =
        1 ∧
      (syncOfflineTransactions
        (handleTransfer loggedInOffline "n" (.ok ()) (.ok ⟨0⟩) (.ok [])).state
        (.error ⟨none, none⟩) (.ok ⟨0⟩) (.ok [])).state.offlineTxs =
        (handleTransfer loggedInOffline "n" (.ok ()) (.ok ⟨0⟩) (.ok [])).state.offlineTxs ∧
      (syncOfflineTransactions
        (handleTransfer loggedInOffline "n" (.ok ()) (.ok ⟨0⟩) (.ok [])).state
        (.error ⟨none, none⟩) (.ok ⟨0⟩) (.ok [])).state.localStorage =
        (handleTransfer loggedInOffline "n" (.ok ()) (.ok ⟨0⟩) (.ok [])).state.localStorage :=
  ⟨by decide, by decide,
    syncOfflineTransactions_failure_keeps_queue
      (handleTransfer loggedInOffline "n" (.ok ()) (.ok ⟨0⟩) (.ok [])).state ⟨none, none⟩
      (.ok ⟨0⟩) (.ok [])⟩

/-- C10, as stated, fails: one entry is queued and the ledger answers the sync
request reporting that entry as failed. After the drain the entry is in the queue
neither in memory nor in storage. -/
theorem syncOfflineTransactions_drops_failed_counterexample :
    (handleTransfer loggedInOffline "n" (.ok ()) (.ok ⟨0⟩) (.ok [])).state.offlineTxs =
        [offlineTxOf ⟨7, "Ada", "ada@x.com"⟩ ⟨"bob@x.com", "1000", "rent"⟩ "n"] ∧
      offlineTxOf ⟨7, "Ada", "ada@x.com"⟩ ⟨"bob@x.com", "1000", "rent"⟩ "n" ∉
        (syncOfflineTransactions
          (handleTransfer loggedInOffline "n" (.ok ()) (.ok ⟨0⟩) (.ok [])).state
          (.ok ⟨[], [offlineTxOf ⟨7, "Ada", "ada@x.com"⟩ ⟨"bob@x.com", "1000", "rent"⟩ "n"]⟩)
          (.ok ⟨0⟩) (.ok [])).state.offlineTxs ∧
      (syncOfflineTransactions
          (handleTransfer loggedInOffline "n" (.ok ()) (.ok ⟨0⟩) (.ok [])).state
          (.ok ⟨[], [offlineTxOf ⟨7, "Ada", "ada@x.com"⟩ ⟨"bob@x.com", "1000", "rent"⟩ "n"]⟩)
          (.ok ⟨0⟩) (.ok [])).state.localStorage.offlineTxs = some "[]" := by
  refine ⟨rfl, ?_, rfl⟩
  rw [show (syncOfflineTransactions
          (handleTransfer loggedInOffline "n" (.ok ()) (.ok ⟨0⟩) (.ok [])).state
          (.ok ⟨[], [offlineTxOf ⟨7, "Ada", "ada@x.com"⟩ ⟨"bob@x.com", "1000", "rent"⟩ "n"]⟩)
          (.ok ⟨0⟩) (.ok [])).state.offlineTxs = [] from rfl]
  simp

/-- C10, amended: whenever the sync request is answered, the whole offline queue is
cleared, in memory and in storage (the stored text becomes "[]"), whatever the
answer reports as synced or as failed. -/
theorem syncOfflineTransactions_answer_clears_queue (s : AppState) (data : SyncResponse)
    (w : Except ApiError Wallet) (t : Except ApiError (List Transaction))
    (htoken : tokenPresent s.token = true) (hqueue : s.offlineTxs ≠ []) :
    (syncOfflineTransactions s (.ok data) w t).requests.head? =
        some (.postSyncOfflineTransactions (bearer s.token)) ∧
      (syncOfflineTransactions s (.ok data) w t).state.offlineTxs = [] ∧
      (syncOfflineTransactions s (.ok data) w t).state.localStorage.offlineTxs =
        some "[]" := by
  have hguard : (!tokenPresent s.token || s.offlineTxs.length == 0) = false := by
    cases h : s.offlineTxs with
    | nil => exact absurd h hqueue
    | cons x xs => simp [htoken]
  simp only [syncOfflineTransactions, hguard, Bool.false_eq_true, if_false]
  refine ⟨by simp [thenFetchUserData], ?_, ?_⟩
  · rw [(thenFetchUserData_queue _ _ w t).1]
  · rw [(thenFetchUserData_queue _ _ w t).2]

/-- C10 amended, at one queued entry that the ledger reports as failed. -/
theorem syncOfflineTransactions_answer_clears_queue_witness :
    (syncOfflineTransactions
        (handleTransfer loggedInOffline "n" (.ok ()) (.ok ⟨0⟩) (.ok [])).state
        (.ok ⟨[], [offlineTxOf ⟨7, "Ada", "ada@x.com"⟩ ⟨"bob@x.com", "1000", "rent"⟩ "n"]⟩)
        (.ok ⟨0⟩) (.ok [])).requests.head? =
        some (.postSyncOfflineTransactions
          (bearer (handleTransfer loggedInOffline "n" (.ok ()) (.ok ⟨0⟩) (.ok [])).state.token)) ∧
      (syncOfflineTransactions
        (handleTransfer loggedInOffline "n" (.ok ()) (.ok ⟨0⟩) (.ok [])).state
        (.ok ⟨[], [offlineTxOf ⟨7, "Ada", "ada@x.com"⟩ ⟨"bob@x.com", "1000", "rent"⟩ "n"]⟩)
        (.ok ⟨0⟩) (.ok [])).state.offlineTxs = [] ∧
      (syncOfflineTransactions
        (handleTransfer loggedInOffline "n" (.ok ()) (.ok ⟨0⟩) (.ok [])).state
        (.ok ⟨[], [offlineTxOf ⟨7, "Ada", "ada@x.com"⟩ ⟨"bob@x.com", "1000", "rent"⟩ "n"]⟩)
        (.ok ⟨0⟩) (.ok [])).state.localStorage.offlineTxs = some "[]" :=
  syncOfflineTransactions_answer_clears_queue
    (handleTransfer loggedInOffline "n" (.ok ()) (.ok ⟨0⟩) (.ok [])).state
    ⟨[], [offlineTxOf ⟨7, "Ada", "ada@x.com"⟩ ⟨"bob@x.com", "1000", "rent"⟩ "n"]⟩
    (.ok ⟨0⟩) (.ok []) (by decide) (by decide)

end Frontend

/-! ## The drain: what it reports and what it sends -/

namespace Frontend

/-- The function `fetchUserData` leaves the success message alone and keeps the
token unless it logs out. -/
theorem fetchUserData_success (s : AppState) (w : Except ApiError Wallet)
    (t : Except ApiError (List Transaction)) :
    (fetchUserData s w t).state.success = s.success := by
  unfold fetchUserData
  by_cases hs : tokenPresent s.token = true
  · rcases w with e | w
    · by_cases h : e.status = some 401 <;> simp [hs, h, logout]
    · rcases t with e | t
      · by_cases h : e.status = some 401 <;> simp [hs, h, logout]
      · simp [hs]
  · simp [hs]

/-- The requests of `fetchUserData` depend on the token and on the answers only. -/
theorem fetchUserData_requests (s1 s2 : AppState) (w : Except ApiError Wallet)
    (t : Except ApiError (List Transaction)) (h : s1.token = s2.token) :
    (fetchUserData s1 w t).requests = (fetchUserData s2 w t).requests := by
  unfold fetchUserData
  rw [h]
  by_cases hs : tokenPresent s2.token = true
  · rcases w with e | w
    · simp [hs]
    · rcases t with e | t <;> simp [hs]
  · simp [hs]

/-- The guard of `syncOfflineTransactions` lets a session with a token and a
non-empty queue through. -/
theorem sync_guard (s : AppState) (htoken : tokenPresent s.token = true)
    (hqueue : s.offlineTxs ≠ []) :
    (!tokenPresent s.token || s.offlineTxs.length == 0) = false := by
  cases h : s.offlineTxs with
  | nil => exact absurd h hqueue
  | cons x xs => simp [htoken]

/-- C11: when a drain runs on a queue of `N` items (the token is present and `N` is
positive, so the request is sent) and the ledger answers with `N` synced items and
no failed one, the drain reports "Synced N transactions successfully!" and the
offline queue is empty afterwards, in memory and in storage (the stored text is
"[]"). -/
theorem syncOfflineTransactions_all_accepted (s : AppState) (data : SyncResponse)
    (w : Except ApiError Wallet) (t : Except ApiError (List Transaction)) (N : Nat)
    (htoken : tokenPresent s.token = true) (hN : s.offlineTxs.length = N) (hpos : 0 < N)
    (hsynced : data.synced.length = N) (hfailed : data.failed = []) :
    (syncOfflineTransactions s (.ok data) w t).requests.head? =
        some (.postSyncOfflineTransactions (bearer s.token)) ∧
      (syncOfflineTransactions s (.ok data) w t).state.success =
        "Synced " ++ toString N ++ " transactions successfully!" ∧
      (syncOfflineTransactions s (.ok data) w t).state.offlineTxs = [] ∧
      (syncOfflineTransactions s (.ok data) w t).state.localStorage.offlineTxs =
        some "[]" := by
  have hqueue : s.offlineTxs ≠ [] := by
    intro h; rw [h] at hN; simp at hN; omega
  have hguard := sync_guard s htoken hqueue
  simp only [syncOfflineTransactions, hguard, Bool.false_eq_true, if_false]
  refine ⟨by simp [thenFetchUserData], ?_, ?_, ?_⟩
  · simp only [thenFetchUserData]
    rw [fetchUserData_success]
    simp [hfailed, hsynced]
  · rw [(thenFetchUserData_queue _ _ w t).1]
  · rw [(thenFetchUserData_queue _ _ w t).2]

/-- C11, at a queue of one item that the ledger accepts. -/
theorem syncOfflineTransactions_all_accepted_witness :
    (syncOfflineTransactions
        (handleTransfer loggedInOffline "n" (.ok ()) (.ok ⟨0⟩) (.ok [])).state
        (.ok ⟨[offlineTxOf ⟨7, "Ada", "ada@x.com"⟩ ⟨"bob@x.com", "1000", "rent"⟩ "n"], []⟩)
        (.ok ⟨0⟩) (.ok [])).requests.head? =
        some (.postSyncOfflineTransactions
          (bearer (handleTransfer loggedInOffline "n" (.ok ()) (.ok ⟨0⟩) (.ok [])).state.token)) ∧
      (syncOfflineTransactions
        (handleTransfer loggedInOffline "n" (.ok ()) (.ok ⟨0⟩) (.ok [])).state
        (.ok ⟨[offlineTxOf ⟨7, "Ada", "ada@x.com"⟩ ⟨"bob@x.com", "1000", "rent"⟩ "n"], []⟩)
        (.ok ⟨0⟩) (.ok [])).state.success =
        "Synced " ++ toString 1 ++ " transactions successfully!" ∧
      (syncOfflineTransactions
        (handleTransfer loggedInOffline "n" (.ok ()) (.ok ⟨0⟩) (.ok [])).state
        (.ok ⟨[offlineTxOf ⟨7, "Ada", "ada@x.com"⟩ ⟨"bob@x.com", "1000", "rent"⟩ "n"], []⟩)
        (.ok ⟨0⟩) (.ok [])).state.offlineTxs = [] ∧
      (syncOfflineTransactions
        (handleTransfer loggedInOffline "n" (.ok ()) (.ok ⟨0⟩) (.ok [])).state
        (.ok ⟨[offlineTxOf ⟨7, "Ada", "ada@x.com"⟩ ⟨"bob@x.com", "1000", "rent"⟩ "n"], []⟩)
        (.ok ⟨0⟩) (.ok [])).state.localStorage.offlineTxs = some "[]" :=
  syncOfflineTransactions_all_accepted
    (handleTransfer loggedInOffline "n" (.ok ()) (.ok ⟨0⟩) (.ok [])).state
    ⟨[offlineTxOf ⟨7, "Ada", "ada@x.com"⟩ ⟨"bob@x.com", "1000", "rent"⟩ "n"], []⟩
    (.ok ⟨0⟩) (.ok []) 1 (by decide) (by decide) (by decide) rfl rfl

/-- C12, as stated, fails: a queue holding one transfer to bob and a queue holding
two other transfers, drained in the same session with the same answers, send the
same requests: one sync request without a body, then the two requests of
`fetchUserData`. Nothing of the queued intents is sent. -/
theorem syncOfflineTransactions_sends_no_intent_counterexample :
    [offlineTxOf ⟨7, "Ada", "ada@x.com"⟩ ⟨"bob@x.com", "1000", "rent"⟩ "n"] ≠
        [offlineTxOf ⟨7, "Ada", "ada@x.com"⟩ ⟨"eve@x.com", "5", ""⟩ "a",
         offlineTxOf ⟨7, "Ada", "ada@x.com"⟩ ⟨"dan@x.com", "70", "fee"⟩ "b"] ∧
      (syncOfflineTransactions
        { loggedIn with offlineTxs :=
            [offlineTxOf ⟨7, "Ada", "ada@x.com"⟩ ⟨"bob@x.com", "1000", "rent"⟩ "n"] }
        (.ok ⟨[], []⟩) (.ok ⟨0⟩) (.ok [])).requests =
        [.postSyncOfflineTransactions "Bearer t", .getWallet "Bearer t",
         .getTransactions "Bearer t"] ∧
      (syncOfflineTransactions
        { loggedIn with offlineTxs :=
            [offlineTxOf ⟨7, "Ada", "ada@x.com"⟩ ⟨"eve@x.com", "5", ""⟩ "a",
             offlineTxOf ⟨7, "Ada", "ada@x.com"⟩ ⟨"dan@x.com", "70", "fee"⟩ "b"] }
        (.ok ⟨[], []⟩) (.ok ⟨0⟩) (.ok [])).requests =
        [.postSyncOfflineTransactions "Bearer t", .getWallet "Bearer t",
         .getTransactions "Bearer t"] := by
  refine ⟨by simp, by decide, by decide⟩

/-- C12, amended: a drain sends one sync request that carries the bearer token and
no body, followed, once it is answered, by the requests of `fetchUserData`. The
requests depend on the token and on the answers of the ledger only: two sessions
with the same token and non-empty queues send the same requests, whatever the
queues hold. -/
theorem syncOfflineTransactions_requests (s1 s2 : AppState)
    (a : Except ApiError SyncResponse) (w : Except ApiError Wallet)
    (t : Except ApiError (List Transaction)) (htoken : tokenPresent s1.token = true)
    (hsame : s1.token = s2.token) (h1 : s1.offlineTxs ≠ []) (h2 : s2.offlineTxs ≠ []) :
    (syncOfflineTransactions s1 a w t).requests.head? =
        some (.postSyncOfflineTransactions (bearer s1.token)) ∧
      (syncOfflineTransactions s1 a w t).requests =
        (syncOfflineTransactions s2 a w t).requests := by
  have hg1 := sync_guard s1 htoken h1
  have hg2 := sync_guard s2 (hsame ▸ htoken) h2
  simp only [syncOfflineTransactions, hg1, hg2, Bool.false_eq_true, if_false]
  rcases a with e | data
  · simp [hsame]
  · simp only [thenFetchUserData]
    refine ⟨by simp, ?_⟩
    by_cases hf : data.failed.length > 0 <;> simp [hf, hsame] <;>
      exact fetchUserData_requests _ _ w t (by simp [hsame])

/-- C12 amended, at the two queues of the counterexample. -/
theorem syncOfflineTransactions_requests_witness :
    (syncOfflineTransactions
        { loggedIn with offlineTxs :=
            [offlineTxOf ⟨7, "Ada", "ada@x.com"⟩ ⟨"bob@x.com", "1000", "rent"⟩ "n"] }
        (.ok ⟨[], []⟩) (.ok ⟨0⟩) (.ok [])).requests.head? =
        some (.postSyncOfflineTransactions (bearer (some "t"))) ∧
      (syncOfflineTransactions
        { loggedIn with offlineTxs :=
            [offlineTxOf ⟨7, "Ada", "ada@x.com"⟩ ⟨"bob@x.com", "1000", "rent"⟩ "n"] }
        (.ok ⟨[], []⟩) (.ok ⟨0⟩) (.ok [])).requests =
      (syncOfflineTransactions
        { loggedIn with offlineTxs :=
            [offlineTxOf ⟨7, "Ada", "ada@x.com"⟩ ⟨"eve@x.com", "5", ""⟩ "a",
             offlineTxOf ⟨7, "Ada", "ada@x.com"⟩ ⟨"dan@x.com", "70", "fee"⟩ "b"] }
        (.ok ⟨[], []⟩) (.ok ⟨0⟩) (.ok [])).requests :=
  syncOfflineTransactions_requests
    { loggedIn with offlineTxs :=
        [offlineTxOf ⟨7, "Ada", "ada@x.com"⟩ ⟨"bob@x.com", "1000", "rent"⟩ "n"] }
    { loggedIn with offlineTxs :=
        [offlineTxOf ⟨7, "Ada", "ada@x.com"⟩ ⟨"eve@x.com", "5", ""⟩ "a",
         offlineTxOf ⟨7, "Ada", "ada@x.com"⟩ ⟨"dan@x.com", "70", "fee"⟩ "b"] }
    (.ok ⟨[], []⟩) (.ok ⟨0⟩) (.ok []) (by decide) rfl (by simp) (by simp)

/-- C17: `logout` leaves the offline queue and its stored copy as they were, clears
the token in the state and removes it from storage. -/
theorem logout_keeps_queue (s : AppState) :
    (logout s).offlineTxs = s.offlineTxs ∧
      (logout s).localStorage.offlineTxs = s.localStorage.offlineTxs ∧
      (logout s).token = none ∧ (logout s).localStorage.token = none := by
  simp [logout]

end Frontend

/-! ## Sync triggers -/

namespace Frontend

/-- Read from the state it is called in, the closure of `fetchUserData` is the
function `fetchUserData`. -/
theorem fetchUserDataClosure_self (s : AppState) (w : Except ApiError Wallet)
    (t : Except ApiError (List Transaction)) :
    fetchUserDataClosure s.token s w t = fetchUserData s w t := rfl

/-- A sync that nothing interrupts: the part before the `await` followed by the part
after it is the handler `syncOfflineTransactions`. -/
theorem syncStart_syncFinish (s : AppState) (a : Except ApiError SyncResponse)
    (w : Except ApiError Wallet) (t : Except ApiError (List Transaction)) :
    syncOfflineTransactions s a w t =
      match syncStart s with
      | none => ⟨s, [], false⟩
      | some (s1, request) =>
        ⟨(syncFinish s.token s1 a w t).state,
          request :: (syncFinish s.token s1 a w t).requests, false⟩ := by
  unfold syncOfflineTransactions syncStart
  by_cases hg : (!tokenPresent s.token || s.offlineTxs.length == 0) = true
  · simp [hg]
  · simp only [hg, if_false]
    rcases a with e | data
    · simp [syncFinish]
    · simp only [syncFinish, thenFetchUserData]
      by_cases hf : data.failed.length > 0 <;> simp [hf, fetchUserDataClosure, fetchUserData]

/-- C13, as stated, fails: the client starts with one queued transfer, online and
logged in, so the effect sends a sync request at the first render. While that
request is in flight, a click on "Sync Now" sends a second one, and so does a loss
and return of the connection. -/
theorem sync_in_flight_counterexample :
    (mount oneQueued).inFlight.length = 1 ∧
      (run (mount oneQueued) [.syncNow]).inFlight.length = 2 ∧
      (run (mount oneQueued) [.syncNow]).sent =
        [.postSyncOfflineTransactions "Bearer t", .postSyncOfflineTransactions "Bearer t"] ∧
      (run (mount oneQueued) [.signal false, .signal true]).inFlight.length = 2 ∧
      (run (mount oneQueued) [.signal false, .signal true]).sent =
        [.postSyncOfflineTransactions "Bearer t", .postSyncOfflineTransactions "Bearer t"] := by
  decide

/-- C13, amended: `syncOfflineTransactions` has no guard against a sync in flight.
Whenever the token is present and the queue is not empty, a click on "Sync Now"
sends a sync request, however many sync requests are in flight; so does the return
of the connection after a loss. -/
theorem sync_trigger_starts_request (σ : Session)
    (htoken : tokenPresent σ.state.token = true) (hqueue : σ.state.offlineTxs ≠ []) :
    (step σ .syncNow).inFlight = σ.inFlight ++ [σ.state.token] ∧
      (step σ .syncNow).sent =
        σ.sent ++ [.postSyncOfflineTransactions (bearer σ.state.token)] ∧
      (step (step σ (.signal false)) (.signal true)).inFlight.length =
        (step σ (.signal false)).inFlight.length + 1 ∧
      (step (step σ (.signal false)) (.signal true)).sent =
        (step σ (.signal false)).sent ++
          [.postSyncOfflineTransactions (bearer σ.state.token)] := by
  have hguard := sync_guard σ.state htoken hqueue
  have hlen : 0 < σ.state.offlineTxs.length := List.length_pos.mpr hqueue
  have hoff : step σ (.signal false) =
      { σ with state := { σ.state with isOnline := false } } := by
    by_cases h : σ.state.isOnline = false <;> simp [step, reconnectEffect, h]
  refine ⟨?_, ?_, ?_, ?_⟩
  · simp [step, startSync, syncStart, hguard]
  · simp [step, startSync, syncStart, hguard]
  · rw [hoff]
    simp [step, reconnectEffect, startSync, syncStart, htoken, hlen, hqueue]
  · rw [hoff]
    simp [step, reconnectEffect, startSync, syncStart, htoken, hlen, hqueue]

/-- C13 amended, at the session of the counterexample with one request in flight. -/
theorem sync_trigger_starts_request_witness :
    (step (mount oneQueued) .syncNow).inFlight =
        (mount oneQueued).inFlight ++ [(mount oneQueued).state.token] ∧
      (step (mount oneQueued) .syncNow).sent =
        (mount oneQueued).sent ++
          [.postSyncOfflineTransactions (bearer (mount oneQueued).state.token)] ∧
      (step (step (mount oneQueued) (.signal false)) (.signal true)).inFlight.length =
        (step (mount oneQueued) (.signal false)).inFlight.length + 1 ∧
      (step (step (mount oneQueued) (.signal false)) (.signal true)).sent =
        (step (mount oneQueued) (.signal false)).sent ++
          [.postSyncOfflineTransactions (bearer (mount oneQueued).state.token)] :=
  sync_trigger_starts_request (mount oneQueued) (by decide) (by decide)

/-- In the token client an `online` signal received while the state is already
online changes nothing and sends nothing. -/
theorem signal_online_when_online (σ : Session) (hon : σ.state.isOnline = true) :
    step σ (.signal true) = σ := by
  obtain ⟨s, f, r⟩ := σ
  simp only at hon
  simp [step, reconnectEffect, ← hon]

end Frontend

/-! ## The user-id client: payments, signals and scans -/

namespace WalletFrontend

/-- With the default of three attempts, the first thing `apiCallWithRetry` does is
to call the operation. -/
theorem apiCallWithRetry_default_head {ε α : Type} (fn : Nat → Except ε α) :
    ∃ rest, (apiCallWithRetry fn defaultRetries defaultDelay).trace = .invoke 0 :: rest := by
  simp only [apiCallWithRetry, defaultRetries, defaultDelay]
  rw [show (3 : Int).toNat = 2 + 1 from rfl, retryLoop]
  rcases h : fn 0 with e | v <;> simp

/-- The first request of a retried operation is its request. -/
theorem requestsOf_retryEffects_cons (r : Request) (c : Nat) (rest : List Event)
    (more : List Effect) :
    (requestsOf (retryEffects r (.invoke c :: rest) ++ more)).head? = some r := by
  simp [retryEffects, requestsOf]

/-- C16, as stated, fails: the session of user 1 is offline and pays 100. The
payment is posted to the ledger, with `is_offline` set, and the dashboard is fetched
afterwards. -/
theorem handlePay_offline_counterexample :
    requestsOf (handlePay { session with isOnline := false } accepting dashboard4900).effects =
      [.postPay ⟨"http://localhost:8000/pay/1/", ⟨"100", true⟩⟩,
       .getDashboard "http://localhost:8000/dashboard/1/"] := by
  decide

/-- C16, amended: `handlePay` called while offline with a valid amount still posts
the payment to the ledger through `apiCallWithRetry`: the first request it sends is
the pay request, with `is_offline` set in its body. -/
theorem handlePay_offline_posts (s : AppState) (payServer : Nat → Except ApiError Message)
    (dashboardServer : Nat → Except ApiError Dashboard) (hoff : s.isOnline = false)
    (hvalid : (validateInput s "amount").1 = true) :
    (requestsOf (handlePay s payServer dashboardServer).effects).head? =
      some (.postPay ⟨"http://localhost:8000/pay/" ++ userIdText s.userId ++ "/",
        ⟨s.amount, true⟩⟩) := by
  obtain ⟨rest, hrest⟩ := apiCallWithRetry_default_head payServer
  have hreq : payRequest s.userId s.amount s.isOnline =
      ⟨"http://localhost:8000/pay/" ++ userIdText s.userId ++ "/", ⟨s.amount, true⟩⟩ := by
    simp [payRequest, hoff]
  simp only [handlePay, handlePayFrom, hvalid, Bool.true_eq_false, if_false, hrest, hreq]
  split <;> simp [retryEffects, requestsOf]

/-- C16 amended, at the session of the counterexample. -/
theorem handlePay_offline_posts_witness :
    (requestsOf
        (handlePay { session with isOnline := false } accepting dashboard4900).effects).head? =
      some (.postPay ⟨"http://localhost:8000/pay/" ++ userIdText (some 1) ++ "/",
        ⟨"100", true⟩⟩) :=
  handlePay_offline_posts { session with isOnline := false } accepting dashboard4900 rfl
    (by decide)

/-- C18, as stated, fails in the user-id client: the session of user 1 is online and
receives two `online` signals in a row. Each one shows "Back online! Syncing
transactions..." and each one posts a sync request. -/
theorem online_signal_counterexample :
    session.isOnline = true ∧
      (signals session accepting dashboard4900 ⟨session, []⟩ [true, true]).effects.count
        (.toastSuccess "Back online! Syncing transactions...") = 2 ∧
      (requestsOf
        (signals session accepting dashboard4900 ⟨session, []⟩ [true, true]).effects).count
        (.postSyncTransactions "http://localhost:8000/sync-transactions/1/") = 2 := by
  decide

/-- C18, amended: in the token client an `online` signal received while the state is
online changes nothing and starts no sync. In the user-id client every `online`
signal shows the notification, and, when the listener was registered in a render
with a user and online, posts a sync request, whether the present state is online
or not. -/
theorem online_signal_effects (σ : Frontend.Session) (c s : AppState)
    (syncServer : Nat → Except ApiError Message)
    (dashboardServer : Nat → Except ApiError Dashboard)
    (hon : σ.state.isOnline = true) (huser : userIdPresent c.userId = true)
    (hc : c.isOnline = true) :
    Frontend.step σ (.signal true) = σ ∧
      (handleOnline c s syncServer dashboardServer).effects.head? =
        some (.toastSuccess "Back online! Syncing transactions...") ∧
      (requestsOf (handleOnline c s syncServer dashboardServer).effects).head? =
        some (.postSyncTransactions
          ("http://localhost:8000/sync-transactions/" ++ userIdText c.userId ++ "/")) := by
  obtain ⟨rest, hrest⟩ := apiCallWithRetry_default_head syncServer
  refine ⟨?_, ?_, ?_⟩
  · obtain ⟨st, f, r⟩ := σ
    simp only at hon
    simp [Frontend.step, Frontend.reconnectEffect, ← hon]
  · simp [handleOnline, huser]
  · simp only [handleOnline, huser, if_true, syncTransactionsFrom, hc, Bool.not_true,
      Bool.false_eq_true, if_false, hrest]
    split <;> simp [retryEffects, requestsOf]

/-- C18 amended, at a token session that is online and at the session of user 1,
online already. -/
theorem online_signal_effects_witness :
    Frontend.step (Frontend.mount Frontend.oneQueued) (.signal true) =
        Frontend.mount Frontend.oneQueued ∧
      (handleOnline session session accepting dashboard4900).effects.head? =
        some (.toastSuccess "Back online! Syncing transactions...") ∧
      (requestsOf (handleOnline session session accepting dashboard4900).effects).head? =
        some (.postSyncTransactions
          ("http://localhost:8000/sync-transactions/" ++ userIdText session.userId ++ "/")) :=
  online_signal_effects (Frontend.mount Frontend.oneQueued) session session accepting
    dashboard4900 (by decide) (by decide) (by decide)

end WalletFrontend

/-! ## The pattern of `handleSimulateScan` -/

namespace WalletFrontend

theorem takeWhile_stop (p : Char → Bool) (u rest : List Char) (c : Char)
    (hu : ∀ x ∈ u, p x = true) (hc : p c = false) :
    (u ++ c :: rest).takeWhile p = u := by
  induction u with
  | nil => simp [List.takeWhile, hc]
  | cons x xs ih =>
    have hx : p x = true := hu x (List.mem_cons_self x xs)
    simp [List.takeWhile, hx, ih (fun y hy => hu y (List.mem_cons_of_mem x hy))]

theorem dropWhile_stop (p : Char → Bool) (u rest : List Char) (c : Char)
    (hu : ∀ x ∈ u, p x = true) (hc : p c = false) :
    (u ++ c :: rest).dropWhile p = c :: rest := by
  induction u with
  | nil => simp [List.dropWhile, hc]
  | cons x xs ih =>
    have hx : p x = true := hu x (List.mem_cons_self x xs)
    simp [List.dropWhile, hx, ih (fun y hy => hu y (List.mem_cons_of_mem x hy))]

theorem takeWhile_ne_nil (p : Char → Bool) (a rest : List Char) (ha : a ≠ [])
    (had : ∀ x ∈ a, p x = true) : (a ++ rest).takeWhile p ≠ [] := by
  cases a with
  | nil => exact absurd rfl ha
  | cons x xs =>
    have hx : p x = true := had x (List.mem_cons_self x xs)
    simp [List.takeWhile, hx]

/-- A match found at the head of a text has the shape of the pattern. -/
theorem matchHere_sound (cs u a : List Char) (h : matchHere cs = some (u, a)) :
    ∃ post, cs = "pay://".toList ++ (u ++ ('/' :: (a ++ post))) ∧ u ≠ [] ∧ a ≠ [] ∧
      (∀ c ∈ u, isDigit c = true) ∧ (∀ c ∈ a, isDigit c = true) := by
  unfold matchHere at h
  split at h
  · rename_i rest
    split at h
    · exact absurd h (by simp)
    · rename_i hu
      split at h
      · rename_i rest2 hdrop
        split at h
        · exact absurd h (by simp)
        · rename_i ha
          simp only [Option.some.injEq, Prod.mk.injEq] at h
          obtain ⟨rfl, rfl⟩ := h
          refine ⟨rest2.dropWhile isDigit, ?_, hu, ha,
            fun c hc => List.mem_takeWhile_imp hc, fun c hc => List.mem_takeWhile_imp hc⟩
          have h1 := List.takeWhile_append_dropWhile isDigit rest
          have h2 := List.takeWhile_append_dropWhile isDigit rest2
          rw [hdrop] at h1
          show _ = ['p', 'a', 'y', ':', '/', '/'] ++ _
          simp only [List.cons_append, List.nil_append]
          rw [h2, h1]
      · exact absurd h (by simp)
  · exact absurd h (by simp)

/-- A text that starts with the shape of the pattern has a match at its head. -/
theorem matchHere_complete (u a post : List Char) (hu : u ≠ []) (ha : a ≠ [])
    (hud : ∀ c ∈ u, isDigit c = true) (had : ∀ c ∈ a, isDigit c = true) :
    matchHere ("pay://".toList ++ (u ++ ('/' :: (a ++ post)))) =
      some (u, (a ++ post).takeWhile isDigit) := by
  have hslash : isDigit '/' = false := by decide
  have ht := takeWhile_stop isDigit u (a ++ post) '/' hud hslash
  have hd := dropWhile_stop isDigit u (a ++ post) '/' hud hslash
  have hne := takeWhile_ne_nil isDigit a post ha had
  show matchHere (['p', 'a', 'y', ':', '/', '/'] ++ _) = _
  simp only [List.cons_append, List.nil_append, matchHere, ht, hd, hu, hne, if_false]

/-- The pattern matches only texts that hold its shape. -/
theorem scanMatch_sound (cs u a : List Char) (h : scanMatch cs = some (u, a)) :
    ContainsPayPattern cs := by
  induction cs with
  | nil => simp [scanMatch] at h
  | cons c cs ih =>
    unfold scanMatch at h
    split at h
    · rename_i groups hm
      simp only [Option.some.injEq] at h
      subst h
      obtain ⟨post, hcs, hu, ha, hud, had⟩ := matchHere_sound _ _ _ hm
      exact ⟨[], u, a, post, by simpa using hcs, hu, ha, hud, had⟩
    · obtain ⟨pre, u', a', post, hcs, hrest⟩ := ih h
      exact ⟨c :: pre, u', a', post, by rw [hcs]; rfl, hrest⟩

/-- The pattern matches every text that holds its shape. -/
theorem scanMatch_complete (cs : List Char) (h : ContainsPayPattern cs) :
    ∃ groups, scanMatch cs = some groups := by
  obtain ⟨pre, u, a, post, hcs, hu, ha, hud, had⟩ := h
  subst hcs
  induction pre with
  | nil =>
    have hm := matchHere_complete u a post hu ha hud had
    have hcons : ∃ c rest, ([] : List Char) ++ ("pay://".toList ++ (u ++ ('/' :: (a ++ post)))) =
        c :: rest := ⟨'p', _, rfl⟩
    obtain ⟨c, rest, hc⟩ := hcons
    rw [List.nil_append] at hc ⊢
    rw [hc] at hm ⊢
    unfold scanMatch
    rw [hm]
    exact ⟨_, rfl⟩
  | cons x pre ih =>
    rw [List.cons_append]
    unfold scanMatch
    split
    · exact ⟨_, rfl⟩
    · exact ih

/-- C20: for every scanned text that holds no "pay://<digits>/<digits>" shape,
`handleSimulateScan` ends without an error: it shows "Invalid QR code" and nothing
else, sends no request, and leaves the whole state, amount, balance and
transactions included, as it was. -/
theorem handleSimulateScan_invalid (s : AppState) (payServer : Nat → Except ApiError Message)
    (dashboardServer : Nat → Except ApiError Dashboard)
    (h : ¬ ContainsPayPattern s.qrUrl.toList) :
    (handleSimulateScan s payServer dashboardServer).effects =
        [.toastError "Invalid QR code"] ∧
      requestsOf (handleSimulateScan s payServer dashboardServer).effects = [] ∧
      (handleSimulateScan s payServer dashboardServer).state = s ∧
      (handleSimulateScan s payServer dashboardServer).state.amount = s.amount ∧
      (handleSimulateScan s payServer dashboardServer).state.balance = s.balance ∧
      (handleSimulateScan s payServer dashboardServer).state.transactions =
        s.transactions := by
  have hnone : scanMatch s.qrUrl.toList = none := by
    cases hm : scanMatch s.qrUrl.toList with
    | none => rfl
    | some g => exact absurd (scanMatch_sound _ g.1 g.2 hm) h
  simp only [handleSimulateScan, hnone]
  simp [requestsOf]

/-- C20, at the text "not a valid payload". -/
theorem handleSimulateScan_invalid_witness :
    (handleSimulateScan { session with qrUrl := "not a valid payload" } accepting
        dashboard4900).effects = [.toastError "Invalid QR code"] ∧
      requestsOf (handleSimulateScan { session with qrUrl := "not a valid payload" } accepting
        dashboard4900).effects = [] ∧
      (handleSimulateScan { session with qrUrl := "not a valid payload" } accepting
        dashboard4900).state = { session with qrUrl := "not a valid payload" } ∧
      (handleSimulateScan { session with qrUrl := "not a valid payload" } accepting
        dashboard4900).state.amount = "100" ∧
      (handleSimulateScan { session with qrUrl := "not a valid payload" } accepting
        dashboard4900).state.balance = ⟨5000, 3⟩ ∧
      (handleSimulateScan { session with qrUrl := "not a valid payload" } accepting
        dashboard4900).state.transactions = session.transactions :=
  handleSimulateScan_invalid { session with qrUrl := "not a valid payload" } accepting
    dashboard4900
    (fun h => by
      obtain ⟨g, hg⟩ := scanMatch_complete _ h
      have hnone : scanMatch "not a valid payload".toList = none := by decide
      exact absurd (hnone ▸ hg) (by simp))

end WalletFrontend

/-! ## Reading back what `JSON.stringify` wrote -/

namespace Frontend

theorem skipSpace_cons (c : Char) (rest : List Char) (h : isJsonSpace c = false) :
    skipSpace (c :: rest) = c :: rest := by
  simp [skipSpace, List.dropWhile, h]

/-- No character is a surrogate. -/
theorem not_surrogate (c : Char) : ¬ (0xD800 ≤ c.toNat ∧ c.toNat ≤ 0xDFFF) := by
  have h := c.valid
  simp only [UInt32.isValidChar, Nat.isValidChar] at h
  simp only [Char.toNat]
  omega

/-- The escapes of the small control characters read back as their code. -/
theorem hex4_hexDigit : ∀ n, n < 32 →
    hex4 '0' '0' (hexDigit (n / 16)) (hexDigit (n % 16)) = some n := by
  decide

theorem parseStringBody_quote (rest : List Char) :
    parseStringBody (Char.ofNat 34 :: rest) = some ([], rest) := by
  rw [parseStringBody.eq_def]
  simp

theorem parseStringBody_simple (e : Char) (n : Nat) (rest : List Char) (units : List Nat)
    (after : List Char) (hu : e ≠ 'u') (he : unescape e = some n)
    (h : parseStringBody rest = some (units, after)) :
    parseStringBody (Char.ofNat 92 :: e :: rest) = some (n :: units, after) := by
  rw [parseStringBody.eq_def]
  simp [hu, he, h]

theorem parseStringBody_hex (a b c d : Char) (n : Nat) (rest : List Char) (units : List Nat)
    (after : List Char) (hn : hex4 a b c d = some n)
    (h : parseStringBody rest = some (units, after)) :
    parseStringBody (Char.ofNat 92 :: 'u' :: a :: b :: c :: d :: rest) =
      some (n :: units, after) := by
  rw [parseStringBody.eq_def]
  simp [hn, h]

theorem parseStringBody_plain (c : Char) (rest : List Char) (units : List Nat)
    (after : List Char) (h34 : c.toNat ≠ 34) (h92 : c.toNat ≠ 92) (h32 : ¬ c.toNat < 32)
    (h : parseStringBody rest = some (units, after)) :
    parseStringBody (c :: rest) = some (c.toNat :: units, after) := by
  rw [parseStringBody.eq_def]
  simp [h34, h92, h32, h]

/-- The inside of a written string, read back, gives the code points of the string. -/
theorem parseStringBody_escape (cs rest : List Char) :
    parseStringBody (cs.flatMap jsonEscape ++ Char.ofNat 34 :: rest) =
      some (cs.map Char.toNat, rest) := by
  induction cs with
  | nil => exact parseStringBody_quote rest
  | cons c cs ih =>
    rw [List.flatMap_cons, List.append_assoc, List.map_cons]
    by_cases h34 : c.toNat = 34
    · simp only [jsonEscape, h34, if_true, List.cons_append, List.nil_append]
      exact parseStringBody_simple _ 34 _ _ _ (by decide) (by decide) ih
    · by_cases h92 : c.toNat = 92
      · simp only [jsonEscape, h92, if_true, List.cons_append, List.nil_append]
        exact parseStringBody_simple _ 92 _ _ _ (by decide) (by decide) ih
      · by_cases h8 : c.toNat = 8
        · simp only [jsonEscape, h8, if_true, List.cons_append, List.nil_append]
          exact parseStringBody_simple _ 8 _ _ _ (by decide) (by decide) ih
        · by_cases h9 : c.toNat = 9
          · simp only [jsonEscape, h9, if_true, List.cons_append, List.nil_append]
            exact parseStringBody_simple _ 9 _ _ _ (by decide) (by decide) ih
          · by_cases h10 : c.toNat = 10
            · simp only [jsonEscape, h10, if_true, List.cons_append, List.nil_append]
              exact parseStringBody_simple _ 10 _ _ _ (by decide) (by decide) ih
            · by_cases h12 : c.toNat = 12
              · simp only [jsonEscape, h12, if_true, List.cons_append, List.nil_append]
                exact parseStringBody_simple _ 12 _ _ _ (by decide) (by decide) ih
              · by_cases h13 : c.toNat = 13
                · simp only [jsonEscape, h13, if_true, List.cons_append, List.nil_append]
                  exact parseStringBody_simple _ 13 _ _ _ (by decide) (by decide) ih
                · by_cases h32 : c.toNat < 32
                  · simp only [jsonEscape, h34, h92, h8, h9, h10, h12, h13, h32, if_true,
                      if_false, List.cons_append, List.nil_append]
                    exact parseStringBody_hex _ _ _ _ _ _ _ _
                      (hex4_hexDigit c.toNat h32) ih
                  · simp only [jsonEscape, h34, h92, h8, h9, h10, h12, h13, h32, if_false,
                      List.cons_append, List.nil_append]
                    exact parseStringBody_plain c _ _ _ h34 h92 h32 ih

/-- Code points of characters are the characters. -/
theorem decodeUnits_map (cs : List Char) : decodeUnits (cs.map Char.toNat) = cs := by
  induction cs with
  | nil => rfl
  | cons c cs ih =>
    have hc := not_surrogate c
    cases cs with
    | nil => simp [decodeUnits, hc, Char.ofNat_toNat]
    | cons d ds =>
      have hhi : ¬ (0xD800 ≤ c.toNat ∧ c.toNat ≤ 0xDBFF ∧ 0xDC00 ≤ d.toNat ∧ d.toNat ≤ 0xDFFF) := by
        omega
      simp only [List.map_cons, decodeUnits, hhi, hc, if_false, Char.ofNat_toNat]
      rw [← List.map_cons, ih]

theorem dq_toList : dq.toList = [Char.ofNat 34] := rfl

theorem jsonString_toList (s : String) :
    (jsonString s).toList = Char.ofNat 34 :: (s.toList.flatMap jsonEscape ++ [Char.ofNat 34]) := by
  simp [jsonString, dq, String.toList, String.data_append]

theorem jsonKey_toList (name : String) :
    (jsonKey name).toList = Char.ofNat 34 :: (name.toList ++ [Char.ofNat 34, ':']) := by
  simp [jsonKey, dq, String.toList, String.data_append]

/-- A written string reads back as the string. -/
theorem parseValue_jsonString (fuel : Nat) (s : String) (rest : List Char) :
    parseValue (fuel + 1) ((jsonString s).toList ++ rest) = some (.string s, rest) := by
  rw [jsonString_toList]
  have hq : isJsonSpace (Char.ofNat 34) = false := by decide
  have hb := parseStringBody_escape s.toList rest
  simp only [List.cons_append, List.append_assoc, List.singleton_append, parseValue,
    skipSpace_cons _ _ hq]
  have h34 : (Char.ofNat 34).toNat = 34 := by decide
  simp only [h34, if_true, List.nil_append, hb, decodeUnits_map]
  rfl

end Frontend

namespace Frontend

theorem parseMembers_comma (value : List Char → Option (Json × List Char)) (n : Nat)
    (name : String) (valueText more : List Char) (v : Json)
    (hname : name.toList.flatMap jsonEscape = name.toList)
    (hv : value (valueText ++ ',' :: more) = some (v, ',' :: more)) :
    parseMembers value (n + 1) ((jsonKey name).toList ++ (valueText ++ ',' :: more)) =
      match parseMembers value n more with
      | none => none
      | some (ms, after) => some ((name, v) :: ms, after) := by
  have hb := parseStringBody_escape name.toList (':' :: (valueText ++ ',' :: more))
  rw [hname] at hb
  have hq : isJsonSpace (Char.ofNat 34) = false := by decide
  have hcolon : isJsonSpace ':' = false := by decide
  have hcomma : isJsonSpace ',' = false := by decide
  have h34 : (Char.ofNat 34).toNat = 34 := by decide
  rw [jsonKey_toList, parseMembers]
  simp only [List.cons_append, List.append_assoc, List.nil_append, skipSpace_cons _ _ hq,
    h34, if_true, hb, skipSpace_cons _ _ hcolon, hv, skipSpace_cons _ _ hcomma,
    decodeUnits_map]
  rfl

theorem parseMembers_close (value : List Char → Option (Json × List Char)) (n : Nat)
    (name : String) (valueText more : List Char) (v : Json)
    (hname : name.toList.flatMap jsonEscape = name.toList)
    (hv : value (valueText ++ '}' :: more) = some (v, '}' :: more)) :
    parseMembers value (n + 1) ((jsonKey name).toList ++ (valueText ++ '}' :: more)) =
      some ([(name, v)], more) := by
  have hb := parseStringBody_escape name.toList (':' :: (valueText ++ '}' :: more))
  rw [hname] at hb
  have hq : isJsonSpace (Char.ofNat 34) = false := by decide
  have hcolon : isJsonSpace ':' = false := by decide
  have hclose : isJsonSpace '}' = false := by decide
  have h34 : (Char.ofNat 34).toNat = 34 := by decide
  have hne : ('}' = ',') = False := by decide
  rw [jsonKey_toList, parseMembers]
  simp only [List.cons_append, List.append_assoc, List.nil_append, skipSpace_cons _ _ hq,
    h34, if_true, hb, skipSpace_cons _ _ hcolon, hv, skipSpace_cons _ _ hclose,
    decodeUnits_map, hne, if_false]
  rfl

theorem stringifyOfflineTx_toList (tx : OfflineTx) (rest : List Char) :
    (stringifyOfflineTx tx).toList ++ rest = '{' :: memberChars tx rest := by
  simp [stringifyOfflineTx, memberChars, String.toList, String.data_append]

theorem memberChars_head (tx : OfflineTx) (rest : List Char) :
    ∃ tail, memberChars tx rest = Char.ofNat 34 :: tail := by
  unfold memberChars
  rw [jsonKey_toList]
  exact ⟨_, rfl⟩

theorem memberChars_length (tx : OfflineTx) (rest : List Char) :
    ∃ m, (memberChars tx rest).length = m + 5 := by
  have h : 5 ≤ (memberChars tx rest).length := by
    unfold memberChars
    rw [jsonKey_toList]
    simp only [List.length_append, List.length_cons, List.length_nil]
    have : "receiver_email".toList.length = 14 := rfl
    omega
  obtain ⟨m, hm⟩ := Nat.exists_eq_add_of_le h
  exact ⟨m, by omega⟩

/-- The members of a written entry read back as the members of the entry. -/
theorem parseMembers_entry (fuel m : Nat) (tx : OfflineTx) (rest : List Char) :
    parseMembers (parseValue (fuel + 1)) (m + 5) (memberChars tx rest) =
      some ([("receiver_email", .string tx.receiver_email), ("amount", .string tx.amount),
        ("description", .string tx.description), ("qr_data", .string tx.qr_data),
        ("timestamp", .string tx.timestamp)], rest) := by
  have hs := fun (s : String) (r : List Char) => parseValue_jsonString fuel s r
  unfold memberChars
  rw [parseMembers_comma _ (m + 4) "receiver_email" _ _ (.string tx.receiver_email)
      (by decide) (hs _ _),
    parseMembers_comma _ (m + 3) "amount" _ _ (.string tx.amount) (by decide) (hs _ _),
    parseMembers_comma _ (m + 2) "description" _ _ (.string tx.description) (by decide)
      (hs _ _),
    parseMembers_comma _ (m + 1) "qr_data" _ _ (.string tx.qr_data) (by decide) (hs _ _),
    parseMembers_close _ m "timestamp" _ _ (.string tx.timestamp) (by decide) (hs _ _)]

/-- A written entry reads back as the entry. -/
theorem parseValue_entry (fuel : Nat) (tx : OfflineTx) (rest : List Char) :
    parseValue (fuel + 2) ((stringifyOfflineTx tx).toList ++ rest) =
      some (entryJson tx, rest) := by
  have hopen : isJsonSpace '{' = false := by decide
  have hq : isJsonSpace (Char.ofNat 34) = false := by decide
  have h1 : ('{'.toNat = 34) = False := by decide
  have h2 : ('{' = '[') = False := by decide
  have h3 : (Char.ofNat 34 = '}') = False := by decide
  obtain ⟨tail, htail⟩ := memberChars_head tx rest
  obtain ⟨m, hm⟩ := memberChars_length tx rest
  have hp := parseMembers_entry fuel m tx rest
  rw [stringifyOfflineTx_toList, parseValue]
  simp only [skipSpace_cons _ _ hopen, h1, h2, if_false, if_true]
  rw [htail] at hm hp ⊢
  simp only [skipSpace_cons _ _ hq, h3, if_false, hm, hp]
  rfl

end Frontend

namespace Frontend

theorem intercalate_go_toList (acc : String) (txs : List OfflineTx) :
    (String.intercalate.go acc "," (txs.map stringifyOfflineTx)).toList =
      acc.toList ++ txs.flatMap (fun tx => ',' :: (stringifyOfflineTx tx).toList) := by
  induction txs generalizing acc with
  | nil => simp [String.intercalate.go]
  | cons tx txs ih =>
    rw [List.map_cons, String.intercalate.go, ih]
    simp [String.toList, String.data_append]

theorem joinEntries_cons (tx : OfflineTx) (txs : List OfflineTx) :
    joinEntries (tx :: txs) =
      (stringifyOfflineTx tx).toList ++
        txs.flatMap (fun t => ',' :: (stringifyOfflineTx t).toList) := by
  induction txs generalizing tx with
  | nil => simp [joinEntries]
  | cons next rest ih => rw [joinEntries, ih next]; simp

theorem stringifyOfflineTxs_toList (txs : List OfflineTx) :
    (stringifyOfflineTxs txs).toList = '[' :: (joinEntries txs ++ [']']) := by
  cases txs with
  | nil => rfl
  | cons tx rest =>
    have h := intercalate_go_toList (stringifyOfflineTx tx) rest
    simp only [String.toList] at h
    simp [stringifyOfflineTxs, String.intercalate, String.toList, String.data_append, h,
      joinEntries_cons]

/-- The written entries of a queue that is not empty read back as its entries. -/
theorem parseElements_entries (value : List Char → Option (Json × List Char))
    (hv : ∀ tx r, value ((stringifyOfflineTx tx).toList ++ r) = some (entryJson tx, r))
    (txs : List OfflineTx) :
    ∀ (tx : OfflineTx) (n : Nat) (rest : List Char), txs.length < n →
      parseElements value n (joinEntries (tx :: txs) ++ ']' :: rest) =
        some ((tx :: txs).map entryJson, rest) := by
  have hcomma : isJsonSpace ',' = false := by decide
  have hclose : isJsonSpace ']' = false := by decide
  have hne : (']' = ',') = False := by decide
  induction txs with
  | nil =>
    intro tx n rest hn
    obtain ⟨k, rfl⟩ : ∃ k, n = k + 1 := ⟨n - 1, by omega⟩
    rw [joinEntries, parseElements, hv]
    simp only [skipSpace_cons _ _ hclose, hne, if_false, if_true, List.map_cons, List.map_nil]
  | cons next txs ih =>
    intro tx n rest hn
    obtain ⟨k, rfl⟩ : ∃ k, n = k + 1 := ⟨n - 1, by omega⟩
    rw [joinEntries, List.append_assoc, parseElements, hv]
    simp only [List.cons_append, skipSpace_cons _ _ hcomma, if_true]
    rw [ih next k rest (by simp only [List.length_cons] at hn; omega)]
    simp

theorem joinEntries_head (tx : OfflineTx) (txs : List OfflineTx) (rest : List Char) :
    ∃ tail, joinEntries (tx :: txs) ++ rest = '{' :: tail := by
  rw [joinEntries_cons, List.append_assoc, stringifyOfflineTx_toList]
  exact ⟨_, rfl⟩

theorem joinEntries_length (txs : List OfflineTx) :
    txs.length ≤ (joinEntries txs).length := by
  induction txs with
  | nil => simp [joinEntries]
  | cons tx rest ih =>
    have h := stringifyOfflineTx_toList tx []
    rw [List.append_nil] at h
    cases rest with
    | nil =>
      rw [joinEntries, h]
      simp
    | cons next more =>
      rw [joinEntries, h]
      simp only [List.length_cons, List.length_append] at ih ⊢
      omega

/-- An entry read back decodes to the entry. -/
theorem entryOfJson_entryJson (tx : OfflineTx) : entryOfJson (entryJson tx) = some tx := by
  simp [entryOfJson, entryJson, getMember, Json.asString]

theorem entriesOfJson_map (txs : List OfflineTx) :
    entriesOfJson (txs.map entryJson) = some txs := by
  induction txs with
  | nil => rfl
  | cons tx rest ih => simp [entriesOfJson, entryOfJson_entryJson, ih]

/-- The written queue parses to the array of its entries. -/
theorem jsonParse_stringifyOfflineTxs (txs : List OfflineTx) :
    jsonParse (stringifyOfflineTxs txs) = some (.array (txs.map entryJson)) := by
  have hopen : isJsonSpace '[' = false := by decide
  have hclose : isJsonSpace ']' = false := by decide
  have hbrace : isJsonSpace '{' = false := by decide
  have h1 : ('['.toNat = 34) = False := by decide
  have h2 : ('{' = ']') = False := by decide
  have hlist := stringifyOfflineTxs_toList txs
  have hlen : (stringifyOfflineTxs txs).length = (joinEntries txs).length + 2 := by
    rw [String.length, ← String.toList, hlist]
    simp
  unfold jsonParse
  rw [hlen, hlist, parseValue]
  simp only [skipSpace_cons _ _ hopen, h1, if_false, if_true]
  cases txs with
  | nil =>
    simp only [joinEntries, List.nil_append, skipSpace_cons _ _ hclose, if_true]
    rfl
  | cons tx rest =>
    obtain ⟨tail, htail⟩ := joinEntries_head tx rest [']']
    have hp := parseElements_entries (parseValue ((joinEntries (tx :: rest)).length + 2))
      (fun t r => parseValue_entry _ t r) rest tx
      (joinEntries (tx :: rest) ++ [']']).length []
      (by
        have := joinEntries_length (tx :: rest)
        simp only [List.length_cons, List.length_append] at this ⊢
        omega)
    rw [htail] at hp ⊢
    simp only [skipSpace_cons _ _ hbrace, h2, if_false, hp]
    simp [skipSpace, List.dropWhile]

/-- The written queue is never the empty text. -/
theorem stringifyOfflineTxs_ne_empty (txs : List OfflineTx) : stringifyOfflineTxs txs ≠ "" := by
  intro h
  have hlist := stringifyOfflineTxs_toList txs
  rw [h] at hlist
  exact absurd hlist (by simp [String.toList])

/-- Initialising the queue from the written queue gives the queue back. -/
theorem initialOfflineTxs_stringify (txs : List OfflineTx) :
    initialOfflineTxs (some (stringifyOfflineTxs txs)) = .queue txs := by
  simp only [initialOfflineTxs, stringifyOfflineTxs_ne_empty txs, if_false,
    jsonParse_stringifyOfflineTxs, entriesOfJson_map]

end Frontend

/-! ## The stored queue -/

namespace Frontend

/-- C14, as stated, fails: with the text "not json", or with a write cut off after
its first bracket, stored under 'offlineTxs', `JSON.parse` throws while the state is
initialised. -/
theorem initialOfflineTxs_corrupt_counterexample :
    initialOfflineTxs (some "not json") = .syntaxError ∧
      initialOfflineTxs (some "[") = .syntaxError := by
  decide

/-- C14, amended: when nothing is stored under 'offlineTxs', or the empty text, the
queue starts empty; when the stored text cannot be parsed as JSON, `JSON.parse`
throws a `SyntaxError` while the state is initialised. -/
theorem initialOfflineTxs_cases (text : String) (hne : text ≠ "")
    (hbad : jsonParse text = none) :
    initialOfflineTxs none = .queue [] ∧ initialOfflineTxs (some "") = .queue [] ∧
      initialOfflineTxs (some text) = .syntaxError := by
  refine ⟨by decide, by decide, ?_⟩
  simp only [initialOfflineTxs, hne, if_false, hbad]

/-- C14 amended, at the text "not json". -/
theorem initialOfflineTxs_cases_witness :
    initialOfflineTxs none = .queue [] ∧ initialOfflineTxs (some "") = .queue [] ∧
      initialOfflineTxs (some "not json") = .syntaxError :=
  initialOfflineTxs_cases "not json" (by decide) (by rfl)

/-- A failed sync request leaves the queue alone. -/
theorem sync_failure_queue (s : AppState) (e : ApiError)
    (w : Except ApiError Wallet) (t : Except ApiError (List Transaction)) :
    (syncOfflineTransactions s (.error e) w t).state.offlineTxs = s.offlineTxs := by
  unfold syncOfflineTransactions
  split <;> simp

/-- C15: whenever `handleTransfer` changes the offline queue of a session `s`, and
whenever `syncOfflineTransactions` changes the offline queue of a session `s'`, the
text stored under 'offlineTxs' afterwards is the JSON text of the new queue, and
initialising the queue from that text gives the same entries in the same order. -/
theorem stored_queue_roundtrip (s s' : AppState) (now : String)
    (a : Except ApiError Unit) (b : Except ApiError SyncResponse)
    (w : Except ApiError Wallet) (t : Except ApiError (List Transaction))
    (hchange : (handleTransfer s now a w t).state.offlineTxs ≠ s.offlineTxs)
    (hdrain : (syncOfflineTransactions s' b w t).state.offlineTxs ≠ s'.offlineTxs) :
    ((handleTransfer s now a w t).state.localStorage.offlineTxs =
        some (stringifyOfflineTxs (handleTransfer s now a w t).state.offlineTxs) ∧
      initialOfflineTxs (handleTransfer s now a w t).state.localStorage.offlineTxs =
        .queue (handleTransfer s now a w t).state.offlineTxs) ∧
    ((syncOfflineTransactions s' b w t).state.localStorage.offlineTxs =
        some (stringifyOfflineTxs (syncOfflineTransactions s' b w t).state.offlineTxs) ∧
      initialOfflineTxs (syncOfflineTransactions s' b w t).state.localStorage.offlineTxs =
        .queue (syncOfflineTransactions s' b w t).state.offlineTxs) := by
  constructor
  · have hstored : (handleTransfer s now a w t).state.localStorage.offlineTxs =
        some (stringifyOfflineTxs (handleTransfer s now a w t).state.offlineTxs) := by
      by_cases hon : s.isOnline = true
      · exfalso
        apply hchange
        simp only [handleTransfer, hon, Bool.not_true, Bool.false_eq_true, if_false]
        rcases a with e | v
        · rfl
        · exact (thenFetchUserData_queue _ _ w t).1
      · have hoff : s.isOnline = false := by simpa using hon
        cases hu : s.user with
        | none =>
          exfalso
          apply hchange
          simp [handleTransfer, hoff, hu]
        | some u => rw [handleTransfer_offline s u now a w t hoff hu]
    exact ⟨hstored, by rw [hstored, initialOfflineTxs_stringify]⟩
  · have hstored : (syncOfflineTransactions s' b w t).state.localStorage.offlineTxs =
        some (stringifyOfflineTxs (syncOfflineTransactions s' b w t).state.offlineTxs) := by
      rcases b with e | data
      · exact absurd (sync_failure_queue s' e w t) hdrain
      · by_cases hg : (!tokenPresent s'.token || s'.offlineTxs.length == 0) = true
        · exfalso
          apply hdrain
          simp [syncOfflineTransactions, hg]
        · have hg' : (!tokenPresent s'.token || s'.offlineTxs.length == 0) = false := by
            simpa using hg
          simp only [syncOfflineTransactions, hg', Bool.false_eq_true, if_false]
          rw [(thenFetchUserData_queue _ _ w t).1, (thenFetchUserData_queue _ _ w t).2]
          rfl
    exact ⟨hstored, by rw [hstored, initialOfflineTxs_stringify]⟩

end Frontend

/-! ## The QR payload -/

namespace Frontend

theorem digitChar_digit : ∀ k, k < 10 →
    isDigit (Nat.digitChar k) = true ∧ (k ≠ 0 → Nat.digitChar k ≠ '0') := by
  decide

/-- The decimal digits of a number: at least one, all digits, and no leading zero
except for the number 0 itself. -/
theorem toDigitsCore_spec (fuel : Nat) :
    ∀ n ds, n < fuel → ∃ l, Nat.toDigitsCore 10 fuel n ds = l ++ ds ∧ l ≠ [] ∧
      (∀ c ∈ l, isDigit c = true) ∧ (n ≠ 0 → l.head? ≠ some '0') ∧ (n = 0 → l = ['0']) := by
  induction fuel with
  | zero => intro n ds h; omega
  | succ fuel ih =>
    intro n ds hn
    have hd := digitChar_digit (n % 10) (Nat.mod_lt n (by decide))
    rw [Nat.toDigitsCore]
    by_cases h0 : n / 10 = 0
    · simp only [h0, if_true]
      refine ⟨[Nat.digitChar (n % 10)], rfl, by simp, ?_, ?_, ?_⟩
      · intro c hc
        simp only [List.mem_singleton] at hc
        rw [hc]; exact hd.1
      · intro hne
        have hmod : n % 10 ≠ 0 := by omega
        simpa using hd.2 hmod
      · intro hz
        subst hz
        rfl
    · simp only [h0, if_false]
      obtain ⟨l, hl, hne, hdig, hhead, _⟩ := ih (n / 10) (Nat.digitChar (n % 10) :: ds)
        (by omega)
      refine ⟨l ++ [Nat.digitChar (n % 10)], by rw [hl]; simp, by simp, ?_, ?_, ?_⟩
      · intro c hc
        rcases List.mem_append.mp hc with h | h
        · exact hdig c h
        · simp only [List.mem_singleton] at h
          rw [h]; exact hd.1
      · intro _
        cases l with
        | nil => exact absurd rfl hne
        | cons x xs => simpa using hhead h0
      · intro hz
        omega

theorem toString_nat_spec (n : Nat) :
    (toString n).toList ≠ [] ∧ (∀ c ∈ (toString n).toList, isDigit c = true) ∧
      ((toString n).toList.head? = some '0' → (toString n).toList = ['0']) := by
  obtain ⟨l, hl, hne, hdig, hhead, hzero⟩ := toDigitsCore_spec (n + 1) n [] (by omega)
  have hrepr : (toString n).toList = l := by
    rw [List.append_nil] at hl
    rw [← hl]
    rfl
  rw [hrepr]
  refine ⟨hne, hdig, ?_⟩
  intro h
  by_cases hn : n = 0
  · exact hzero hn
  · exact absurd h (hhead hn)

theorem takeWhile_digits (l rest : List Char) (c : Char) (hl : ∀ x ∈ l, isDigit x = true)
    (hc : isDigit c = false) : (l ++ c :: rest).takeWhile isDigit = l := by
  induction l with
  | nil => simp [List.takeWhile, hc]
  | cons x xs ih =>
    have hx : isDigit x = true := hl x (List.mem_cons_self x xs)
    simp [List.takeWhile, hx, ih (fun y hy => hl y (List.mem_cons_of_mem x hy))]

theorem dropWhile_digits (l rest : List Char) (c : Char) (hl : ∀ x ∈ l, isDigit x = true)
    (hc : isDigit c = false) : (l ++ c :: rest).dropWhile isDigit = c :: rest := by
  induction l with
  | nil => simp [List.dropWhile, hc]
  | cons x xs ih =>
    have hx : isDigit x = true := hl x (List.mem_cons_self x xs)
    simp [List.dropWhile, hx, ih (fun y hy => hl y (List.mem_cons_of_mem x hy))]

/-- A written natural number, followed by a comma, reads back as its literal. -/
theorem parseNumber_nat (n : Nat) (rest : List Char) :
    parseNumber ((toString n).toList ++ ',' :: rest) =
      some ((toString n).toList, ',' :: rest) := by
  obtain ⟨hne, hdig, hzero⟩ := toString_nat_spec n
  have hcomma : isDigit ',' = false := by decide
  cases hl : (toString n).toList with
  | nil => exact absurd hl hne
  | cons c cs =>
    rw [hl] at hdig hzero
    have hc : isDigit c = true := hdig c (List.mem_cons_self c cs)
    have hminus : c ≠ '-' := by
      intro h; rw [h] at hc; exact absurd hc (by decide)
    have hfrac : parseFraction (',' :: rest) = some ([], ',' :: rest) := by
      simp [parseFraction]
    have hexp : parseExponentPart (',' :: rest) = some ([], ',' :: rest) := by
      simp [parseExponentPart]
    by_cases h0 : c = '0'
    · have hcs : cs = [] := by
        have := hzero (by simp [h0])
        simp only [List.cons.injEq] at this
        exact this.2
      subst h0 hcs
      simp [parseNumber, parseInt, hfrac, hexp]
    · have htake := takeWhile_digits (c :: cs) rest ',' hdig hcomma
      have hdrop := dropWhile_digits (c :: cs) rest ',' hdig hcomma
      simp only [List.cons_append] at htake hdrop
      simp only [parseNumber, List.cons_append, hminus, if_false, parseInt, h0, parseDigits,
        htake, hdrop]
      simp [hfrac, hexp]

end Frontend

namespace Frontend

theorem parseValue_nat (fuel n : Nat) (rest : List Char) :
    parseValue (fuel + 1) ((toString n).toList ++ ',' :: rest) =
      some (.number (toString n), ',' :: rest) := by
  have hnum := parseNumber_nat n rest
  obtain ⟨hne, hdig, _⟩ := toString_nat_spec n
  cases hl : (toString n).toList with
  | nil => exact absurd hl hne
  | cons c cs =>
    rw [hl] at hdig hnum
    have hc : isDigit c = true := hdig c (List.mem_cons_self c cs)
    have hrange : 48 ≤ c.toNat ∧ c.toNat ≤ 57 := by
      simpa [isDigit] using hc
    have hspace : isJsonSpace c = false := by
      simp only [isJsonSpace, Bool.or_eq_false_iff, decide_eq_false_iff_not]
      omega
    have h34 : ¬ c.toNat = 34 := by omega
    have hb : ¬ c = '[' := by intro h; rw [h] at hrange; revert hrange; decide
    have ho : ¬ c = '{' := by intro h; rw [h] at hrange; revert hrange; decide
    have ht : ¬ c = 't' := by intro h; rw [h] at hrange; revert hrange; decide
    have hf : ¬ c = 'f' := by intro h; rw [h] at hrange; revert hrange; decide
    have hn : ¬ c = 'n' := by intro h; rw [h] at hrange; revert hrange; decide
    have ht' : ¬ 't' = c := fun h => ht h.symm
    have hf' : ¬ 'f' = c := fun h => hf h.symm
    have hn' : ¬ 'n' = c := fun h => hn h.symm
    simp only [List.cons_append] at hnum ⊢
    rw [parseValue]
    simp only [skipSpace_cons _ _ hspace, h34, hb, ho, if_false, hnum]
    simp [String.toList, List.isPrefixOf, ht', hf', hn']
    rw [← hl]
    rfl

theorem stringifyQrData_toList (id : Nat) (a d : String) (rest : List Char) :
    (stringifyQrData id a d).toList ++ rest = '{' :: qrMemberChars id a d rest := by
  simp [stringifyQrData, qrMemberChars, String.toList, String.data_append]

theorem qrMemberChars_head (id : Nat) (a d : String) (rest : List Char) :
    ∃ tail, qrMemberChars id a d rest = Char.ofNat 34 :: tail := by
  unfold qrMemberChars
  rw [jsonKey_toList]
  exact ⟨_, rfl⟩

theorem qrMemberChars_length (id : Nat) (a d : String) (rest : List Char) :
    ∃ m, (qrMemberChars id a d rest).length = m + 3 := by
  have h : 3 ≤ (qrMemberChars id a d rest).length := by
    unfold qrMemberChars
    rw [jsonKey_toList]
    simp only [List.length_append, List.length_cons, List.length_nil]
    omega
  obtain ⟨m, hm⟩ := Nat.exists_eq_add_of_le h
  exact ⟨m, by omega⟩

theorem parseMembers_qr (fuel m id : Nat) (a d : String) (rest : List Char) :
    parseMembers (parseValue (fuel + 1)) (m + 3) (qrMemberChars id a d rest) =
      some ([("user_id", .number (toString id)), ("amount", .string a),
        ("description", .string d)], rest) := by
  have hs := fun (s : String) (r : List Char) => parseValue_jsonString fuel s r
  unfold qrMemberChars
  rw [parseMembers_comma _ (m + 2) "user_id" _ _ (.number (toString id)) (by decide)
      (parseValue_nat fuel id _),
    parseMembers_comma _ (m + 1) "amount" _ _ (.string a) (by decide) (hs _ _),
    parseMembers_close _ m "description" _ _ (.string d) (by decide) (hs _ _)]

/-- The written payload parses to an object with the user id, the amount and the
description. -/
theorem jsonParse_stringifyQrData (id : Nat) (a d : String) :
    jsonParse (stringifyQrData id a d) =
      some (.object [("user_id", .number (toString id)), ("amount", .string a),
        ("description", .string d)]) := by
  have hopen : isJsonSpace '{' = false := by decide
  have hq : isJsonSpace (Char.ofNat 34) = false := by decide
  have h1 : ('{'.toNat = 34) = False := by decide
  have h2 : ('{' = '[') = False := by decide
  have h3 : (Char.ofNat 34 = '}') = False := by decide
  have hlist := stringifyQrData_toList id a d []
  rw [List.append_nil] at hlist
  obtain ⟨f, hf⟩ : ∃ f, (stringifyQrData id a d).length = f + 1 := by
    rw [String.length, ← String.toList, hlist]
    exact ⟨_, rfl⟩
  obtain ⟨tail, htail⟩ := qrMemberChars_head id a d []
  obtain ⟨m, hm⟩ := qrMemberChars_length id a d []
  have hp := parseMembers_qr f m id a d []
  unfold jsonParse
  rw [hf, hlist, parseValue]
  simp only [skipSpace_cons _ _ hopen, h1, h2, if_false, if_true]
  rw [htail] at hm hp ⊢
  simp only [skipSpace_cons _ _ hq, h3, if_false, hm, hp]
  rfl

end Frontend

namespace Frontend

/-- C15, at the first offline submission of the session `loggedInOffline`, whose
queue is empty, and at the drain of the queue with that one entry: after either, the
stored text is the text of the new queue and reads back as the new queue. -/
theorem stored_queue_roundtrip_witness :
    ((handleTransfer loggedInOffline "n" (.ok ()) (.ok ⟨0⟩)
          (.ok [])).state.localStorage.offlineTxs =
        some (stringifyOfflineTxs
          (handleTransfer loggedInOffline "n" (.ok ()) (.ok ⟨0⟩) (.ok [])).state.offlineTxs) ∧
      initialOfflineTxs
          (handleTransfer loggedInOffline "n" (.ok ()) (.ok ⟨0⟩)
            (.ok [])).state.localStorage.offlineTxs =
        .queue (handleTransfer loggedInOffline "n" (.ok ()) (.ok ⟨0⟩)
          (.ok [])).state.offlineTxs) ∧
    ((syncOfflineTransactions (handleTransfer loggedInOffline "n" (.ok ()) (.ok ⟨0⟩)
          (.ok [])).state (.ok ⟨[], []⟩) (.ok ⟨0⟩) (.ok [])).state.localStorage.offlineTxs =
        some (stringifyOfflineTxs
          (syncOfflineTransactions (handleTransfer loggedInOffline "n" (.ok ()) (.ok ⟨0⟩)
            (.ok [])).state (.ok ⟨[], []⟩) (.ok ⟨0⟩) (.ok [])).state.offlineTxs) ∧
      initialOfflineTxs
          (syncOfflineTransactions (handleTransfer loggedInOffline "n" (.ok ()) (.ok ⟨0⟩)
            (.ok [])).state (.ok ⟨[], []⟩) (.ok ⟨0⟩) (.ok [])).state.localStorage.offlineTxs =
        .queue (syncOfflineTransactions (handleTransfer loggedInOffline "n" (.ok ()) (.ok ⟨0⟩)
          (.ok [])).state (.ok ⟨[], []⟩) (.ok ⟨0⟩) (.ok [])).state.offlineTxs) :=
  stored_queue_roundtrip loggedInOffline
    (handleTransfer loggedInOffline "n" (.ok ()) (.ok ⟨0⟩) (.ok [])).state
    "n" (.ok ()) (.ok ⟨[], []⟩) (.ok ⟨0⟩) (.ok [])
    (by
      rw [show (handleTransfer loggedInOffline "n" (.ok ()) (.ok ⟨0⟩) (.ok [])).state.offlineTxs =
          [offlineTxOf ⟨7, "Ada", "ada@x.com"⟩ ⟨"bob@x.com", "1000", "rent"⟩ "n"] from rfl,
        show loggedInOffline.offlineTxs = [] from rfl]
      simp)
    (by
      rw [show (syncOfflineTransactions (handleTransfer loggedInOffline "n" (.ok ()) (.ok ⟨0⟩)
          (.ok [])).state (.ok ⟨[], []⟩) (.ok ⟨0⟩) (.ok [])).state.offlineTxs = [] from rfl,
        show (handleTransfer loggedInOffline "n" (.ok ()) (.ok ⟨0⟩) (.ok [])).state.offlineTxs =
          [offlineTxOf ⟨7, "Ada", "ada@x.com"⟩ ⟨"bob@x.com", "1000", "rent"⟩ "n"] from rfl]
      simp)

end Frontend

/-! ## The pattern, the scan and the retry count -/

namespace WalletFrontend

/-- A scanned text with its shape found sets the amount, announces the payment and
calls `handlePay`. -/
theorem handleSimulateScan_match (s : AppState) (payServer : Nat → Except ApiError Message)
    (dashboardServer : Nat → Except ApiError Dashboard) (u a : List Char)
    (h : scanMatch s.qrUrl.toList = some (u, a)) :
    handleSimulateScan s payServer dashboardServer =
      ⟨(handlePayFrom s { s with amount := String.mk a } payServer dashboardServer).state,
        .toastInfo ("Simulated QR scan: Paying " ++ String.mk a ++ " to user " ++ String.mk u) ::
          (handlePayFrom s { s with amount := String.mk a } payServer dashboardServer).effects⟩ := by
  simp only [handleSimulateScan, h]

/-- C21, as stated, fails: the text "http://x/pay://12/345.png" has characters before
and after the shape, and `handleSimulateScan` accepts it: it announces a payment of
345 to user 12 and goes on to `handlePay`. -/
theorem handleSimulateScan_not_strict_counterexample :
    (handleSimulateScan { session with qrUrl := "http://x/pay://12/345.png" } accepting
        dashboard4900).effects.head? =
        some (.toastInfo "Simulated QR scan: Paying 345 to user 12") ∧
      (handleSimulateScan { session with qrUrl := "http://x/pay://12/345.png" } accepting
        dashboard4900).effects ≠ [.toastError "Invalid QR code"] := by
  decide

/-- C21, amended: `handleSimulateScan` rejects a scanned text as an invalid QR code
if and only if the text holds the shape "pay://<digits>/<digits>" nowhere; characters
before or after the shape do not make it reject. -/
theorem handleSimulateScan_rejects_iff (s : AppState)
    (payServer : Nat → Except ApiError Message)
    (dashboardServer : Nat → Except ApiError Dashboard) :
    (handleSimulateScan s payServer dashboardServer).effects = [.toastError "Invalid QR code"] ↔
      ¬ ContainsPayPattern s.qrUrl.toList := by
  constructor
  · intro heff hcontains
    obtain ⟨g, hg⟩ := scanMatch_complete _ hcontains
    rw [handleSimulateScan_match s payServer dashboardServer g.1 g.2 hg] at heff
    simp at heff
  · intro hno
    have hnone : scanMatch s.qrUrl.toList = none := by
      cases hm : scanMatch s.qrUrl.toList with
      | none => rfl
      | some g => exact absurd (scanMatch_sound _ g.1 g.2 hm) hno
    simp only [handleSimulateScan, hnone]

/-- The pattern reads the text "pay://u/a" of two digit strings as `u` and `a`. -/
theorem scanMatch_exact (u a : List Char) (hu : u ≠ []) (ha : a ≠ [])
    (hud : ∀ c ∈ u, isDigit c = true) (had : ∀ c ∈ a, isDigit c = true) :
    scanMatch ("pay://".toList ++ (u ++ ('/' :: a))) = some (u, a) := by
  have hm := matchHere_complete u a [] hu ha hud had
  have htake : a.takeWhile isDigit = a := by
    rw [List.takeWhile_eq_self_iff]
    exact had
  rw [List.append_nil, htake] at hm
  have hcons : ∃ c rest, "pay://".toList ++ (u ++ ('/' :: a)) = c :: rest := ⟨'p', _, rfl⟩
  obtain ⟨c, rest, hc⟩ := hcons
  rw [hc] at hm ⊢
  unfold scanMatch
  rw [hm]

/-- C24: for all non-empty strings of decimal digits `u` and `a`, the pattern of
`handleSimulateScan` matches the text "pay://u/a" and extracts exactly `u` as user id
and `a` as amount; the notification names them. -/
theorem scan_extracts_exactly (s : AppState) (payServer : Nat → Except ApiError Message)
    (dashboardServer : Nat → Except ApiError Dashboard) (u a : List Char)
    (hu : u ≠ []) (ha : a ≠ []) (hud : ∀ c ∈ u, isDigit c = true)
    (had : ∀ c ∈ a, isDigit c = true)
    (htext : s.qrUrl = String.mk ("pay://".toList ++ (u ++ ('/' :: a)))) :
    scanMatch s.qrUrl.toList = some (u, a) ∧
      (handleSimulateScan s payServer dashboardServer).effects.head? =
        some (.toastInfo
          ("Simulated QR scan: Paying " ++ String.mk a ++ " to user " ++ String.mk u)) := by
  have hm : scanMatch s.qrUrl.toList = some (u, a) := by
    rw [htext]
    exact scanMatch_exact u a hu ha hud had
  refine ⟨hm, ?_⟩
  rw [handleSimulateScan_match s payServer dashboardServer u a hm]
  rfl

/-- C24, at the text "pay://12/345". -/
theorem scan_extracts_exactly_witness :
    scanMatch ({ session with qrUrl := "pay://12/345" } : AppState).qrUrl.toList =
        some (['1', '2'], ['3', '4', '5']) ∧
      (handleSimulateScan { session with qrUrl := "pay://12/345" } accepting
        dashboard4900).effects.head? =
        some (.toastInfo
          ("Simulated QR scan: Paying " ++ String.mk ['3', '4', '5'] ++ " to user " ++
            String.mk ['1', '2'])) :=
  scan_extracts_exactly { session with qrUrl := "pay://12/345" } accepting dashboard4900
    ['1', '2'] ['3', '4', '5'] (by decide) (by decide) (by decide) (by decide) rfl

/-- C23, at the failing input: the session of user 1 has 100 typed as amount and
scans "pay://12/345". The notification announces a payment of 345 to user 12; the
request that is sent pays 100, at the pay address of user 1. With no amount typed,
the scan of the same text sends no request at all and asks for a valid amount. -/
theorem scan_pays_typed_amount :
    (handleSimulateScan { session with qrUrl := "pay://12/345" } accepting
        dashboard4900).effects.head? =
        some (.toastInfo "Simulated QR scan: Paying 345 to user 12") ∧
      requestsOf (handleSimulateScan { session with qrUrl := "pay://12/345" } accepting
        dashboard4900).effects =
        [.postPay ⟨"http://localhost:8000/pay/1/", ⟨"100", false⟩⟩,
         .getDashboard "http://localhost:8000/dashboard/1/"] ∧
      (handleSimulateScan { session with qrUrl := "pay://12/345", amount := "" } accepting
        dashboard4900).effects =
        [.toastInfo "Simulated QR scan: Paying 345 to user 12",
         .toastError "Please enter a valid positive amount"] := by
  decide

/-- C26: called with `maxAttempts ≤ 0`, `apiCallWithRetry` does not call the
operation, shows no notification, does not wait, and resolves with `undefined`. -/
theorem apiCallWithRetry_no_attempts {ε α : Type} (fn : Nat → Except ε α)
    (maxAttempts : Int) (delay : Nat) (h : maxAttempts ≤ 0) :
    (apiCallWithRetry fn maxAttempts delay).outcome = .resolved none ∧
      (apiCallWithRetry fn maxAttempts delay).trace = [] ∧
      invocations (apiCallWithRetry fn maxAttempts delay).trace = 0 ∧
      notifications (apiCallWithRetry fn maxAttempts delay).trace = 0 ∧
      waits (apiCallWithRetry fn maxAttempts delay).trace = [] := by
  have hz : maxAttempts.toNat = 0 := by omega
  simp [apiCallWithRetry, hz, retryLoop, invocations, notifications, waits]

/-- C26, at `maxAttempts = 0` and at `maxAttempts = -2`. -/
theorem apiCallWithRetry_no_attempts_witness :
    ((apiCallWithRetry alwaysFails 0 1000).outcome = .resolved none ∧
      (apiCallWithRetry alwaysFails 0 1000).trace = [] ∧
      invocations (apiCallWithRetry alwaysFails 0 1000).trace = 0 ∧
      notifications (apiCallWithRetry alwaysFails 0 1000).trace = 0 ∧
      waits (apiCallWithRetry alwaysFails 0 1000).trace = []) ∧
    (apiCallWithRetry failsTwice (-2) 1000).outcome = .resolved none :=
  ⟨apiCallWithRetry_no_attempts alwaysFails 0 1000 (by decide),
    (apiCallWithRetry_no_attempts failsTwice (-2) 1000 (by decide)).1⟩

end WalletFrontend

/-! ## Amount validation, the restored session and the filter -/

namespace WalletFrontend

/-- The notification of `validateInput` is no request. -/
theorem validateInput_no_request (s : AppState) (action : String) :
    requestsOf (validateInput s action).2 = [] := by
  unfold validateInput
  split_ifs <;> rfl

/-- A digit is no white space. -/
theorem isWhiteSpace_of_isDigit (c : Char) (h : isDigit c = true) : isWhiteSpace c = false := by
  have hr : 48 ≤ c.toNat ∧ c.toNat ≤ 57 := by simpa [isDigit] using h
  simp only [isWhiteSpace, Bool.or_eq_false_iff, decide_eq_false_iff_not, Bool.and_eq_false_imp,
    decide_eq_true_eq, List.mem_cons, List.mem_singleton, List.not_mem_nil, or_false]
  omega

/-- The function `parseFloat` reads a string of digits as the number it denotes. -/
theorem parseFloat_digits (text : String) (hne : text.toList ≠ [])
    (hdig : ∀ c ∈ text.toList, isDigit c = true) :
    parseFloat text = .finite false (digitValue text.toList) 0 := by
  cases hl : text.toList with
  | nil => exact absurd hl hne
  | cons c cs =>
    rw [hl] at hdig
    have hc : isDigit c = true := hdig c (List.mem_cons_self c cs)
    have hr : 48 ≤ c.toNat ∧ c.toNat ≤ 57 := by simpa [isDigit] using hc
    have hws := isWhiteSpace_of_isDigit c hc
    have hminus : ¬ c = '-' := by intro h; rw [h] at hr; revert hr; decide
    have hplus : ¬ c = '+' := by intro h; rw [h] at hr; revert hr; decide
    have hI : ¬ 'I' = c := by intro h; rw [← h] at hr; revert hr; decide
    have htake : (c :: cs).takeWhile isDigit = c :: cs :=
      List.takeWhile_eq_self_iff.mpr hdig
    have hdrop : (c :: cs).dropWhile isDigit = [] :=
      List.dropWhile_eq_nil_iff.mpr hdig
    have hinf : infinityText.isPrefixOf (c :: cs) = false := by
      simp [infinityText, List.isPrefixOf, hI]
    have hskip : (c :: cs).dropWhile isWhiteSpace = c :: cs := by
      simp [List.dropWhile, hws]
    simp only [parseFloat, hl, hskip, hminus, hplus, if_false, parseAfterSign, hinf,
      parseUnsigned, htake, hdrop]
    simp

theorem pow_two_le_pow_ten (a b : Nat) (h : a ≤ 3 * b) : 2 ^ a ≤ 10 ^ b := by
  have h1 : 2 ^ a ≤ 2 ^ (3 * b) := Nat.pow_le_pow_right (by decide) h
  have h2 : (2 ^ 3) ^ b ≤ 10 ^ b := Nat.pow_le_pow_left (by decide) b
  rw [Nat.pow_mul] at h1
  exact h1.trans h2

/-- The amount "1e-400" is a decimal above zero that rounds to the double 0, so
`validateInput('amount')` rejects it. -/
theorem validateInput_tiny :
    (validateInput { session with amount := "1e-400" } "amount").1 = false := by
  have hp : parseFloat "1e-400" = .finite false 1 (-400) := by decide
  have hno : ¬ ("amount" = "auth") := by decide
  have hround : roundsAboveZero 1 (-400) = false := by
    simp only [roundsAboveZero, show ¬ (0 : Int) ≤ -400 by decide, if_false,
      show (-(-400 : Int)).toNat = 400 by decide, decide_eq_false_iff_not, Nat.not_lt]
    rw [Nat.one_mul]
    exact pow_two_le_pow_ten 1075 400 (by decide)
  simp only [validateInput, hno, false_and, if_false, true_and, hp, JsNumber.isPositive, hround]
  simp

/-- C22, as stated, fails: `validateInput('amount')` accepts "12abc", whose whole
text is no number, and "Infinity", which is not finite, and it rejects "1e-400", a
finite decimal greater than zero; with "12abc" typed, `handlePay` posts the payment
with that text as amount. -/
theorem validateInput_amount_counterexample :
    (validateInput { session with amount := "12abc" } "amount").1 = true ∧
      (validateInput { session with amount := "Infinity" } "amount").1 = true ∧
      (validateInput { session with amount := "1e-400" } "amount").1 = false ∧
      (requestsOf (handlePay { session with amount := "12abc" } accepting
        dashboard4900).effects).head? =
        some (.postPay ⟨"http://localhost:8000/pay/1/", ⟨"12abc", false⟩⟩) :=
  ⟨by decide, by decide, validateInput_tiny, by decide⟩

/-! ## `parseFloat` reads the longest decimal literal -/

theorem isDigit_ne (c d : Char) (hc : isDigit c = true) (hd : isDigit d = false) : ¬ c = d := by
  intro h
  rw [h, hd] at hc
  cases hc

/-- What `parseExponent` reads is an exponent part with the value it returns, and it
stands at the head of the text. -/
theorem exponentAt_spec (cs : List Char) :
    IsExponentPart (exponentAt cs) (parseExponent cs) ∧ exponentAt cs <+: cs := by
  have hnone : ∀ l : List Char, IsExponentPart [] 0 ∧ [] <+: l :=
    fun l => ⟨Or.inl ⟨rfl, rfl⟩, List.nil_prefix⟩
  have hdig : ∀ l : List Char, ∀ c ∈ l.takeWhile isDigit, isDigit c = true :=
    fun l c hc => List.mem_takeWhile_imp hc
  cases cs with
  | nil => exact hnone _
  | cons e rest =>
    unfold exponentAt parseExponent
    by_cases he : e = 'e' ∨ e = 'E'
    · simp only [he, if_true]
      cases rest with
      | nil => exact hnone _
      | cons sign ds =>
        simp only []
        by_cases hplus : sign = '+'
        · simp only [hplus, if_true]
          by_cases hds : ds.takeWhile isDigit = []
          · simp only [hds, if_true]
            exact hnone _
          · simp only [hds, if_false]
            refine ⟨Or.inr ⟨e, _, he, hds, hdig ds, Or.inr (Or.inl ⟨rfl, rfl⟩)⟩, ?_⟩
            exact ⟨ds.dropWhile isDigit, by simp [List.takeWhile_append_dropWhile]⟩
        · simp only [hplus, if_false]
          by_cases hminus : sign = '-'
          · simp only [hminus, if_true]
            by_cases hds : ds.takeWhile isDigit = []
            · simp only [hds, if_true]
              exact hnone _
            · simp only [hds, if_false]
              refine ⟨Or.inr ⟨e, _, he, hds, hdig ds, Or.inr (Or.inr ⟨rfl, rfl⟩)⟩, ?_⟩
              exact ⟨ds.dropWhile isDigit, by simp [List.takeWhile_append_dropWhile]⟩
          · simp only [hminus, if_false]
            by_cases hds : (sign :: ds).takeWhile isDigit = []
            · simp only [hds, if_true]
              exact hnone _
            · simp only [hds, if_false]
              refine ⟨Or.inr ⟨e, _, he, hds, hdig _, Or.inl ⟨rfl, rfl⟩⟩, ?_⟩
              exact ⟨(sign :: ds).dropWhile isDigit,
                by simp [List.takeWhile_append_dropWhile]⟩
    · simp only [he, if_false]
      exact hnone _

theorem takeWhile_digits_append (ds post : List Char) (hds : ∀ c ∈ ds, isDigit c = true) :
    (ds ++ post).takeWhile isDigit = ds ++ post.takeWhile isDigit :=
  List.takeWhile_append_of_pos hds

theorem dropWhile_digits_append (ds post : List Char) (hds : ∀ c ∈ ds, isDigit c = true) :
    (ds ++ post).dropWhile isDigit = post.dropWhile isDigit :=
  List.dropWhile_append_of_pos hds

/-- An exponent part is empty or begins with `e` or `E`. -/
theorem exponentPart_head (ex : List Char) (x : Int) (h : IsExponentPart ex x) :
    ex = [] ∨ ∃ mark rest, ex = mark :: rest ∧ isDigit mark = false ∧ ¬ mark = '.' := by
  rcases h with ⟨h, _⟩ | ⟨mark, ds, hm, _, _, h⟩
  · exact Or.inl h
  · have hmark : isDigit mark = false ∧ ¬ mark = '.' := by
      rcases hm with hm | hm <;> subst hm <;> exact ⟨by decide, by decide⟩
    rcases h with ⟨h, _⟩ | ⟨h, _⟩ | ⟨h, _⟩ <;> exact Or.inr ⟨mark, _, h, hmark⟩

/-- Read at the head of a text, an exponent part is read whole, with the digits that
follow it. -/
theorem exponentAt_append (ex post : List Char) (x : Int) (h : IsExponentPart ex x)
    (hne : ex ≠ []) : exponentAt (ex ++ post) = ex ++ post.takeWhile isDigit := by
  rcases h with ⟨h, _⟩ | ⟨mark, ds, hm, hds, hdig, h⟩
  · exact absurd h hne
  · have hrun := takeWhile_digits_append ds post hdig
    have hrun' : ¬ (ds ++ post).takeWhile isDigit = [] := by
      rw [hrun]
      simp [hds]
    rcases h with ⟨h, _⟩ | ⟨h, _⟩ | ⟨h, _⟩
    · subst h
      cases ds with
      | nil => exact absurd rfl hds
      | cons d ds' =>
        have hd : isDigit d = true := hdig d (List.mem_cons_self d ds')
        have hplus : ¬ d = '+' := isDigit_ne d '+' hd (by decide)
        have hminus : ¬ d = '-' := isDigit_ne d '-' hd (by decide)
        have hrun2 : ¬ (d :: (ds' ++ post)).takeWhile isDigit = [] := hrun'
        have hrun3 : (d :: (ds' ++ post)).takeWhile isDigit =
            d :: ds' ++ post.takeWhile isDigit := hrun
        show exponentAt (mark :: d :: (ds' ++ post)) = _
        simp only [exponentAt, hm, if_true, hplus, hminus, if_false, hrun2, hrun3]
        rfl
    · subst h
      show exponentAt (mark :: '+' :: (ds ++ post)) = _
      simp only [exponentAt, hm, if_true, hrun', if_false, hrun]
      simp [hds]
    · subst h
      have hno : ¬ ('-' = '+') := by decide
      show exponentAt (mark :: '-' :: (ds ++ post)) = _
      simp only [exponentAt, hm, if_true, hno, if_false, hrun', hrun]
      simp [hds]

/-- The value that `parseExponent` returns for an exponent part is its value. -/
theorem parseExponent_exact (ex : List Char) (x : Int) (h : IsExponentPart ex x) :
    parseExponent ex = x := by
  rcases h with ⟨h, hx⟩ | ⟨mark, ds, hm, hds, hdig, h⟩
  · subst h
    subst hx
    rfl
  · have hrun : ds.takeWhile isDigit = ds := List.takeWhile_eq_self_iff.mpr hdig
    have hrun' : ¬ ds.takeWhile isDigit = [] := by rw [hrun]; exact hds
    rcases h with ⟨h, hx⟩ | ⟨h, hx⟩ | ⟨h, hx⟩
    · subst h
      subst hx
      cases ds with
      | nil => exact absurd rfl hds
      | cons d ds' =>
        have hd : isDigit d = true := hdig d (List.mem_cons_self d ds')
        have hplus : ¬ d = '+' := isDigit_ne d '+' hd (by decide)
        have hminus : ¬ d = '-' := isDigit_ne d '-' hd (by decide)
        simp only [parseExponent, hm, if_true, hplus, hminus, if_false, hrun', hrun]
        simp
    · subst h
      subst hx
      simp only [parseExponent, hm, if_true, hrun', if_false, hrun]
      simp [hds]
    · subst h
      subst hx
      have hno : ¬ ('-' = '+') := by decide
      simp only [parseExponent, hm, if_true, hno, if_false, hrun', hrun]
      simp [hds]

/-- Digits followed by nothing or by a character that is no digit: the run of digits
at the head is exactly those digits. -/
theorem digit_run (ds ex : List Char) (hds : ∀ c ∈ ds, isDigit c = true)
    (hex : ex = [] ∨ ∃ mark rest, ex = mark :: rest ∧ isDigit mark = false) :
    (ds ++ ex).takeWhile isDigit = ds ∧ (ds ++ ex).dropWhile isDigit = ex := by
  rcases hex with h | ⟨mark, rest, h, hmark⟩
  · subst h
    rw [List.append_nil]
    exact ⟨List.takeWhile_eq_self_iff.mpr hds, List.dropWhile_eq_nil_iff.mpr hds⟩
  · subst h
    exact ⟨takeWhile_stop isDigit ds rest mark hds hmark,
      dropWhile_stop isDigit ds rest mark hds hmark⟩

/-- A decimal literal is not empty, and begins with a digit or a point. -/
theorem decimalLiteral_head (lit : List Char) (m : Nat) (e : Int)
    (h : IsDecimalLiteral lit m e) :
    ∃ c rest, lit = c :: rest ∧ (isDigit c = true ∨ c = '.') := by
  obtain ⟨ip, fr, ex, x, hip, _, _, hshape, _, _⟩ := h
  cases ip with
  | nil =>
    rcases hshape with ⟨_, hne, _⟩ | ⟨hlit, _⟩
    · exact absurd rfl hne
    · exact ⟨'.', _, hlit, Or.inr rfl⟩
  | cons d ds =>
    have hd : isDigit d = true := hip d (List.mem_cons_self d ds)
    rcases hshape with ⟨hlit, _, _⟩ | ⟨hlit, _⟩
    · exact ⟨d, _, hlit, Or.inl hd⟩
    · exact ⟨d, _, hlit, Or.inl hd⟩

/-- On a text that is a decimal literal, `parseUnsigned` returns the number that the
literal denotes. -/
theorem parseUnsigned_exact (lit : List Char) (m : Nat) (e : Int)
    (h : IsDecimalLiteral lit m e) : parseUnsigned lit = some (m, e) := by
  obtain ⟨ip, fr, ex, x, hip, hfr, hex, hshape, hm, he⟩ := h
  have hvalue := parseExponent_exact ex x hex
  have hhead := exponentPart_head ex x hex
  have hhead' : ex = [] ∨ ∃ mark rest, ex = mark :: rest ∧ isDigit mark = false := by
    rcases hhead with h | ⟨mark, rest, h, hd, _⟩
    · exact Or.inl h
    · exact Or.inr ⟨mark, rest, h, hd⟩
  have hpoint : isDigit '.' = false := by decide
  rcases hshape with ⟨hlit, hne, hfr0⟩ | ⟨hlit, hne⟩
  · subst hfr0
    obtain ⟨htake, hdrop⟩ := digit_run ip ex hip hhead'
    rw [List.append_nil] at hm
    subst hlit
    unfold parseUnsigned
    simp only [htake, hdrop]
    rcases hhead with h | ⟨mark, rest, h, _, hnp⟩
    · subst h
      simp only [hne, if_false]
      rw [hm, he, ← hvalue]
      rfl
    · subst h
      simp only [hnp, hne, if_false]
      rw [hm, he, hvalue]
      simp
  · obtain ⟨htake, hdrop⟩ := digit_run ip ('.' :: (fr ++ ex)) hip
      (Or.inr ⟨'.', _, rfl, hpoint⟩)
    obtain ⟨htake2, hdrop2⟩ := digit_run fr ex hfr hhead'
    subst hlit
    unfold parseUnsigned
    simp only [htake, hdrop, if_true, htake2, hdrop2]
    have hnot : ¬ (ip = [] ∧ fr = []) := by
      rintro ⟨h1, h2⟩
      rcases hne with h | h
      · exact h h1
      · exact h h2
    simp only [hnot, if_false]
    rw [hm, he, hvalue]

/-- What `parseUnsigned` reads stands at the head of the text. -/
theorem literalAt_head (t : List Char) : literalAt t <+: t := by
  have hsplit := List.takeWhile_append_dropWhile isDigit t
  unfold literalAt
  cases hd : t.dropWhile isDigit with
  | nil => exact List.takeWhile_prefix isDigit
  | cons c rest =>
    rw [hd] at hsplit
    simp only []
    by_cases hc : c = '.'
    · simp only [hc, if_true]
      by_cases hno : t.takeWhile isDigit = [] ∧ rest.takeWhile isDigit = []
      · simp only [hno, and_self, if_true]
        exact List.nil_prefix
      · simp only [hno, if_false]
        obtain ⟨tail, htail⟩ := (exponentAt_spec (rest.dropWhile isDigit)).2
        refine ⟨tail, ?_⟩
        have hrest := List.takeWhile_append_dropWhile isDigit rest
        have hjoin : t.takeWhile isDigit ++
            '.' :: (rest.takeWhile isDigit ++ exponentAt (rest.dropWhile isDigit)) ++ tail =
            t.takeWhile isDigit ++ c :: rest := by
          rw [hc]
          simp only [List.append_assoc, List.cons_append, htail, hrest]
        exact hjoin.trans hsplit
    · simp only [hc, if_false]
      by_cases hip : t.takeWhile isDigit = []
      · simp only [hip, if_true]
        exact List.nil_prefix
      · simp only [hip, if_false]
        obtain ⟨tail, htail⟩ := (exponentAt_spec (c :: rest)).2
        refine ⟨tail, ?_⟩
        rw [List.append_assoc, htail, hsplit]

/-- When `parseUnsigned` finds no literal, nothing is read. -/
theorem literalAt_none (t : List Char) (h : parseUnsigned t = none) : literalAt t = [] := by
  unfold parseUnsigned at h
  unfold literalAt
  cases hd : t.dropWhile isDigit with
  | nil =>
    rw [hd] at h
    simp only [] at h ⊢
    by_cases hip : t.takeWhile isDigit = []
    · exact hip
    · simp [hip] at h
  | cons c rest =>
    rw [hd] at h
    simp only [] at h ⊢
    by_cases hc : c = '.'
    · simp only [hc, if_true] at h ⊢
      by_cases hno : t.takeWhile isDigit = [] ∧ rest.takeWhile isDigit = []
      · simp only [hno, and_self, if_true]
      · rw [if_neg hno] at h
        cases h
    · simp only [hc, if_false] at h ⊢
      by_cases hip : t.takeWhile isDigit = []
      · simp only [hip, if_true]
      · rw [if_neg hip] at h
        cases h

/-- What `parseUnsigned` reads is a decimal literal that denotes the number it
returns. -/
theorem literalAt_spec (t : List Char) (m : Nat) (e : Int) (h : parseUnsigned t = some (m, e)) :
    IsDecimalLiteral (literalAt t) m e := by
  have hdig : ∀ l : List Char, ∀ c ∈ l.takeWhile isDigit, isDigit c = true :=
    fun l c hc => List.mem_takeWhile_imp hc
  unfold parseUnsigned at h
  unfold literalAt
  cases hd : t.dropWhile isDigit with
  | nil =>
    rw [hd] at h
    simp only [] at h ⊢
    by_cases hip : t.takeWhile isDigit = []
    · simp [hip] at h
    · simp only [hip, if_false, Option.some.injEq, Prod.mk.injEq] at h
      refine ⟨t.takeWhile isDigit, [], [], 0, hdig t, by simp, Or.inl ⟨rfl, rfl⟩,
        Or.inl ⟨by simp, hip, rfl⟩, ?_, ?_⟩
      · rw [List.append_nil]; exact h.1.symm
      · simpa using h.2.symm
  | cons c rest =>
    rw [hd] at h
    simp only [] at h ⊢
    by_cases hc : c = '.'
    · simp only [hc, if_true] at h ⊢
      by_cases hno : t.takeWhile isDigit = [] ∧ rest.takeWhile isDigit = []
      · simp [hno] at h
      · simp only [hno, if_false, Option.some.injEq, Prod.mk.injEq] at h ⊢
        refine ⟨t.takeWhile isDigit, rest.takeWhile isDigit,
          exponentAt (rest.dropWhile isDigit), parseExponent (rest.dropWhile isDigit),
          hdig t, hdig rest, (exponentAt_spec _).1, Or.inr ⟨rfl, ?_⟩, h.1.symm, h.2.symm⟩
        by_contra hboth
        push_neg at hboth
        exact hno hboth
    · simp only [hc, if_false] at h ⊢
      by_cases hip : t.takeWhile isDigit = []
      · simp [hip] at h
      · simp only [hip, if_false, Option.some.injEq, Prod.mk.injEq] at h ⊢
        refine ⟨t.takeWhile isDigit, [], exponentAt (c :: rest), parseExponent (c :: rest),
          hdig t, by simp, (exponentAt_spec _).1, Or.inl ⟨rfl, hip, rfl⟩, ?_, ?_⟩
        · rw [List.append_nil]; exact h.1.symm
        · simpa using h.2.symm

/-- The digits at the head of a text are part of what `parseUnsigned` reads. -/
theorem takeWhile_le_literalAt (t : List Char) (h : t.takeWhile isDigit ≠ []) :
    (t.takeWhile isDigit).length ≤ (literalAt t).length := by
  unfold literalAt
  cases hd : t.dropWhile isDigit with
  | nil => exact le_refl _
  | cons c rest =>
    simp only []
    by_cases hc : c = '.'
    · have hno : ¬ (t.takeWhile isDigit = [] ∧ rest.takeWhile isDigit = []) := fun hb => h hb.1
      simp only [hc, if_true, hno, if_false, List.length_append]
      omega
    · simp only [hc, if_false, h, List.length_append]
      omega

/-- An exponent part at the head of a text is part of what `parseExponent` reads
behind the digits at the head. -/
theorem exponent_length_le (ex post : List Char) (x : Int) (h : IsExponentPart ex x) :
    ex.length ≤ (exponentAt ((ex ++ post).dropWhile isDigit)).length := by
  rcases exponentPart_head ex x h with h0 | ⟨mark, rest, hex, hmark, _⟩
  · subst h0
    exact Nat.zero_le _
  · have hdrop : (ex ++ post).dropWhile isDigit = ex ++ post := by
      rw [hex]
      simp [List.dropWhile, hmark]
    have hne : ex ≠ [] := by rw [hex]; exact List.cons_ne_nil _ _
    rw [hdrop, exponentAt_append ex post x h hne, List.length_append]
    omega

/-- No decimal literal at the head of a text is longer than what `parseUnsigned`
reads. -/
theorem literal_length_le (t lit : List Char) (m : Nat) (e : Int)
    (h : IsDecimalLiteral lit m e) (hp : lit <+: t) : lit.length ≤ (literalAt t).length := by
  obtain ⟨post, rfl⟩ := hp
  obtain ⟨ip, fr, ex, x, hip, hfr, hex, hshape, _, _⟩ := h
  have hpoint : isDigit '.' = false := by decide
  rcases hshape with ⟨hlit, hne, _⟩ | ⟨hlit, hne⟩
  · subst hlit
    rcases exponentPart_head ex x hex with h0 | ⟨mark, rest, hmk, hmark, hnp⟩
    · subst h0
      rw [List.append_nil]
      have htake := takeWhile_digits_append ip post hip
      have hne' : (ip ++ post).takeWhile isDigit ≠ [] := by
        rw [htake]
        simp [hne]
      have hle := takeWhile_le_literalAt (ip ++ post) hne'
      rw [htake, List.length_append] at hle
      omega
    · have hexne : ex ≠ [] := by rw [hmk]; exact List.cons_ne_nil _ _
      have hat := exponentAt_append ex post x hex hexne
      subst hmk
      have htake := takeWhile_stop isDigit ip (rest ++ post) mark hip hmark
      have hdrop := dropWhile_stop isDigit ip (rest ++ post) mark hip hmark
      have hlist : ip ++ mark :: rest ++ post = ip ++ mark :: (rest ++ post) := by simp
      rw [hlist]
      unfold literalAt
      simp only [htake, hdrop, hnp, hne, if_false]
      have hat' : exponentAt (mark :: (rest ++ post)) =
          mark :: rest ++ post.takeWhile isDigit := hat
      rw [hat']
      simp only [List.length_append, List.length_cons]
      omega
  · subst hlit
    have hlist : ip ++ '.' :: (fr ++ ex) ++ post = ip ++ '.' :: (fr ++ (ex ++ post)) := by simp
    rw [hlist]
    have htake := takeWhile_stop isDigit ip (fr ++ (ex ++ post)) '.' hip hpoint
    have hdrop := dropWhile_stop isDigit ip (fr ++ (ex ++ post)) '.' hip hpoint
    have htake2 := takeWhile_digits_append fr (ex ++ post) hfr
    have hdrop2 := dropWhile_digits_append fr (ex ++ post) hfr
    have hle := exponent_length_le ex post x hex
    have hno : ¬ (ip = [] ∧ fr ++ (ex ++ post).takeWhile isDigit = []) := by
      rintro ⟨h1, h2⟩
      rcases hne with h | h
      · exact h h1
      · exact h (List.append_eq_nil.mp h2).1
    unfold literalAt
    simp only [htake, hdrop, if_true, htake2, hdrop2, hno, if_false]
    simp only [List.length_append, List.length_cons]
    omega

/-- Two prefixes of one text that have the same length are equal. -/
theorem prefix_eq_of_length (a b t : List Char) (ha : a <+: t) (hb : b <+: t)
    (h : a.length = b.length) : a = b := by
  have hab : a <+: b := List.prefix_of_prefix_length_le ha hb (le_of_eq h)
  exact hab.eq_of_length h

/-- The function `parseUnsigned` returns the number that the longest decimal literal
at the head of the text denotes. -/
theorem parseUnsigned_iff (t : List Char) (m : Nat) (e : Int) :
    parseUnsigned t = some (m, e) ↔ ∃ lit, IsLongestLiteral t lit m e := by
  constructor
  · intro h
    exact ⟨literalAt t, literalAt_spec t m e h, literalAt_head t,
      fun other d e' ho hp => literal_length_le t other d e' ho hp⟩
  · rintro ⟨lit, hlit, hp, hmax⟩
    have hle := literal_length_le t lit m e hlit hp
    obtain ⟨c, rest, hcons, _⟩ := decimalLiteral_head lit m e hlit
    have hpos : 0 < (literalAt t).length := by
      rw [hcons] at hle
      simp only [List.length_cons] at hle
      omega
    cases hparse : parseUnsigned t with
    | none =>
      rw [literalAt_none t hparse] at hpos
      exact absurd hpos (by simp)
    | some r =>
      obtain ⟨m0, e0⟩ := r
      have hspec := literalAt_spec t m0 e0 hparse
      have hge := hmax (literalAt t) m0 e0 hspec (literalAt_head t)
      have heq : lit = literalAt t :=
        prefix_eq_of_length lit (literalAt t) t hp (literalAt_head t) (le_antisymm hle hge)
      have h1 := parseUnsigned_exact lit m e hlit
      rw [heq] at h1
      have h2 := parseUnsigned_exact (literalAt t) m0 e0 hspec
      rw [h1] at h2
      exact congrArg some (Option.some.inj h2).symm ▸ rfl

/-- The comparison of natural numbers that decides whether a decimal with a negative
exponent lies above `2 ^ (-n)`. -/
theorem above_threshold_neg (n k m : Nat) :
    10 ^ k < m * 2 ^ n ↔ (2 : ℚ) ^ (-(n : Int)) < (m : ℚ) * (10 : ℚ) ^ (-(k : Int)) := by
  have h2 : (0 : ℚ) < 2 ^ n := by positivity
  have h10 : (0 : ℚ) < 10 ^ k := by positivity
  rw [zpow_neg, zpow_neg, zpow_natCast, zpow_natCast, ← div_eq_mul_inv, inv_eq_one_div,
    div_lt_div_iff₀ h2 h10, one_mul]
  constructor
  · intro h
    exact_mod_cast h
  · intro h
    exact_mod_cast h

/-- A natural number times a power of ten with exponent at least 0 lies above
`2 ^ (-n)`, for `n` above 0, exactly when the number is above 0. -/
theorem above_threshold_nonneg (n m : Nat) (e : Int) (hn : 0 < n) (he : 0 ≤ e) :
    0 < m ↔ (2 : ℚ) ^ (-(n : Int)) < (m : ℚ) * (10 : ℚ) ^ e := by
  have hsmall : (2 : ℚ) ^ (-(n : Int)) < 1 := by
    rw [zpow_neg, zpow_natCast]
    apply inv_lt_one_of_one_lt₀
    exact one_lt_pow₀ (by norm_num) (by omega)
  have hpos : (0 : ℚ) < 2 ^ (-(n : Int)) := by positivity
  obtain ⟨k, rfl⟩ := Int.eq_ofNat_of_zero_le he
  rw [zpow_natCast]
  constructor
  · intro hm
    have h1 : (1 : ℚ) ≤ (m : ℚ) := by exact_mod_cast hm
    have h2 : (1 : ℚ) ≤ (10 : ℚ) ^ k := one_le_pow₀ (by norm_num)
    have h3 : (1 : ℚ) ≤ (m : ℚ) * (10 : ℚ) ^ k := by
      calc (1 : ℚ) = 1 * 1 := by norm_num
        _ ≤ (m : ℚ) * (10 : ℚ) ^ k := mul_le_mul h1 h2 (by norm_num) (by positivity)
    exact lt_of_lt_of_le hsmall h3
  · intro h
    rcases Nat.eq_zero_or_pos m with h0 | h0
    · subst h0
      simp only [Nat.cast_zero, zero_mul] at h
      exact absurd h (not_lt.mpr (le_of_lt hpos))
    · exact h0

/-- The test `roundsAboveZero` holds exactly of the decimals above `2 ^ (-1075)`. -/
theorem roundsAboveZero_iff (m : Nat) (e : Int) :
    roundsAboveZero m e = true ↔ (2 : ℚ) ^ (-1075 : Int) < (m : ℚ) * (10 : ℚ) ^ e := by
  have hcast : (-1075 : Int) = -((1075 : Nat) : Int) := rfl
  rw [hcast]
  unfold roundsAboveZero
  by_cases he : 0 ≤ e
  · simp only [he, if_true, decide_eq_true_eq]
    exact above_threshold_nonneg 1075 m e (by decide) he
  · simp only [he, if_false, decide_eq_true_eq]
    have hk : e = -(((-e).toNat : Nat) : Int) := by omega
    rw [above_threshold_neg 1075 (-e).toNat m, ← hk]

/-- A literal behind a minus sign is never above zero. -/
theorem parseAfterSign_negative (body : List Char) :
    (parseAfterSign true body).isPositive = false := by
  unfold parseAfterSign
  split_ifs
  · rfl
  · cases parseUnsigned body with
    | none => rfl
    | some r => rfl

/-- What `parseFloat` reads behind the sign is above zero as a double exactly when the
text begins with "Infinity" or its longest decimal literal denotes a number above
`2 ^ (-1075)`. -/
theorem parseAfterSign_positive (body : List Char) :
    (parseAfterSign false body).isPositive = true ↔
      (infinityText <+: body ∨
        ∃ (lit : List Char) (digits : Nat) (exponent : Int),
          IsLongestLiteral body lit digits exponent ∧
            (2 : ℚ) ^ (-1075 : Int) < (digits : ℚ) * (10 : ℚ) ^ exponent) := by
  unfold parseAfterSign
  by_cases hinf : infinityText.isPrefixOf body = true
  · simp only [hinf, if_true]
    exact ⟨fun _ => Or.inl (List.isPrefixOf_iff_prefix.mp hinf), fun _ => rfl⟩
  · simp only [hinf, Bool.false_eq_true, if_false]
    have hnot : ¬ infinityText <+: body := fun h => hinf (List.isPrefixOf_iff_prefix.mpr h)
    cases hparse : parseUnsigned body with
    | none =>
      simp only []
      constructor
      · intro h
        cases h
      · rintro (h | ⟨lit, m, e, hlit, _⟩)
        · exact absurd h hnot
        · have hsome := (parseUnsigned_iff body m e).mpr ⟨lit, hlit⟩
          rw [hparse] at hsome
          cases hsome
    | some r =>
      obtain ⟨m0, e0⟩ := r
      simp only [JsNumber.isPositive, Bool.not_false, Bool.true_and]
      rw [roundsAboveZero_iff]
      constructor
      · intro h
        obtain ⟨lit, hlit⟩ := (parseUnsigned_iff body m0 e0).mp hparse
        exact Or.inr ⟨lit, m0, e0, hlit, h⟩
      · rintro (h | ⟨lit, m, e, hlit, hval⟩)
        · exact absurd h hnot
        · have hsome := (parseUnsigned_iff body m e).mpr ⟨lit, hlit⟩
          rw [hparse] at hsome
          simp only [Option.some.injEq, Prod.mk.injEq] at hsome
          rw [hsome.1, hsome.2]
          exact hval

/-- A text that begins with "Infinity" or with a decimal literal begins with a
character that is neither white space nor a sign. -/
theorem body_head (body : List Char)
    (h : infinityText <+: body ∨
      ∃ (lit : List Char) (digits : Nat) (exponent : Int),
        IsLongestLiteral body lit digits exponent ∧
          (2 : ℚ) ^ (-1075 : Int) < (digits : ℚ) * (10 : ℚ) ^ exponent) :
    ∃ b rest, body = b :: rest ∧ isWhiteSpace b = false ∧ ¬ b = '-' ∧ ¬ b = '+' := by
  rcases h with ⟨tail, htail⟩ | ⟨lit, m, e, ⟨hlit, ⟨tail, htail⟩, _⟩, _⟩
  · refine ⟨'I', "nfinity".toList ++ tail, ?_, by decide, by decide, by decide⟩
    rw [← htail]
    rfl
  · obtain ⟨c, rest, hcons, hc⟩ := decimalLiteral_head lit m e hlit
    refine ⟨c, rest ++ tail, ?_, ?_, ?_, ?_⟩
    · rw [← htail, hcons]
      rfl
    · rcases hc with hc | hc
      · exact isWhiteSpace_of_isDigit c hc
      · subst hc
        decide
    · rcases hc with hc | hc
      · exact isDigit_ne c '-' hc (by decide)
      · subst hc
        decide
    · rcases hc with hc | hc
      · exact isDigit_ne c '+' hc (by decide)
      · subst hc
        decide

/-- The number that `parseFloat` reads is above zero as a double exactly for the
accepted amount texts. -/
theorem parseFloat_positive_iff (text : String) :
    (parseFloat text).isPositive = true ↔ AcceptedAmount text.toList := by
  constructor
  · intro h
    have hsplit := List.takeWhile_append_dropWhile isWhiteSpace text.toList
    have hws : ∀ c ∈ text.toList.takeWhile isWhiteSpace, isWhiteSpace c = true :=
      fun c hc => List.mem_takeWhile_imp hc
    unfold parseFloat at h
    cases hd : text.toList.dropWhile isWhiteSpace with
    | nil =>
      rw [hd] at h
      cases h
    | cons c rest =>
      rw [hd] at h hsplit
      simp only [] at h
      by_cases hminus : c = '-'
      · simp only [hminus, if_true] at h
        rw [parseAfterSign_negative] at h
        cases h
      · simp only [hminus, if_false] at h
        by_cases hplus : c = '+'
        · simp only [hplus, if_true] at h
          rw [hplus] at hsplit
          exact ⟨_, ['+'], rest, hsplit.symm, hws, Or.inr rfl,
            (parseAfterSign_positive rest).mp h⟩
        · simp only [hplus, if_false] at h
          exact ⟨_, [], c :: rest, hsplit.symm, hws, Or.inl rfl,
            (parseAfterSign_positive (c :: rest)).mp h⟩
  · rintro ⟨ws, sign, body, htext, hws, hsign, hbody⟩
    have hpos := (parseAfterSign_positive body).mpr hbody
    obtain ⟨b, rest, hb, hbws, hbminus, hbplus⟩ := body_head body hbody
    unfold parseFloat
    rcases hsign with hs | hs
    · subst hs
      have hdrop : text.toList.dropWhile isWhiteSpace = b :: rest := by
        rw [htext, hb]
        exact dropWhile_stop isWhiteSpace ws rest b hws hbws
      rw [hdrop]
      simp only [hbminus, hbplus, if_false]
      rw [← hb]
      exact hpos
    · subst hs
      have hdrop : text.toList.dropWhile isWhiteSpace = '+' :: body := by
        rw [htext]
        exact dropWhile_stop isWhiteSpace ws body '+' hws (by decide)
      have hno : ¬ ('+' = '-') := by decide
      rw [hdrop]
      simp only [hno, if_false, if_true]
      exact hpos

/-- The function `validateInput('amount')` lets exactly the accepted amount texts
pass. -/
theorem validateInput_iff (s : AppState) :
    (validateInput s "amount").1 = true ↔ AcceptedAmount s.amount.toList := by
  have hno : ¬ ("amount" = "auth") := by decide
  rw [← parseFloat_positive_iff]
  simp only [validateInput, hno, false_and, if_false, true_and]
  split_ifs with h
  · simp only [Bool.false_eq_true, false_iff]
    rcases h with h | h
    · rw [h]
      decide
    · simp [h]
  · simp only [true_iff]
    push_neg at h
    simpa using h.2

/-- An amount of decimal digits that denotes a number above zero passes
`validateInput('amount')`. -/
theorem validateInput_digits (s : AppState) (hne : s.amount.toList ≠ [])
    (hdig : ∀ c ∈ s.amount.toList, isDigit c = true) (hpos : 0 < digitValue s.amount.toList) :
    validateInput s "amount" = (true, []) := by
  have hno : ¬ ("amount" = "auth") := by decide
  have hp := parseFloat_digits s.amount hne hdig
  have hnonempty : ¬ s.amount = "" := by
    intro h
    rw [h] at hne
    exact hne rfl
  have hpos' : (JsNumber.finite false (digitValue s.amount.toList) 0).isPositive = true := by
    simpa [JsNumber.isPositive, roundsAboveZero] using hpos
  simp only [validateInput, hno, false_and, if_false, true_and, hp, hpos', hnonempty, false_or,
    Bool.true_eq_false]

/-- C22, amended: `validateInput('amount')` returns true if and only if the amount
text is an accepted amount text: white space (possibly none), an optional `+`, and
then a text that begins with "Infinity" or whose longest prefix that is a decimal
literal denotes a number above `2 ^ (-1075)`; what follows that prefix plays no part.
Every text of decimal digits that denotes a number above zero is accepted. When
`validateInput('amount')` returns false, `handlePay` and `handleGenerateQR` send no
request and leave the state as it was. -/
theorem validateInput_amount (s s1 s2 : AppState) (payServer : Nat → Except ApiError Message)
    (dashboardServer : Nat → Except ApiError Dashboard)
    (qrServer : Nat → Except ApiError QrAnswer)
    (hne : s1.amount.toList ≠ []) (hdig : ∀ c ∈ s1.amount.toList, isDigit c = true)
    (hpos : 0 < digitValue s1.amount.toList)
    (hbad : (validateInput s2 "amount").1 = false) :
    ((validateInput s "amount").1 = true ↔ AcceptedAmount s.amount.toList) ∧
      (validateInput s1 "amount").1 = true ∧
      requestsOf (handlePay s2 payServer dashboardServer).effects = [] ∧
      (handlePay s2 payServer dashboardServer).state = s2 ∧
      requestsOf (handleGenerateQR s2 qrServer).effects = [] ∧
      (handleGenerateQR s2 qrServer).state = s2 := by
  refine ⟨validateInput_iff s, ?_, ?_, ?_, ?_, ?_⟩
  · rw [validateInput_digits s1 hne hdig hpos]
  · simp only [handlePay, handlePayFrom, hbad, if_true]
    exact validateInput_no_request s2 "amount"
  · simp only [handlePay, handlePayFrom, hbad, if_true]
  · simp only [handleGenerateQR, hbad, if_true]
    exact validateInput_no_request s2 "amount"
  · simp only [handleGenerateQR, hbad, if_true]

/-- C22 amended, at the amounts "12abc", "100" and "-5". -/
theorem validateInput_amount_witness :
    ((validateInput { session with amount := "12abc" } "amount").1 = true ↔
        AcceptedAmount ({ session with amount := "12abc" } : AppState).amount.toList) ∧
      (validateInput session "amount").1 = true ∧
      requestsOf (handlePay { session with amount := "-5" } accepting
        dashboard4900).effects = [] ∧
      (handlePay { session with amount := "-5" } accepting dashboard4900).state =
        { session with amount := "-5" } ∧
      requestsOf (handleGenerateQR { session with amount := "-5" }
        (fun _ => .ok ⟨"/media/qr_1.png"⟩)).effects = [] ∧
      (handleGenerateQR { session with amount := "-5" }
        (fun _ => .ok ⟨"/media/qr_1.png"⟩)).state = { session with amount := "-5" } :=
  validateInput_amount { session with amount := "12abc" } session
    { session with amount := "-5" } accepting dashboard4900
    (fun _ => .ok ⟨"/media/qr_1.png"⟩) (by decide) (by decide) (by decide) (by decide)

/-! ## The generated code and its scan -/

/-- The groups of a match are non-empty strings of digits. -/
theorem scanMatch_groups (cs u a : List Char) (h : scanMatch cs = some (u, a)) :
    u ≠ [] ∧ a ≠ [] ∧ (∀ c ∈ u, isDigit c = true) ∧ (∀ c ∈ a, isDigit c = true) := by
  induction cs with
  | nil => simp [scanMatch] at h
  | cons c cs ih =>
    unfold scanMatch at h
    split at h
    · rename_i groups hm
      simp only [Option.some.injEq] at h
      subst h
      obtain ⟨_, _, hu, ha, hud, had⟩ := matchHere_sound _ _ _ hm
      exact ⟨hu, ha, hud, had⟩
    · exact ih h

/-- The address "http://localhost:8000/" holds no match of the pattern, so the search
goes on behind it. -/
theorem scanMatch_origin (rest : List Char) :
    scanMatch ("http://localhost:8000/".toList ++ rest) = scanMatch rest := by
  show scanMatch ('h' :: 't' :: 't' :: 'p' :: ':' :: '/' :: '/' :: 'l' :: 'o' :: 'c' :: 'a' ::
    'l' :: 'h' :: 'o' :: 's' :: 't' :: ':' :: '8' :: '0' :: '0' :: '0' :: '/' :: rest) = _
  simp [scanMatch, matchHere]

/-- When the first call is answered, `handleGenerateQR` stores the address of the
answer behind the origin of the ledger. -/
theorem handleGenerateQR_answered (s : AppState) (server : Nat → Except ApiError QrAnswer)
    (res : QrAnswer) (hvalid : validateInput s "amount" = (true, []))
    (hanswer : server 0 = .ok res) :
    (handleGenerateQR s server).state =
      { s with qrUrl := "http://localhost:8000" ++ res.qr_url, loading := false } := by
  have hrun : apiCallWithRetry server defaultRetries defaultDelay =
      ⟨.resolved (some res), [.invoke 0]⟩ := by
    simp only [apiCallWithRetry, defaultRetries, defaultDelay]
    rw [show (3 : Int).toNat = 2 + 1 from rfl, retryLoop]
    simp [hanswer]
  simp only [handleGenerateQR, hvalid, hrun]
  simp

/-- A power of ten with fewer than `n / 4` places is below every positive multiple of
`2 ^ n`. -/
theorem pow_ten_lt_mul (n k m : Nat) (hk : 4 * k < n) (hm : 0 < m) :
    10 ^ k < m * 2 ^ n := by
  have h1 : 10 ^ k ≤ (2 ^ 4) ^ k := Nat.pow_le_pow_left (by decide) k
  have h2 : (2 ^ 4) ^ k < 2 ^ n := by
    rw [← Nat.pow_mul]
    exact Nat.pow_lt_pow_right (by decide) hk
  have h3 : 2 ^ n ≤ m * 2 ^ n := Nat.le_mul_of_pos_left _ hm
  exact lt_of_le_of_lt h1 (lt_of_lt_of_le h2 h3)

/-- C19, as stated, fails: with 12.5 typed as amount, which `validateInput` accepts,
and the generated code answered as "/pay://1/12.5", `handleSimulateScan` reads the
amount 12 and not 12.5; and no text at all is read as the amount 12.5, since the
amount group of the pattern holds digits only. The match has two groups, user id and
amount, and none for a description. -/
theorem scan_amount_counterexample :
    (validateInput { session with amount := "12.5" } "amount").1 = true ∧
      (handleGenerateQR { session with amount := "12.5" }
        (fun _ => .ok ⟨"/pay://1/12.5"⟩)).state.qrUrl = "http://localhost:8000/pay://1/12.5" ∧
      (handleSimulateScan
        (handleGenerateQR { session with amount := "12.5" }
          (fun _ => .ok ⟨"/pay://1/12.5"⟩)).state accepting dashboard4900).effects.head? =
        some (.toastInfo "Simulated QR scan: Paying 12 to user 1") ∧
      ¬ ∃ text u, scanMatch text = some (u, "12.5".toList) := by
  have hv : validateInput { session with amount := "12.5" } "amount" = (true, []) := by
    have hp : parseFloat "12.5" = .finite false 125 (-1) := by decide
    have hno : ¬ ("amount" = "auth") := by decide
    have hround : roundsAboveZero 125 (-1) = true := by
      simp only [roundsAboveZero, show ¬ (0 : Int) ≤ -1 by decide, if_false,
        show (-(-1 : Int)).toNat = 1 by decide, decide_eq_true_eq]
      exact pow_ten_lt_mul 1075 1 125 (by decide) (by decide)
    simp only [validateInput, hno, false_and, if_false, true_and, hp, JsNumber.isPositive, hround]
    simp
  have hstate := handleGenerateQR_answered { session with amount := "12.5" }
    (fun _ => .ok ⟨"/pay://1/12.5"⟩) ⟨"/pay://1/12.5"⟩ hv rfl
  rw [hstate]
  refine ⟨by rw [hv], rfl, ?_, ?_⟩
  · rw [handleSimulateScan_match _ accepting dashboard4900 ['1'] ['1', '2'] (by decide)]
    rfl
  · rintro ⟨text, u, h⟩
    have hd := (scanMatch_groups text u _ h).2.2.2 '.' (by decide)
    revert hd
    decide

/-- C19, amended: for every amount that is a non-empty string of decimal digits and
denotes a number above zero, and every non-empty string of digits `u`: when the ledger
answers the generate-qr request with the address "/pay://u/amount",
`handleGenerateQR` stores "http://localhost:8000/pay://u/amount", and the pattern of
`handleSimulateScan` reads from it exactly `u` and the original amount, which the
notification names. Whatever the text, an amount that is read is a non-empty string
of digits. -/
theorem generated_qr_roundtrip (s : AppState) (u : List Char)
    (qrServer : Nat → Except ApiError QrAnswer) (payServer : Nat → Except ApiError Message)
    (dashboardServer : Nat → Except ApiError Dashboard)
    (hu : u ≠ []) (hud : ∀ c ∈ u, isDigit c = true)
    (ha : s.amount.toList ≠ []) (had : ∀ c ∈ s.amount.toList, isDigit c = true)
    (hpos : 0 < digitValue s.amount.toList)
    (hanswer : qrServer 0 = .ok ⟨"/pay://" ++ String.mk u ++ "/" ++ s.amount⟩) :
    (handleGenerateQR s qrServer).state.qrUrl =
        "http://localhost:8000" ++ ("/pay://" ++ String.mk u ++ "/" ++ s.amount) ∧
      scanMatch (handleGenerateQR s qrServer).state.qrUrl.toList = some (u, s.amount.toList) ∧
      (handleSimulateScan (handleGenerateQR s qrServer).state payServer
          dashboardServer).effects.head? =
        some (.toastInfo
          ("Simulated QR scan: Paying " ++ s.amount ++ " to user " ++ String.mk u)) ∧
      ∀ text v a, scanMatch text = some (v, a) → a ≠ [] ∧ ∀ c ∈ a, isDigit c = true := by
  have hstate := handleGenerateQR_answered s qrServer _ (validateInput_digits s ha had hpos)
    hanswer
  have hurl : (handleGenerateQR s qrServer).state.qrUrl =
      "http://localhost:8000" ++ ("/pay://" ++ String.mk u ++ "/" ++ s.amount) := by
    rw [hstate]
  have hlist : (handleGenerateQR s qrServer).state.qrUrl.toList =
      "http://localhost:8000/".toList ++ ("pay://".toList ++ (u ++ ('/' :: s.amount.toList))) := by
    rw [hurl]
    simp [String.toList, String.data_append]
  have hm : scanMatch (handleGenerateQR s qrServer).state.qrUrl.toList =
      some (u, s.amount.toList) := by
    rw [hlist, scanMatch_origin]
    exact scanMatch_exact u s.amount.toList hu ha hud had
  refine ⟨hurl, hm, ?_, ?_⟩
  · rw [handleSimulateScan_match _ payServer dashboardServer u s.amount.toList hm]
    rfl
  · intro text v a h
    have hg := scanMatch_groups text v a h
    exact ⟨hg.2.1, hg.2.2.2⟩

/-- C19 amended, at amount 500 and user 7. -/
theorem generated_qr_roundtrip_witness :
    (handleGenerateQR { session with amount := "500" }
        (fun _ => .ok ⟨"/pay://" ++ String.mk ['7'] ++ "/" ++
          ({ session with amount := "500" } : AppState).amount⟩)).state.qrUrl =
        "http://localhost:8000" ++ ("/pay://" ++ String.mk ['7'] ++ "/" ++
          ({ session with amount := "500" } : AppState).amount) ∧
      scanMatch (handleGenerateQR { session with amount := "500" }
        (fun _ => .ok ⟨"/pay://" ++ String.mk ['7'] ++ "/" ++
          ({ session with amount := "500" } : AppState).amount⟩)).state.qrUrl.toList =
        some (['7'], ({ session with amount := "500" } : AppState).amount.toList) ∧
      (handleSimulateScan (handleGenerateQR { session with amount := "500" }
          (fun _ => .ok ⟨"/pay://" ++ String.mk ['7'] ++ "/" ++
            ({ session with amount := "500" } : AppState).amount⟩)).state accepting
          dashboard4900).effects.head? =
        some (.toastInfo
          ("Simulated QR scan: Paying " ++ ({ session with amount := "500" } : AppState).amount ++
            " to user " ++ String.mk ['7'])) ∧
      ∀ text v a, scanMatch text = some (v, a) → a ≠ [] ∧ ∀ c ∈ a, isDigit c = true :=
  generated_qr_roundtrip { session with amount := "500" } ['7'] _ accepting dashboard4900
    (by decide) (by decide) (by decide) (by decide) (by decide) rfl

/-- The function `handleFilter` keeps, in their order, the transactions of the
selected type (all of them for "all") whose `toDateString()` text is that of the
selected date (all of them when no date is selected), and leaves `transactions`
alone. -/
theorem handleFilter_spec (localDay : String → Option Int) (s : AppState) :
    (handleFilter localDay s).filteredTransactions =
        s.transactions.filter (fun tx =>
          (s.filterType = "all" ∨ tx.type = s.filterType) ∧
            (s.filterDate = "" ∨ localDay tx.timestamp = localDay s.filterDate)) ∧
      (handleFilter localDay s).transactions = s.transactions := by
  refine ⟨?_, rfl⟩
  by_cases ht : s.filterType = "all" <;> by_cases hd : s.filterDate = "" <;>
    simp [handleFilter, ht, hd, List.filter_filter]
  congr 1
  funext tx
  exact Bool.and_comm _ _

/-- C27, at the failing input: local time is five hours behind UTC and the date
2025-01-01 is selected, with type "all". The filter drops the transaction of the
first of January 2025 (10:00 local time) and yields the transaction of the 31st of
December 2024 (15:00 local time): the selected date, read as midnight UTC, is the
evening before in local time. With local time equal to UTC the same filter yields
the transaction of the first of January. -/
theorem handleFilter_west_of_utc :
    localDayIso (-300) "2025-01-01" = localDayIso (-300) oldYearTx.timestamp ∧
      localDayIso (-300) "2025-01-01" ≠ localDayIso (-300) newYearTx.timestamp ∧
      (handleFilter (localDayIso (-300)) filtering).filteredTransactions = [oldYearTx] ∧
      (handleFilter (localDayIso 0) filtering).filteredTransactions = [newYearTx] := by
  decide

end WalletFrontend

namespace Frontend

/-- C25, at the failing input: the page is loaded offline with the token "t" in
storage, so the state starts with that token and with `user` equal to `null`. After
a click on "Login" the dashboard with its transfer form is shown. Submitting a
transfer then throws at `user.id`: nothing is queued and the loading flag stays
set. -/
theorem handleTransfer_restored_session_throws :
    ∃ s, initialState ⟨some "t", none⟩ false = some s ∧
      tokenPresent s.token = true ∧ s.user = none ∧ s.isOnline = false ∧
      showsDashboard (openLogin s) = true ∧
      (handleTransfer (fillTransferForm (openLogin s) ⟨"bob@x.com", "1000", "rent"⟩) "n"
        (.ok ()) (.ok ⟨0⟩) (.ok [])).threw = true ∧
      (handleTransfer (fillTransferForm (openLogin s) ⟨"bob@x.com", "1000", "rent"⟩) "n"
        (.ok ()) (.ok ⟨0⟩) (.ok [])).state.loading = true ∧
      (handleTransfer (fillTransferForm (openLogin s) ⟨"bob@x.com", "1000", "rent"⟩) "n"
        (.ok ()) (.ok ⟨0⟩) (.ok [])).state.offlineTxs = [] ∧
      (handleTransfer (fillTransferForm (openLogin s) ⟨"bob@x.com", "1000", "rent"⟩) "n"
        (.ok ()) (.ok ⟨0⟩) (.ok [])).state.localStorage.offlineTxs = none := by
  refine ⟨_, rfl, ?_, ?_, ?_, ?_, ?_, ?_, ?_, ?_⟩ <;> decide

end Frontend
